import Mathlib

/-!
# Assignment lifecycle and payout ledger of the Discord assignment platform

A shallow embedding of the route handlers, slash-command handlers and the daily
cron job of `src/index.js`.  The persistent store (MongoDB through mongoose) is
a record of document lists; every handler is a function from the store and its
request to the new store, the replies it sent and the notifications it raised.

Conventions of the embedding
* A collection is the list of its documents in insertion order and the
  `ObjectId` of a document is its position, so `_id` is unique by construction.
  Assignments are never deleted; a deleted user leaves an empty slot.
* JavaScript numbers that hold money are given by their exact rational value.
  The sums and differences of the ledger are taken exactly; the set-payout
  handler, whose arithmetic is the subject of a claim, is also given with the
  rounding of IEEE 754 binary64 (`toDouble`, `setPayoutDouble`).
* `Date` values are integers (milliseconds); the clock is an argument `now`.
* `doc.save()` of a loaded document writes its modified paths onto the stored
  document with the same `_id`.
-/

namespace AssignmentApp

abbrev ObjectId := Nat

abbrev Instant := Int

/-- Modelled from the spec: the status enumeration of the Assignment schema.
`src/models/Assignment.js` holds another user schema and no assignment schema,
so the closed set of states is taken from the state machine of the
specification; the handlers of `src/index.js` write and compare exactly these
strings. -/
inductive Status where
  | pending
  | accepted
  | due
  | pending_client_review
  | ready_for_payout
  | paid
  | cancelled
  deriving DecidableEq, Repr, Inhabited

/-- One element of `attachments` / `completedWorkAttachments`. -/
structure Attachment where
  url : String
  filename : String
  deriving DecidableEq, Repr

/-- Modelled from the spec: the Assignment document (its schema file is absent,
see `Status`).  The fields are the paths the handlers of `src/index.js` read
and write. -/
structure Assignment where
  ownerId : ObjectId
  helperId : Option ObjectId := none
  title : String := ""
  description : String := ""
  complexity : String := "low"
  category : String := ""
  deadline : Instant := 0
  paymentAmount : ℚ := 0
  adminDeterminedHelperPayout : Option ℚ := none
  platformFee : Option ℚ := none
  adminShare : Option ℚ := none
  jolomiShare : Option ℚ := none
  attachments : List Attachment := []
  completedWorkAttachments : List Attachment := []
  status : Status := Status.pending
  discordTicketChannelId : Option String := none
  completedAt : Option Instant := none
  paidAt : Option Instant := none
  deriving DecidableEq, Repr

/-- The User document of `src/models/User.js` (the paths the handlers use). -/
structure User where
  discordId : Option String := none
  username : String := ""
  email : Option String := none
  avatarUrl : Option String := none
  roles : List String := ["client"]
  isAdmin : Bool := false
  specializedCategories : List String := []
  authType : String := "discord"
  isActive : Bool := true
  totalEarnings : ℚ := 0
  deriving DecidableEq, Repr

/-- The Category document of `src/models/Category.js`. -/
structure Category where
  name : String
  description : String := ""
  handlerType : String := "ai_misc"
  discordChannelId : Option String := none
  deriving DecidableEq, Repr

/-- The `payoutTransactionSchema` of `src/index.js`. -/
structure PayoutTransaction where
  assignmentId : ObjectId
  helperId : ObjectId
  amount : ℚ
  transactionId : String
  notes : Option String
  paidAt : Instant
  deriving DecidableEq, Repr

/-- The persistent store: one list of documents per collection. -/
structure Store where
  assignments : List Assignment := []
  users : List (Option User) := []
  categories : List Category := []
  payoutTransactions : List PayoutTransaction := []
  deriving DecidableEq, Repr

/-- The decoded token that `authenticateUser` puts in `req.user`. -/
structure AuthUser where
  userId : ObjectId
  username : String := ""
  isAdmin : Bool := false
  roles : List String := []
  deriving DecidableEq, Repr

/-- An HTTP reply: `res.status(code).json(...)`. -/
structure Response where
  code : Nat
  message : String
  deriving DecidableEq, Repr

/-- A message announced on Discord (through `sendDiscordNotification`, or for a
new assignment through the channel of its category), by kind and assignment. -/
inductive Notification where
  | assignmentAccepted (assignment : ObjectId)
  | assignmentCompleted (assignment : ObjectId)
  | assignmentApproved (assignment : ObjectId)
  | assignmentRejected (assignment : ObjectId) (feedback : String)
  | payoutProcessed (assignment : ObjectId) (transactionId : String)
  | assignmentOverdue (assignment : ObjectId)
  | assignmentPosted (assignment : ObjectId)
  | helperRegistered (username : String)
  | userDeleted (user : ObjectId)
  deriving DecidableEq, Repr

/-- What a route handler leaves behind. -/
structure Outcome where
  store : Store
  response : Response
  notifications : List Notification := []
  deriving DecidableEq, Repr

/-- The string a status is stored as. -/
def Status.toString : Status → String
  | Status.pending => "pending"
  | Status.accepted => "accepted"
  | Status.due => "due"
  | Status.pending_client_review => "pending_client_review"
  | Status.ready_for_payout => "ready_for_payout"
  | Status.paid => "paid"
  | Status.cancelled => "cancelled"

/-! ## Store primitives -/

/-- `Assignment.findById(id)`. -/
def Store.findAssignment (s : Store) (id : ObjectId) : Option Assignment :=
  s.assignments[id]?

/-- `User.findById(id)`. -/
def Store.findUser (s : Store) (id : ObjectId) : Option User :=
  s.users[id]?.join

/-- `User.findOne(filter)`: the first user that matches, with its `_id`. -/
def Store.findOneUser (s : Store) (filter : User → Bool) : Option (ObjectId × User) :=
  (s.users.enum.filterMap (fun entry =>
    entry.2.bind (fun u => if filter u then some (entry.1, u) else none))).head?

/-- The write of `assignment.save()`: the modified paths, given as `f`, are set
on the stored document whose `_id` is `id`. -/
def Store.updateAssignment (s : Store) (id : ObjectId) (f : Assignment → Assignment) : Store :=
  { s with assignments := s.assignments.modify f id }

/-- `User.findByIdAndUpdate(id, update)`. -/
def Store.updateUser (s : Store) (id : ObjectId) (f : User → User) : Store :=
  { s with users := s.users.modify (Option.map f) id }

/-! ## Middleware -/

/-- `authorizeRoles(roles)`: some required role is among the token's roles. -/
def authorizeRoles (roles : List String) (user : AuthUser) : Bool :=
  roles.any (fun role => user.roles.contains role)

/-- `authorizeAdmin`: the token carries `isAdmin`. -/
def authorizeAdmin (user : AuthUser) : Bool :=
  user.isAdmin

/-- The 403 reply of `authorizeRoles(roles)`. -/
def rolesDenied (roles : List String) (s : Store) : Outcome :=
  { store := s,
    response := ⟨403, "Access denied. Requires one of: " ++ ", ".intercalate roles ++ " role(s)."⟩ }

/-- The 403 reply of `authorizeAdmin`. -/
def adminDenied (s : Store) : Outcome :=
  { store := s, response := ⟨403, "Access denied. Admin privileges required."⟩ }

/-! ## POST /assignments/:id/accept -/

/-- The handler of `POST /assignments/:id/accept` behind `authorizeRoles(['helper'])`.
After the save the owner is populated for the notification text; a missing
owner document makes `assignment.ownerId.username` throw into the `catch`. -/
def acceptAssignment (s : Store) (user : AuthUser) (id : ObjectId) : Outcome :=
  if !authorizeRoles ["helper"] user then rolesDenied ["helper"] s else
  match s.findAssignment id, s.findUser user.userId with
  | none, _ => { store := s, response := ⟨404, "Assignment not found."⟩ }
  | some _, none => { store := s, response := ⟨404, "Helper user not found."⟩ }
  | some assignment, some helperUser =>
    if assignment.status ≠ Status.pending then
      { store := s, response := ⟨400, "Assignment is already " ++ assignment.status.toString ++ "."⟩ }
    else if assignment.helperId.isSome then
      { store := s, response := ⟨400, "Assignment is already assigned to a helper."⟩ }
    else if !helperUser.specializedCategories.contains assignment.category then
      { store := s, response := ⟨403, "You are not specialized in the \x27" ++ assignment.category
        ++ "\x27 category and cannot accept this assignment."⟩ }
    else
      let s1 := s.updateAssignment id
        (fun a => { a with helperId := some user.userId, status := Status.accepted })
      match s1.findUser assignment.ownerId with
      | none => { store := s1, response := ⟨500, "Failed to accept assignment."⟩ }
      | some _ =>
        { store := s1, response := ⟨200, "Assignment accepted successfully!"⟩,
          notifications := [Notification.assignmentAccepted id] }

/-! ## POST /assignments/:id/complete -/

/-- One element of `req.files` (multer). -/
structure UploadedFile where
  filename : String
  originalname : String
  deriving DecidableEq, Repr

/-- What happens to a direct message: `client.users.fetch` throws or yields
nothing, `send` throws, or the message is delivered. -/
inductive DmOutcome where
  | fetchThrows
  | fetchedNothing
  | sendThrows
  | delivered
  deriving DecidableEq, Repr

/-- The `req.files.map(...)` of the complete and create routes. -/
def toAttachments (files : Option (List UploadedFile)) : List Attachment :=
  match files with
  | some fs => fs.map (fun file => { url := "/uploads/" ++ file.filename, filename := file.originalname })
  | none => []

/-- A JavaScript string used as a condition: `undefined`, `null` and the empty
string are falsy. -/
def truthy (v : Option String) : Bool :=
  match v with
  | some str => str != ""
  | none => false

/-- The handler of `POST /assignments/:id/complete` behind `authorizeRoles(['helper'])`. -/
def completeAssignment (s : Store) (user : AuthUser) (id : ObjectId)
    (files : Option (List UploadedFile)) (now : Instant) (dm : DmOutcome) : Outcome :=
  if !authorizeRoles ["helper"] user then rolesDenied ["helper"] s else
  match s.findAssignment id with
  | none => { store := s, response := ⟨404, "Assignment not found."⟩ }
  | some assignment =>
    if assignment.helperId ≠ some user.userId then
      { store := s, response := ⟨403, "You are not assigned to this assignment."⟩ }
    else if !([Status.accepted, Status.due].contains assignment.status) then
      { store := s, response := ⟨400, "Assignment status is " ++ assignment.status.toString ++ ". Cannot mark as complete."⟩ }
    else
      let s1 := s.updateAssignment id (fun a =>
        { a with completedWorkAttachments := toAttachments files,
                 status := Status.pending_client_review,
                 completedAt := some now })
      match s1.findUser assignment.ownerId with
      | none => { store := s1, response := ⟨500, "Failed to mark assignment complete."⟩ }
      | some owner =>
        if truthy owner.discordId ∧ (dm = DmOutcome.fetchThrows ∨ dm = DmOutcome.sendThrows) then
          { store := s1, response := ⟨500, "Failed to mark assignment complete."⟩,
            notifications := [Notification.assignmentCompleted id] }
        else
          { store := s1, response := ⟨200, "Assignment marked as complete and submitted for review!"⟩,
            notifications := [Notification.assignmentCompleted id] }

/-! ## POST /assignments/:id/review -/

/-- The handler of `POST /assignments/:id/review` behind `authorizeRoles(['client'])`. -/
def reviewAssignment (s : Store) (user : AuthUser) (id : ObjectId)
    (action : String) (feedback : Option String) : Outcome :=
  if !authorizeRoles ["client"] user then rolesDenied ["client"] s else
  match s.findAssignment id with
  | none => { store := s, response := ⟨404, "Assignment not found."⟩ }
  | some assignment =>
    if assignment.ownerId ≠ user.userId then
      { store := s, response := ⟨403, "You are not the owner of this assignment."⟩ }
    else if assignment.status ≠ Status.pending_client_review then
      { store := s, response := ⟨400, "Assignment status is " ++ assignment.status.toString ++ ". Cannot review."⟩ }
    else if action = "approve" then
      { store := s.updateAssignment id (fun a => { a with status := Status.ready_for_payout }),
        response := ⟨200, "Assignment approved successfully!"⟩,
        notifications := [Notification.assignmentApproved id] }
    else if action = "reject" then
      { store := s.updateAssignment id (fun a =>
          { a with status := Status.accepted, completedWorkAttachments := [] }),
        response := ⟨200, "Assignment rejected successfully!"⟩,
        notifications := [Notification.assignmentRejected id
          (if truthy feedback then feedback.getD "" else "No specific feedback provided.")] }
    else
      { store := s, response := ⟨400, "Invalid review action. Must be \"approve\" or \"reject\"."⟩ }

/-! ## Slash commands approve_work and request_revision -/

/-- Modelled from the spec: the validators of the Assignment schema.  The file
`src/models/Assignment.js` is a copy of the user schema and exports the User
model, under which no assignment document passes validation (`username` and
`authType` are required), so the repository holds no assignment schema.  The
data model of the specification gives the Assignment a complexity out of low,
medium and high and a positive client payment amount.  That the category
references an existing Category at creation is a condition on the Category
collection and no validator of the document: the handlers look the category up
themselves, `createAssignmentTicket` before the save and `POST /assignments`
after it, with a fallback for a category that is missing. -/
def assignmentSchemaValid (doc : Assignment) : Bool :=
  ["low", "medium", "high"].contains doc.complexity && decide (0 < doc.paymentAmount)

/-- The process environment and the runtime the handlers consult: the
configured Discord ids, the JavaScript parsers `new Date(string)` and
`parseFloat` (`none` is an invalid date, respectively `NaN`), and the
validators that `save()` runs on a new assignment document, by default those
of `assignmentSchemaValid`. -/
structure Env where
  MY_DISCORD_ID : Option String := none
  JOLOMI_DISCORD_ID : Option String := none
  GUILD_ID : Option String := none
  parseDate : String → Option Instant := fun _ => none
  parseFloat : String → Option ℚ := fun _ => none
  schemaValid : Assignment → Bool := assignmentSchemaValid

/-- The parts of a Discord interaction the command handlers read. -/
structure Interaction where
  userId : String
  username : String := ""
  hasAdministratorPermission : Bool := false
  deriving DecidableEq, Repr

/-- The `isAdmin` computed at the top of the slash-command handler. -/
def interactionIsAdmin (env : Env) (interaction : Interaction) : Bool :=
  (some interaction.userId == env.MY_DISCORD_ID || some interaction.userId == env.JOLOMI_DISCORD_ID)
    || interaction.hasAdministratorPermission

/-- The contents passed to `interaction.editReply`. -/
inductive CommandReply where
  | assignmentNotFound
  | notAuthorized
  | notInReview (current : Status)
  | approved
  | revisionRequested
  | failedToApprove
  | failedToRequestRevision
  deriving DecidableEq, Repr

/-- What a slash-command handler leaves behind: the store, the replies in the
order they were sent, and the webhook notifications. -/
structure CommandOutcome where
  store : Store
  replies : List CommandReply
  notifications : List Notification := []
  dmSent : Bool := false
  deriving DecidableEq, Repr

/-- The owner test of both commands on the populated `ownerId`:
`!assignment.ownerId || assignment.ownerId.discordId !== interaction.user.id`. -/
def notOwner (owner : Option User) (interaction : Interaction) : Bool :=
  match owner with
  | none => true
  | some o => o.discordId != some interaction.userId

/-- The direct message to the helper after either command.  Inside the guard
`assignment.helperId && assignment.helperId.discordId` the log lines name an
undeclared variable `helper`: the line after a delivered message throws, and so
does the line of the `catch` block, so every path but a fetch that yields
nothing leaves the block by an exception.  Returns (message sent, threw). -/
def helperDm (helper : Option User) (dm : DmOutcome) : Bool × Bool :=
  match helper with
  | none => (false, false)
  | some h =>
    if !truthy h.discordId then (false, false) else
    match dm with
    | DmOutcome.fetchThrows => (false, true)
    | DmOutcome.fetchedNothing => (false, false)
    | DmOutcome.sendThrows => (false, true)
    | DmOutcome.delivered => (true, true)

/-- The `approve_work` branch of the slash-command handler. -/
def approveWork (env : Env) (s : Store) (interaction : Interaction) (id : ObjectId)
    (dm : DmOutcome) : CommandOutcome :=
  match s.findAssignment id with
  | none => { store := s, replies := [CommandReply.assignmentNotFound] }
  | some assignment =>
    let owner := s.findUser assignment.ownerId
    let helper := assignment.helperId.bind s.findUser
    if !interactionIsAdmin env interaction && notOwner owner interaction then
      { store := s, replies := [CommandReply.notAuthorized] }
    else if assignment.status ≠ Status.pending_client_review then
      { store := s, replies := [CommandReply.notInReview assignment.status] }
    else
      let s1 := s.updateAssignment id (fun a => { a with status := Status.ready_for_payout })
      let (sent, threw) := helperDm helper dm
      if threw then
        { store := s1, replies := [CommandReply.approved, CommandReply.failedToApprove],
          dmSent := sent }
      else
        { store := s1, replies := [CommandReply.approved],
          notifications := [Notification.assignmentApproved id], dmSent := sent }

/-- The `request_revision` branch of the slash-command handler. -/
def requestRevision (env : Env) (s : Store) (interaction : Interaction) (id : ObjectId)
    (feedback : String) (dm : DmOutcome) : CommandOutcome :=
  match s.findAssignment id with
  | none => { store := s, replies := [CommandReply.assignmentNotFound] }
  | some assignment =>
    let owner := s.findUser assignment.ownerId
    let helper := assignment.helperId.bind s.findUser
    if !interactionIsAdmin env interaction && notOwner owner interaction then
      { store := s, replies := [CommandReply.notAuthorized] }
    else if assignment.status ≠ Status.pending_client_review then
      { store := s, replies := [CommandReply.notInReview assignment.status] }
    else
      let s1 := s.updateAssignment id (fun a =>
        { a with status := Status.accepted, completedWorkAttachments := [] })
      let (sent, threw) := helperDm helper dm
      if threw then
        { store := s1, replies := [CommandReply.revisionRequested, CommandReply.failedToRequestRevision],
          dmSent := sent }
      else
        { store := s1, replies := [CommandReply.revisionRequested],
          notifications := [Notification.assignmentRejected id
            (if feedback != "" then feedback else "No specific feedback provided.")],
          dmSent := sent }

/-! ## PUT /admin/assignments/:id/set-payout -/

/-- A field of a parsed JSON request body. -/
inductive JsonValue where
  | missing
  | null
  | bool (b : Bool)
  | number (x : ℚ)
  | string (str : String)
  deriving DecidableEq, Repr

/-- The handler of `PUT /admin/assignments/:id/set-payout` behind `authorizeAdmin`,
with the amounts taken as exact values: the difference and the two products
are not rounded.  `setPayoutDouble` below is the same handler in the arithmetic
of JavaScript numbers; the two agree whenever no result needs rounding. -/
def setPayout (s : Store) (user : AuthUser) (id : ObjectId) (helperPayoutAmount : JsonValue) : Outcome :=
  if !authorizeAdmin user then adminDenied s else
  match helperPayoutAmount with
  | JsonValue.number x =>
    if x < 0 then
      { store := s, response := ⟨400, "Helper payout amount must be a non-negative number."⟩ }
    else
      match s.findAssignment id with
      | none => { store := s, response := ⟨404, "Assignment not found."⟩ }
      | some assignment =>
        let platformFee := assignment.paymentAmount - x
        let adminShare := platformFee * (1 / 2)
        let jolomiShare := platformFee * (1 / 2)
        { store := s.updateAssignment id (fun a =>
            { a with adminDeterminedHelperPayout := some x,
                     platformFee := some platformFee,
                     adminShare := some adminShare,
                     jolomiShare := some jolomiShare }),
          response := ⟨200, "Helper payout amount set successfully."⟩ }
  | _ => { store := s, response := ⟨400, "Helper payout amount must be a non-negative number."⟩ }

/-! ## JavaScript numbers in set-payout -/

/-- Rounding to the nearest integer, a tie going to the even neighbour. -/
def roundHalfEven (r : ℚ) : ℤ :=
  if r - ⌊r⌋ < 1 / 2 then ⌊r⌋
  else if 1 / 2 < r - ⌊r⌋ then ⌊r⌋ + 1
  else if ⌊r⌋ % 2 = 0 then ⌊r⌋ else ⌊r⌋ + 1

/-- The exponent of the unit in the last place of the binary64 values around
`q`: 52 binary places below the leading bit of `q`, and -1074 throughout the
subnormal range. -/
def ulpExponent (q : ℚ) : ℤ := max (Int.log 2 |q| - 52) (-1074)

/-- The multiple of the unit in the last place nearest to `q`, a tie going to
the even multiple (IEEE 754 roundTiesToEven, before the test for overflow). -/
def roundDouble (q : ℚ) : ℚ :=
  roundHalfEven (q / 2 ^ ulpExponent q) * 2 ^ ulpExponent q

/-- The JavaScript number for the exact value `q`: what `JSON.parse` gives for
a number literal and what `-` and `*` give for the exact result of their
operands.  A finite number is given by its value (-0 is not told from 0);
`none` is Infinity or -Infinity, the result when the rounded magnitude reaches
2^1024. -/
def toDouble (q : ℚ) : Option ℚ :=
  if |roundDouble q| < 2 ^ (1024 : ℤ) then some (roundDouble q) else none

/-- The handler of `PUT /admin/assignments/:id/set-payout` behind `authorizeAdmin`
in the arithmetic of JavaScript numbers.  The number of the body is the double
nearest to its literal, `assignment.paymentAmount - helperPayoutAmount` and
`platformFee * 0.5` round their exact results, and both shares are the same
product.  `none`: the handler stores a number that is not finite (the literal
lies beyond the range of the doubles, as 1e999 does, or the difference
overflows), which the amounts of the store model do not represent. -/
def setPayoutDouble (s : Store) (user : AuthUser) (id : ObjectId)
    (helperPayoutAmount : JsonValue) : Option Outcome :=
  if !authorizeAdmin user then some (adminDenied s) else
  match helperPayoutAmount with
  | JsonValue.number literal =>
    match toDouble literal with
    | none =>
      if literal < 0 then
        some { store := s,
               response := ⟨400, "Helper payout amount must be a non-negative number."⟩ }
      else
        match s.findAssignment id with
        | none => some { store := s, response := ⟨404, "Assignment not found."⟩ }
        | some _ => none
    | some x =>
      if x < 0 then
        some { store := s,
               response := ⟨400, "Helper payout amount must be a non-negative number."⟩ }
      else
        match s.findAssignment id with
        | none => some { store := s, response := ⟨404, "Assignment not found."⟩ }
        | some assignment =>
          match toDouble (assignment.paymentAmount - x) with
          | none => none
          | some platformFee =>
            match toDouble (platformFee * (1 / 2)) with
            | none => none
            | some share =>
              some { store := s.updateAssignment id (fun a =>
                       { a with adminDeterminedHelperPayout := some x,
                                platformFee := some platformFee,
                                adminShare := some share,
                                jolomiShare := some share }),
                     response := ⟨200, "Helper payout amount set successfully."⟩ }
  | _ => some { store := s,
                response := ⟨400, "Helper payout amount must be a non-negative number."⟩ }

/-! ## POST /admin/assignments/:id/pay -/

/-- The write of the pay handler at which the store fails, if any. -/
inductive PayFault where
  | assignmentSave
  | transactionSave
  | earningsUpdate
  deriving DecidableEq, Repr

/-- The handler of `POST /admin/assignments/:id/pay` behind `authorizeAdmin`.
Its three writes run one after the other, each awaited; a rejected write throws
into the `catch`, which answers 500 and undoes nothing. -/
def payAssignment (s : Store) (user : AuthUser) (id : ObjectId)
    (transactionId : Option String) (notes : Option String) (now : Instant)
    (fault : Option PayFault) : Outcome :=
  if !authorizeAdmin user then adminDenied s else
  if !truthy transactionId then
    { store := s, response := ⟨400, "Transaction ID is required to mark as paid."⟩ }
  else
  match s.findAssignment id with
  | none => { store := s, response := ⟨404, "Assignment not found."⟩ }
  | some assignment =>
    if assignment.status ≠ Status.ready_for_payout then
      { store := s, response := ⟨400, "Assignment is not in \x27ready_for_payout\x27 status. Current status: "
          ++ assignment.status.toString ++ "."⟩ }
    else
    match assignment.helperId with
    | none => { store := s, response := ⟨400, "Cannot process payout: No helper assigned to this assignment."⟩ }
    | some helperId =>
      match assignment.adminDeterminedHelperPayout with
      | none => { store := s, response :=
          ⟨400, "Cannot process payout: Helper payout amount has not been determined by admin."⟩ }
      | some amount =>
        if fault = some PayFault.assignmentSave then
          { store := s, response := ⟨500, "Failed to process payout."⟩ }
        else
        let s1 := s.updateAssignment id (fun a => { a with status := Status.paid, paidAt := some now })
        if fault = some PayFault.transactionSave then
          { store := s1, response := ⟨500, "Failed to process payout."⟩ }
        else
        let newPayoutTransaction : PayoutTransaction :=
          { assignmentId := id, helperId := helperId, amount := amount,
            transactionId := transactionId.getD "", notes := notes, paidAt := now }
        let s2 := { s1 with payoutTransactions := s1.payoutTransactions ++ [newPayoutTransaction] }
        if fault = some PayFault.earningsUpdate then
          { store := s2, response := ⟨500, "Failed to process payout."⟩ }
        else
        let s3 := s2.updateUser helperId (fun u => { u with totalEarnings := u.totalEarnings + amount })
        match s3.findUser helperId with
        | none => { store := s3, response := ⟨500, "Failed to process payout."⟩ }
        | some _ =>
          { store := s3, response := ⟨200, "Payout recorded successfully! Assignment marked as paid."⟩,
            notifications := [Notification.payoutProcessed id (transactionId.getD "")] }

/-! ## The daily status check -/

/-- The `for` loop of the cron job over the documents found: each is set to
`due`, saved and announced; a save that throws leaves the loop for the `catch`
around it. -/
def dailyStatusLoop (saveFails : ObjectId → Bool) :
    List (ObjectId × Assignment) → Store → List Notification → Store × List Notification
  | [], s, sent => (s, sent)
  | assignment :: rest, s, sent =>
    if saveFails assignment.1 then (s, sent)
    else dailyStatusLoop saveFails rest
      (s.updateAssignment assignment.1 (fun a => { a with status := Status.due }))
      (sent ++ [Notification.assignmentOverdue assignment.1])

/-- The cron job `0 0 * * *`: find the accepted assignments whose deadline has
passed and run the loop over them. -/
def dailyStatusCheck (s : Store) (now : Instant) (saveFails : ObjectId → Bool) :
    Store × List Notification :=
  let assignmentsToUpdate := s.assignments.enum.filter
    (fun entry => [Status.accepted].contains entry.2.status && decide (entry.2.deadline < now))
  dailyStatusLoop saveFails assignmentsToUpdate s []

/-! ## Creation: POST /assignments and the ticket modal -/

/-- The body fields of `POST /assignments`. -/
structure AssignmentBody where
  title : Option String := none
  description : Option String := none
  complexity : Option String := none
  category : Option String := none
  deadline : Option String := none
  paymentAmount : Option String := none
  deriving DecidableEq, Repr

/-- `newAssignment.save()` of a fresh document: casting fails on an invalid date
or `NaN`, then the schema validators run; a valid document is inserted under a
new `_id`. -/
def Store.insertAssignment (env : Env) (s : Store) (deadline : Option Instant)
    (paymentAmount : Option ℚ) (mk : Instant → ℚ → Assignment) : Option Store :=
  match deadline, paymentAmount with
  | some d, some amount =>
    let doc := mk d amount
    if env.schemaValid doc then some { s with assignments := s.assignments ++ [doc] }
    else none
  | _, _ => none

/-- The handler of `POST /assignments` (behind `authenticateUser` only).
`channelSendThrows` tells whether the targeted `discordChannel.send` throws. -/
def createAssignment (env : Env) (s : Store) (user : AuthUser) (body : AssignmentBody)
    (files : Option (List UploadedFile)) (channelSendThrows : Bool) : Outcome :=
  if !truthy body.title || !truthy body.description || !truthy body.complexity
      || !truthy body.category || !truthy body.deadline || !truthy body.paymentAmount then
    { store := s, response := ⟨400, "All required assignment fields must be provided."⟩ }
  else
    match s.insertAssignment env (env.parseDate (body.deadline.getD ""))
        (env.parseFloat (body.paymentAmount.getD ""))
        (fun deadline amount =>
          { ownerId := user.userId, title := body.title.getD "",
            description := body.description.getD "", complexity := body.complexity.getD "",
            category := body.category.getD "", deadline := deadline, paymentAmount := amount,
            attachments := toAttachments files, status := Status.pending }) with
    | none => { store := s, response := ⟨500, "Failed to create assignment."⟩ }
    | some s1 =>
      match s1.categories.find? (fun c => c.name == body.category.getD "") with
      | some assignmentCategory =>
        if truthy assignmentCategory.discordChannelId && channelSendThrows then
          { store := s1, response := ⟨500, "Failed to create assignment."⟩ }
        else
          { store := s1, response := ⟨201, "Assignment created successfully!"⟩,
            notifications := [Notification.assignmentPosted s.assignments.length] }
      | none =>
        { store := s1, response := ⟨201, "Assignment created successfully!"⟩,
          notifications := [Notification.assignmentPosted s.assignments.length] }

/-- The Discord side of one ticket request: whether the guild is in the
client cache, the id of the channel `guild.channels.create` returns (`none`
when it throws), and whether a later send or reply throws. -/
structure TicketWorld where
  guildInCache : Bool := true
  channelCreated : Option String := some "ticket"
  laterSendThrows : Bool := false
  deriving DecidableEq, Repr

/-- The replies of the ticket flow. -/
inductive TicketReply where
  | invalidPayment
  | invalidComplexity
  | configurationError
  | invalidDeadline
  | categoryNotFound
  | botNotInGuild
  | created
  | failed
  deriving DecidableEq, Repr

/-- What the ticket flow leaves behind. -/
structure TicketOutcome where
  store : Store
  replies : List TicketReply
  deriving DecidableEq, Repr

/-- The first part of the `try` block of `createAssignmentTicket`: find the user
by Discord id, creating a client account or adding the client role.  `none`
when the save throws (the unique index on `username`). -/
def Store.ensureClient (s : Store) (interaction : Interaction) : Option (Store × ObjectId) :=
  match s.findOneUser (fun u => u.discordId == some interaction.userId) with
  | none =>
    if (s.findOneUser (fun u => u.username == interaction.username)).isSome then none
    else
      let user : User :=
        { discordId := some interaction.userId, username := interaction.username,
          roles := ["client"], isAdmin := false, authType := "discord", isActive := true }
      some ({ s with users := s.users ++ [some user] }, s.users.length)
  | some (userId, user) =>
    if !user.roles.contains "client" then
      some (s.updateUser userId (fun u => { u with roles := u.roles ++ ["client"] }), userId)
    else some (s, userId)

/-- The pattern `^(\d{4}-\d{2}-\d{2})[ T]?(\d{2}:\d{2})$` of the deadline
parser: the date part and the time part when the string matches. -/
def matchDeadline (deadlineString : String) : Option (String × String) :=
  let cs := deadlineString.toList
  let datePart := cs.take 10
  let rest := cs.drop 10
  let timePart := if rest.length = 6 then rest.drop 1 else rest
  let dateOk := match datePart with
    | [y1, y2, y3, y4, d1, m1, m2, d2, a1, a2] =>
      [y1, y2, y3, y4, m1, m2, a1, a2].all Char.isDigit && d1 == '-' && d2 == '-'
    | _ => false
  let sepOk := rest.length = 5 || (rest.length = 6 && (rest.head? == some ' ' || rest.head? == some 'T'))
  let timeOk := match timePart with
    | [h1, h2, c, n1, n2] => [h1, h2, n1, n2].all Char.isDigit && c == ':'
    | _ => false
  if dateOk && sepOk && timeOk then some (String.mk datePart, String.mk timePart) else none

/-- The deadline block of `createAssignmentTicket`: a string in the expected
format is rebuilt as `<date>T<time>:00` before `new Date`, any other string is
handed to `new Date` as it is. -/
def parseDeadline (env : Env) (deadlineString : String) : Option Instant :=
  match matchDeadline deadlineString with
  | some (datePart, timePart) => env.parseDate (datePart ++ "T" ++ timePart ++ ":00")
  | none => env.parseDate deadlineString

/-- The function `createAssignmentTicket` (called without an attachment). -/
def createAssignmentTicket (env : Env) (s : Store) (interaction : Interaction)
    (title description categoryName : String) (paymentAmount : ℚ) (deadlineString : String)
    (complexity : String) (world : TicketWorld) : TicketOutcome :=
  if !truthy env.GUILD_ID then { store := s, replies := [TicketReply.configurationError] } else
  match parseDeadline env deadlineString with
  | none => { store := s, replies := [TicketReply.invalidDeadline] }
  | some deadline =>
    match s.ensureClient interaction with
    | none => { store := s, replies := [TicketReply.failed] }
    | some (s1, userId) =>
      match s1.categories.find? (fun c => c.name == categoryName) with
      | none => { store := s1, replies := [TicketReply.categoryNotFound] }
      | some category =>
        if !world.guildInCache then { store := s1, replies := [TicketReply.botNotInGuild] } else
        match world.channelCreated with
        | none => { store := s1, replies := [TicketReply.failed] }
        | some channelId =>
          match s1.insertAssignment env (some deadline) (some paymentAmount)
              (fun deadline amount =>
                { ownerId := userId, title := title, description := description,
                  complexity := complexity, category := category.name, deadline := deadline,
                  paymentAmount := amount, attachments := [], status := Status.pending,
                  discordTicketChannelId := some channelId }) with
          | none => { store := s1, replies := [TicketReply.failed] }
          | some s2 =>
            if world.laterSendThrows then { store := s2, replies := [TicketReply.failed] }
            else { store := s2, replies := [TicketReply.created] }

/-- The submit handler of `create_assignment_modal`. -/
def createAssignmentModal (env : Env) (s : Store) (interaction : Interaction)
    (title description categoryName paymentInput deadlineString complexityInput : String)
    (world : TicketWorld) : TicketOutcome :=
  let complexity := complexityInput.toLower
  match env.parseFloat paymentInput with
  | none => { store := s, replies := [TicketReply.invalidPayment] }
  | some paymentAmount =>
    if paymentAmount ≤ 0 then { store := s, replies := [TicketReply.invalidPayment] }
    else if !(["low", "medium", "high"].contains complexity) then
      { store := s, replies := [TicketReply.invalidComplexity] }
    else
      createAssignmentTicket env s interaction title description categoryName paymentAmount
        deadlineString complexity world

/-! ## Lifecycle operations as one step function -/

/-- One lifecycle operation with its request and the behaviour of the outside
world during it. -/
inductive Op where
  | create (user : AuthUser) (body : AssignmentBody) (files : Option (List UploadedFile))
      (channelSendThrows : Bool)
  | createModal (interaction : Interaction)
      (title description categoryName paymentInput deadlineString complexityInput : String)
      (world : TicketWorld)
  | accept (user : AuthUser) (id : ObjectId)
  | complete (user : AuthUser) (id : ObjectId) (files : Option (List UploadedFile))
      (now : Instant) (dm : DmOutcome)
  | review (user : AuthUser) (id : ObjectId) (action : String) (feedback : Option String)
  | approveWork (interaction : Interaction) (id : ObjectId) (dm : DmOutcome)
  | requestRevision (interaction : Interaction) (id : ObjectId) (feedback : String) (dm : DmOutcome)
  | setPayout (user : AuthUser) (id : ObjectId) (helperPayoutAmount : JsonValue)
  | pay (user : AuthUser) (id : ObjectId) (transactionId : Option String) (notes : Option String)
      (now : Instant) (fault : Option PayFault)
  | dailyStatusCheck (now : Instant) (failing : List ObjectId)
  deriving DecidableEq, Repr

/-- The store after one operation. -/
def step (env : Env) (s : Store) : Op → Store
  | Op.create user body files channelSendThrows =>
    (createAssignment env s user body files channelSendThrows).store
  | Op.createModal interaction title description categoryName paymentInput deadlineString
      complexityInput world =>
    (createAssignmentModal env s interaction title description categoryName paymentInput
      deadlineString complexityInput world).store
  | Op.accept user id => (acceptAssignment s user id).store
  | Op.complete user id files now dm => (completeAssignment s user id files now dm).store
  | Op.review user id action feedback => (reviewAssignment s user id action feedback).store
  | Op.approveWork interaction id dm => (approveWork env s interaction id dm).store
  | Op.requestRevision interaction id feedback dm =>
    (requestRevision env s interaction id feedback dm).store
  | Op.setPayout user id helperPayoutAmount => (setPayout s user id helperPayoutAmount).store
  | Op.pay user id transactionId notes now fault =>
    (payAssignment s user id transactionId notes now fault).store
  | Op.dailyStatusCheck now failing =>
    (dailyStatusCheck s now (fun id => failing.contains id)).1

/-- The store after a sequence of operations, executed one at a time. -/
def run (env : Env) (s : Store) (ops : List Op) : Store :=
  ops.foldl (step env) s

/-- The stores an execution passes through, the initial one first. -/
def trace (env : Env) (s : Store) : List Op → List Store
  | [] => [s]
  | op :: ops => s :: trace env (step env s op) ops

/-- An operation during which no store write fails. -/
def Op.faultFree : Op → Bool
  | Op.pay _ _ _ _ _ fault => fault.isNone
  | Op.dailyStatusCheck _ failing => failing.isEmpty
  | _ => true

/-- The status of assignment `id` in a store, if the assignment exists. -/
def Store.statusOf (s : Store) (id : ObjectId) : Option Status :=
  (s.findAssignment id).map (fun a => a.status)

/-- The edges of the status graph. -/
def Edge : Status → Status → Bool
  | Status.pending, Status.accepted => true
  | Status.accepted, Status.due => true
  | Status.accepted, Status.pending_client_review => true
  | Status.due, Status.pending_client_review => true
  | Status.pending_client_review, Status.ready_for_payout => true
  | Status.pending_client_review, Status.accepted => true
  | Status.ready_for_payout, Status.paid => true
  | _, _ => false

/-- A legal change of the status of one assignment id between two consecutive
stores: nothing changes, the assignment is created pending, or the status moves
along an edge. -/
def legalMove : Option Status → Option Status → Bool
  | none, none => true
  | none, some Status.pending => true
  | some x, some y => x == y || Edge x y
  | _, _ => false

/-- What an operation other than Pay may do to one assignment document: leave
it as it is, create it, or apply the write of one handler under the guards of
that handler. -/
inductive QuietMove : Option Assignment → Option Assignment → Prop where
  | same (x : Option Assignment) : QuietMove x x
  | created (a : Assignment) (hs : a.status = Status.pending) (hh : a.helperId = none)
      (hp : a.adminDeterminedHelperPayout = none) (hf : a.platformFee = none)
      (hpaid : a.paidAt = none) : QuietMove none (some a)
  | accepted (a : Assignment) (h : ObjectId) (hs : a.status = Status.pending)
      (hh : a.helperId = none) :
      QuietMove (some a) (some { a with helperId := some h, status := Status.accepted })
  | completed (a : Assignment) (h : ObjectId) (work : List Attachment) (now : Instant)
      (hh : a.helperId = some h) (hs : a.status = Status.accepted ∨ a.status = Status.due) :
      QuietMove (some a) (some
        { a with completedWorkAttachments := work, status := Status.pending_client_review,
                 completedAt := some now })
  | approved (a : Assignment) (hs : a.status = Status.pending_client_review) :
      QuietMove (some a) (some { a with status := Status.ready_for_payout })
  | revised (a : Assignment) (hs : a.status = Status.pending_client_review) :
      QuietMove (some a) (some { a with status := Status.accepted, completedWorkAttachments := [] })
  | payoutSet (a : Assignment) (x : ℚ) (hx : 0 ≤ x) :
      QuietMove (some a) (some
        { a with adminDeterminedHelperPayout := some x,
                 platformFee := some (a.paymentAmount - x),
                 adminShare := some ((a.paymentAmount - x) * (1 / 2)),
                 jolomiShare := some ((a.paymentAmount - x) * (1 / 2)) })
  | overdue (a : Assignment) (hs : a.status = Status.accepted) :
      QuietMove (some a) (some { a with status := Status.due })

/-- What one lifecycle operation may do to one assignment document: a move of
`QuietMove`, or the first write of Pay under the guards of Pay. -/
inductive DocMove : Option Assignment → Option Assignment → Prop where
  | quiet (x y : Option Assignment) (h : QuietMove x y) : DocMove x y
  | paid (a : Assignment) (h : ObjectId) (amount : ℚ) (now : Instant)
      (hs : a.status = Status.ready_for_payout) (hh : a.helperId = some h)
      (hp : a.adminDeterminedHelperPayout = some amount) :
      DocMove (some a) (some { a with status := Status.paid, paidAt := some now })

/-! ## Two Accept requests in flight

The accept handler gives up control at each `await`: after
`Assignment.findById`, after `User.findById`, after `assignment.save()` and
after `assignment.populate`.  Between two awaits its code runs without
interruption, so a request is a small machine whose steps are the stretches of
code between awaits; the store is read or written only in the step that issues
the call. -/

/-- Where an Accept request stands. -/
inductive AcceptStage where
  | start
  | foundAssignment (assignment : Option Assignment)
  | foundBoth (assignment : Option Assignment) (helperUser : Option User)
  | saved (assignment : Assignment)
  | replied (response : Response)
  deriving DecidableEq, Repr

/-- An Accept request in flight: its token, the assignment id and its stage. -/
structure AcceptRequest where
  user : AuthUser
  id : ObjectId
  stage : AcceptStage := AcceptStage.start
  deriving DecidableEq, Repr

/-- The request after it has sent a reply. -/
def AcceptRequest.reply (r : AcceptRequest) (response : Response) : AcceptRequest :=
  { r with stage := AcceptStage.replied response }

/-- One stretch of the accept handler between two awaits.  The checks run on
the documents the request loaded earlier, and `assignment.save()` sets the two
modified paths on the stored document whatever it holds by then. -/
def acceptAdvance (s : Store) (r : AcceptRequest) : Store × AcceptRequest :=
  match r.stage with
  | AcceptStage.start =>
    if !authorizeRoles ["helper"] r.user then (s, r.reply (rolesDenied ["helper"] s).response)
    else (s, { r with stage := AcceptStage.foundAssignment (s.findAssignment r.id) })
  | AcceptStage.foundAssignment assignment =>
    (s, { r with stage := AcceptStage.foundBoth assignment (s.findUser r.user.userId) })
  | AcceptStage.foundBoth none _ => (s, r.reply ⟨404, "Assignment not found."⟩)
  | AcceptStage.foundBoth (some _) none => (s, r.reply ⟨404, "Helper user not found."⟩)
  | AcceptStage.foundBoth (some assignment) (some helperUser) =>
    if assignment.status ≠ Status.pending then
      (s, r.reply ⟨400, "Assignment is already " ++ assignment.status.toString ++ "."⟩)
    else if assignment.helperId.isSome then
      (s, r.reply ⟨400, "Assignment is already assigned to a helper."⟩)
    else if !helperUser.specializedCategories.contains assignment.category then
      (s, r.reply ⟨403, "You are not specialized in the \x27" ++ assignment.category
        ++ "\x27 category and cannot accept this assignment."⟩)
    else
      (s.updateAssignment r.id
          (fun a => { a with helperId := some r.user.userId, status := Status.accepted }),
        { r with stage := AcceptStage.saved assignment })
  | AcceptStage.saved assignment =>
    match s.findUser assignment.ownerId with
    | none => (s, r.reply ⟨500, "Failed to accept assignment."⟩)
    | some _ => (s, r.reply ⟨200, "Assignment accepted successfully!"⟩)
  | AcceptStage.replied _ => (s, r)

/-- Two requests interleaved by a schedule: `false` lets the first request run
its next stretch, `true` the second. -/
def interleave : List Bool → Store × AcceptRequest × AcceptRequest → Store × AcceptRequest × AcceptRequest
  | [], state => state
  | false :: rest, (s, r1, r2) =>
    interleave rest ((acceptAdvance s r1).1, (acceptAdvance s r1).2, r2)
  | true :: rest, (s, r1, r2) =>
    interleave rest ((acceptAdvance s r2).1, r1, (acceptAdvance s r2).2)

/-- One request run alone through its four stretches. -/
def acceptAlone (s : Store) (user : AuthUser) (id : ObjectId) : Store × AcceptRequest :=
  let step1 := acceptAdvance s { user := user, id := id }
  let step2 := acceptAdvance step1.1 step1.2
  let step3 := acceptAdvance step2.1 step2.2
  acceptAdvance step3.1 step3.2

/-- The payout transactions that refer to assignment `id`. -/
def Store.payoutsFor (s : Store) (id : ObjectId) : List PayoutTransaction :=
  s.payoutTransactions.filter (fun t => t.assignmentId == id)

/-- The number of payout transactions an assignment document calls for: one
when it is paid, none otherwise or when there is no document. -/
def paidCount (x : Option Assignment) : Nat :=
  match x with
  | some a => if a.status = Status.paid then 1 else 0
  | none => 0

/-- A store before any assignment is created: accounts and categories only. -/
def initialStore (users : List (Option User)) (categories : List Category) : Store :=
  { users := users, categories := categories }

/-- The stores that lifecycle operations, with or without storage failures,
lead to from a store without assignments. -/
def Reachable (env : Env) (s : Store) : Prop :=
  ∃ users categories ops, s = run env (initialStore users categories) ops

/-- The stores that lifecycle operations lead to when no store write fails. -/
def ReachableWithoutFaults (env : Env) (s : Store) : Prop :=
  ∃ users categories ops, (∀ op ∈ ops, Op.faultFree op = true)
    ∧ s = run env (initialStore users categories) ops

/-- The documents the query of the cron job returns, each with its id:
`{ status: { $in: ['accepted'] }, deadline: { $lt: now } }`. -/
def Store.overdueAccepted (s : Store) (now : Instant) : List (ObjectId × Assignment) :=
  s.assignments.enum.filter
    (fun entry => [Status.accepted].contains entry.2.status && decide (entry.2.deadline < now))

/-! ## GET /admin/financial-summary -/

/-- The three figures of the financial summary. -/
structure FinancialSummary where
  totalClientPayments : ℚ
  totalHelperPayouts : ℚ
  platformProfit : ℚ
  deriving DecidableEq, Repr

/-- The `$group` stage `{ _id: null, total: { $sum: field } }`: one result
document holding the sum, or no result document when no document comes in. -/
def groupTotal (docs : List Assignment) (field : Assignment → ℚ) : List ℚ :=
  if docs.isEmpty then [] else [(docs.map field).sum]

/-- The body of the summary handler: two aggregations and their difference. -/
def summarize (assignments : List Assignment) : FinancialSummary :=
  let totalClientPaymentsResult := groupTotal assignments (fun a => a.paymentAmount)
  let totalClientPayments := totalClientPaymentsResult.headD 0
  let totalHelperPayoutsResult := groupTotal
    (assignments.filter
      (fun a => a.status == Status.paid && a.adminDeterminedHelperPayout.isSome))
    (fun a => a.adminDeterminedHelperPayout.getD 0)
  let totalHelperPayouts := totalHelperPayoutsResult.headD 0
  { totalClientPayments := totalClientPayments,
    totalHelperPayouts := totalHelperPayouts,
    platformProfit := totalClientPayments - totalHelperPayouts }

/-- What the summary route answers. -/
structure SummaryOutcome where
  response : Response
  summary : Option FinancialSummary := none
  deriving DecidableEq, Repr

/-- The handler of `GET /admin/financial-summary` behind `authorizeAdmin`. -/
def financialSummary (s : Store) (user : AuthUser) : SummaryOutcome :=
  if !authorizeAdmin user then { response := (adminDenied s).response }
  else
    { response := ⟨200, "Financial summary retrieved successfully."⟩,
      summary := some (summarize s.assignments) }

/-! ## The authorization rule as the specification words it -/

/-- The rule in the words of the specification, to compare the entry points
with: an actor is privileged for an owner action on an assignment if they are
its owner or hold the admin role. -/
def specOwnerOrAdmin (s : Store) (actor : ObjectId) (a : Assignment) : Bool :=
  a.ownerId == actor || (s.findUser actor).any (fun u => u.roles.contains "admin")


/-! ## Startup: ensureAdminsExist (src/adminUtils.js) -/

/-- One entry of the list `adminsToEnsure`. -/
structure AdminData where
  discordId : Option String
  username : String
  email : String
  roles : List String := ["admin", "client"]
  isAdmin : Bool := true
  authType : String := "discord"
  isActive : Bool := true
  deriving DecidableEq, Repr

/-- The list `adminsToEnsure` for the two configured Discord ids. -/
def adminsToEnsure (myDiscordId jolomiDiscordId : Option String) : List AdminData :=
  [{ discordId := myDiscordId, username := "benimaru177",
     email := "benimaru.admin@example.com" },
   { discordId := jolomiDiscordId, username := "streetfighter0542",
     email := "jolomi.admin@example.com" }]

/-- The body of the `for` loop of `ensureAdminsExist` for one entry: the account
with that Discord id is created, or brought up to date and saved if something
changed.  An id that is not configured reaches the query as `undefined`, which
is sent as `null` and matches the accounts without a Discord id.  `none` when
the save throws. -/
def ensureAdmin (s : Store) (adminData : AdminData) (saveFails : Bool) : Option Store :=
  match s.findOneUser (fun u => u.discordId == adminData.discordId) with
  | none =>
    if saveFails then none
    else
      let user : User :=
        { discordId := adminData.discordId, username := adminData.username,
          email := some adminData.email, roles := adminData.roles, isAdmin := adminData.isAdmin,
          authType := adminData.authType, isActive := adminData.isActive }
      some { s with users := s.users ++ [some user] }
  | some (userId, user) =>
    let changed := !user.roles.contains "admin" || !user.isAdmin
      || user.username != adminData.username || user.email != some adminData.email
      || user.authType != adminData.authType || user.isActive != adminData.isActive
    if changed then
      if saveFails then none
      else
        some (s.updateUser userId (fun u =>
          { u with roles := if !u.roles.contains "admin" then u.roles ++ ["admin"] else u.roles,
                   isAdmin := true, username := adminData.username,
                   email := some adminData.email, authType := adminData.authType,
                   isActive := adminData.isActive }))
    else some s

/-- The `for` loop of `ensureAdminsExist` inside its `try`: a save that throws
ends the loop. -/
def ensureAdminsLoop (failing : List AdminData) : List AdminData → Store → Store
  | [], s => s
  | adminData :: rest, s =>
    match ensureAdmin s adminData (failing.contains adminData) with
    | none => s
    | some s1 => ensureAdminsLoop failing rest s1

/-- The function `ensureAdminsExist(myDiscordId, jolomiDiscordId)`, called at
startup with the two configured ids; `failing` lists the entries whose save
throws. -/
def ensureAdminsExist (env : Env) (s : Store) (failing : List AdminData) : Store :=
  ensureAdminsLoop failing (adminsToEnsure env.MY_DISCORD_ID env.JOLOMI_DISCORD_ID) s

/-! ## POST /auth/discord/exchange-code -/

/-- The profile that `https://discord.com/api/users/@me` returns. -/
structure DiscordProfile where
  id : String
  username : String
  avatar : Option String := none
  email : Option String := none
  deriving DecidableEq, Repr

/-- The avatar address built from a profile, `null` without an avatar. -/
def avatarUrlOf (discordUser : DiscordProfile) : Option String :=
  if truthy discordUser.avatar then
    some ("https://cdn.discordapp.com/avatars/" ++ discordUser.id ++ "/"
      ++ discordUser.avatar.getD "" ++ ".png")
  else none

/-- The handler of `POST /auth/discord/exchange-code`.  `profile` is what the
two calls to Discord yield (`none` when one of them throws); `saveFails` tells
whether `user.save()` throws. -/
def exchangeCode (s : Store) (code : Option String) (profile : Option DiscordProfile)
    (saveFails : Bool) : Outcome :=
  if !truthy code then { store := s, response := ⟨400, "Authorization code missing."⟩ } else
  match profile with
  | none => { store := s, response := ⟨500, "Discord authentication failed."⟩ }
  | some discordUser =>
    match s.findOneUser (fun u => u.discordId == some discordUser.id) with
    | none =>
      if saveFails then { store := s, response := ⟨500, "Discord authentication failed."⟩ }
      else
        let user : User :=
          { discordId := some discordUser.id, username := discordUser.username,
            avatarUrl := avatarUrlOf discordUser,
            email := if truthy discordUser.email then discordUser.email else none,
            roles := ["client"], isAdmin := false, authType := "discord", isActive := true }
        { store := { s with users := s.users ++ [some user] },
          response := ⟨200, "Login successful!"⟩ }
    | some (userId, _) =>
      if saveFails then { store := s, response := ⟨500, "Discord authentication failed."⟩ }
      else
        { store := s.updateUser userId (fun u =>
            { u with username := discordUser.username, avatarUrl := avatarUrlOf discordUser,
                     email := if truthy discordUser.email then discordUser.email else u.email,
                     authType := "discord" }),
          response := ⟨200, "Login successful!"⟩ }

/-! ## POST /auth/local/register-helper -/

/-- The body field `specializedCategories`: falsy, another value that is not an
array, or an array. -/
inductive CategoriesField where
  | absent
  | notArray
  | array (names : List String)
  deriving DecidableEq, Repr

/-- The request of the helper registration.  `username` is the trimmed user
name; `walletRejection` is the outcome of the wallet and payment-method checks
on the body (the message of their 400 reply, `none` when they pass). -/
structure RegisterRequest where
  username : String
  password : Option String := none
  specializedCategories : CategoriesField := CategoriesField.absent
  region : Option String := none
  walletRejection : Option String := none
  deriving DecidableEq, Repr

/-- The handler of `POST /auth/local/register-helper`.  `registrationClosed`
is the settings document saying that registration is closed; `saveFails` tells
whether `newUser.save()` throws. -/
def registerHelper (s : Store) (request : RegisterRequest) (registrationClosed saveFails : Bool) :
    Outcome :=
  if request.username = "" || !truthy request.password
      || request.specializedCategories = CategoriesField.absent || !truthy request.region then
    { store := s, response :=
        ⟨400, "Username, password, specialized categories, and region are required."⟩ }
  else
  match request.specializedCategories with
  | CategoriesField.absent | CategoriesField.notArray =>
    { store := s, response := ⟨400, "Helpers must specialize in at least 3 categories."⟩ }
  | CategoriesField.array specializedCategories =>
    if specializedCategories.length < 3 then
      { store := s, response := ⟨400, "Helpers must specialize in at least 3 categories."⟩ }
    else
    match request.walletRejection with
    | some message => { store := s, response := ⟨400, message⟩ }
    | none =>
      if registrationClosed then
        { store := s, response :=
            ⟨403, "Helper registration is currently closed by the administrator."⟩ }
      else if (s.findOneUser (fun u => u.username == request.username)).isSome then
        { store := s, response := ⟨409, "Username already exists."⟩ }
      else if saveFails then
        { store := s, response := ⟨500, "Failed to register helper."⟩ }
      else
        let newUser : User :=
          { username := request.username, roles := ["helper"], isAdmin := false,
            specializedCategories := specializedCategories, authType := "local",
            isActive := true }
        { store := { s with users := s.users ++ [some newUser] },
          response := ⟨201, "Helper registered successfully!"⟩,
          notifications := [Notification.helperRegistered newUser.username] }

/-! ## Admin routes on users -/

/-- The handler of `DELETE /admin/users/:id` behind `authorizeAdmin`.  The
own-account test compares the id text of the token with the text of the path
parameter (`===`); `spelledAsToken` tells whether the path parameter spells the
id the way the token does (the later lookups cast the text to an id). -/
def deleteUser (s : Store) (user : AuthUser) (id : ObjectId) (spelledAsToken : Bool) : Outcome :=
  if !authorizeAdmin user then adminDenied s else
  if spelledAsToken && user.userId == id then
    { store := s, response := ⟨403, "You cannot delete your own account."⟩ }
  else
  match s.findUser id with
  | none => { store := s, response := ⟨404, "User not found."⟩ }
  | some target =>
    let activeAssignments := (s.assignments.filter (fun a =>
      (a.ownerId == id || a.helperId == some id)
        && !([Status.paid, Status.cancelled].contains a.status))).length
    if activeAssignments > 0 then
      { store := s, response := ⟨400, "User " ++ target.username ++ " has "
          ++ toString activeAssignments
          ++ " active assignments. Please resolve them before deleting the user."⟩ }
    else
      { store := { s with users := s.users.set id none },
        response := ⟨200, "User deleted successfully."⟩,
        notifications := [Notification.userDeleted id] }

/-- The handler of `PUT /admin/users/:id/roles` behind `authorizeAdmin`; `roles`
is `none` when the body field is not an array of strings. -/
def updateUserRoles (s : Store) (user : AuthUser) (id : ObjectId)
    (roles : Option (List String)) : Outcome :=
  if !authorizeAdmin user then adminDenied s else
  match roles with
  | none => { store := s, response := ⟨400, "Roles must be an array of strings."⟩ }
  | some roles =>
    match s.findUser id with
    | none => { store := s, response := ⟨404, "User not found."⟩ }
    | some _ =>
      { store := s.updateUser id (fun u =>
          { u with roles := roles, isAdmin := roles.contains "admin" }),
        response := ⟨200, "User roles updated successfully."⟩ }

/-- The handler of `PUT /admin/users/:id/status` behind `authorizeAdmin`. -/
def updateUserStatus (s : Store) (user : AuthUser) (id : ObjectId) (isActive : JsonValue) :
    Outcome :=
  if !authorizeAdmin user then adminDenied s else
  match isActive with
  | JsonValue.bool b =>
    match s.findUser id with
    | none => { store := s, response := ⟨404, "User not found."⟩ }
    | some _ =>
      { store := s.updateUser id (fun u => { u with isActive := b }),
        response := ⟨200, if b then "User status updated to active."
          else "User status updated to inactive."⟩ }
  | _ => { store := s, response := ⟨400, "isActive must be a boolean value."⟩ }

/-! ## All operations that write to the store -/

/-- One operation on the user accounts. -/
inductive UserOp where
  | ensureAdmins (failing : List AdminData)
  | signIn (code : Option String) (profile : Option DiscordProfile) (saveFails : Bool)
  | registerHelper (request : RegisterRequest) (registrationClosed saveFails : Bool)
  | deleteUser (user : AuthUser) (id : ObjectId) (spelledAsToken : Bool)
  | updateRoles (user : AuthUser) (id : ObjectId) (roles : Option (List String))
  | updateStatus (user : AuthUser) (id : ObjectId) (isActive : JsonValue)
  deriving DecidableEq, Repr

/-- The store after one operation on the user accounts. -/
def stepUser (env : Env) (s : Store) : UserOp → Store
  | UserOp.ensureAdmins failing => ensureAdminsExist env s failing
  | UserOp.signIn code profile saveFails => (exchangeCode s code profile saveFails).store
  | UserOp.registerHelper request registrationClosed saveFails =>
    (registerHelper s request registrationClosed saveFails).store
  | UserOp.deleteUser user id spelledAsToken => (deleteUser s user id spelledAsToken).store
  | UserOp.updateRoles user id roles => (updateUserRoles s user id roles).store
  | UserOp.updateStatus user id isActive => (updateUserStatus s user id isActive).store

/-- A lifecycle operation or an operation on the user accounts. -/
inductive AnyOp where
  | lifecycle (op : Op)
  | account (op : UserOp)
  deriving DecidableEq, Repr

/-- The store after one operation of either kind. -/
def stepAny (env : Env) (s : Store) : AnyOp → Store
  | AnyOp.lifecycle op => step env s op
  | AnyOp.account op => stepUser env s op

/-- The store after a sequence of operations of either kind. -/
def runAny (env : Env) (s : Store) (ops : List AnyOp) : Store :=
  ops.foldl (stepAny env) s

/-- Whether the operation is a Pay request. -/
def AnyOp.isPay : AnyOp → Bool
  | AnyOp.lifecycle (Op.pay _ _ _ _ _ _) => true
  | _ => false


/-! ## Cumulative earnings, slot by slot -/

/-- How an operation other than a successful Pay may move one slot of the user
collection: a slot beyond the end may be filled with an account that has earned
nothing, a deleted account stays deleted, and an account is deleted or keeps
its cumulative earnings. -/
def SlotKept (x y : Option (Option User)) : Prop :=
  match x with
  | none => ∀ u, y = some (some u) → u.totalEarnings = 0
  | some none => y = some none
  | some (some u) => y = some none ∨ ∃ v, y = some (some v) ∧ v.totalEarnings = u.totalEarnings


/-- How any operation may move one slot of the user collection while no helper
payout amount is negative: as in `SlotKept`, but the earnings of an account may
also grow. -/
def SlotGrows (x y : Option (Option User)) : Prop :=
  match x with
  | none => True
  | some none => y = some none
  | some (some u) => y = some none ∨ ∃ v, y = some (some v) ∧ u.totalEarnings ≤ v.totalEarnings


/-! ## Properties of the user accounts, slot by slot -/

/-- The admin flag of an account agrees with its role set. -/
def User.adminFlagSound (u : User) : Prop :=
  u.isAdmin = true ↔ "admin" ∈ u.roles

/-- Every account of the store has the property. -/
def Store.allUsers (s : Store) (P : User → Prop) : Prop :=
  ∀ uid u, s.findUser uid = some u → P u

/-- A move of one slot of the user collection that keeps a property of the
account in it. -/
def SlotSound (P : User → Prop) (x y : Option (Option User)) : Prop :=
  (∀ u, x = some (some u) → P u) → ∀ v, y = some (some v) → P v


/-- Whether the operation is a helper registration or an admin role update. -/
def AnyOp.isRegistrationOrRoles : AnyOp → Bool
  | AnyOp.account (UserOp.registerHelper _ _ _) => true
  | AnyOp.account (UserOp.updateRoles _ _ _) => true
  | _ => false


/-! ## GET /assignments: the query -/

/-- The `status` entry of a query: a given status text, or
`{ $nin: [...] }`. -/
inductive StatusCondition where
  | is (status : String)
  | notIn (statuses : List String)
  deriving DecidableEq, Repr

/-- The filter passed to `Assignment.find`: each entry is absent (`none`) or a
condition; `helperId := some none` is the entry `helperId: null`. -/
structure AssignmentQuery where
  ownerId : Option ObjectId := none
  helperId : Option (Option ObjectId) := none
  status : Option StatusCondition := none
  deriving DecidableEq, Repr

/-- The query that the handler of `GET /assignments` builds from the token and
the query parameters; `none` is the 403 reply of the last branch. -/
def assignmentsQuery (user : AuthUser) (status assignedToMe ownedByMe : Option String) :
    Option AssignmentQuery :=
  if user.roles.contains "helper" then
    if assignedToMe = some "true" then
      some { helperId := some (some user.userId),
             status := if truthy status then some (StatusCondition.is (status.getD "")) else none }
    else
      some { helperId := some none,
             status := if truthy status then some (StatusCondition.is (status.getD ""))
               else some (StatusCondition.notIn ["paid", "cancelled"]) }
  else if user.roles.contains "client" then
    some { ownerId := some user.userId,
           status := if truthy status then some (StatusCondition.is (status.getD "")) else none }
  else if user.isAdmin then
    some { status := if truthy status then some (StatusCondition.is (status.getD "")) else none,
           ownerId := if ownedByMe = some "true" then some user.userId else none,
           helperId := if assignedToMe = some "true" then some (some user.userId) else none }
  else none


/-! ## The list_assignments command -/

/-- The text functions of the runtime that the list command calls:
`Number.prototype.toFixed(2)`, `Date.prototype.toLocaleString`, the text of an
id, and the configured `FRONTEND_URL`. -/
structure Formatting where
  toFixed2 : ℚ → String
  toLocaleString : Instant → String
  idText : ObjectId → String
  frontendUrl : String

/-- The JavaScript `text.substring(0, stop)`, with the length counted in
characters of the model string; JavaScript counts UTF-16 code units, which is
the same count for text of the Basic Multilingual Plane. -/
def jsSubstring (text : String) (stop : Nat) : String :=
  String.mk (text.toList.take stop)

/-- The lines that the loop of the list command adds for one assignment. -/
def listEntry (fmt : Formatting) (s : Store) (id : ObjectId) (assignment : Assignment) : String :=
  "**Title:** " ++ assignment.title ++ "\n"
    ++ "**Description:** " ++ jsSubstring assignment.description 100
    ++ (if assignment.description.length > 100 then "..." else "") ++ "\n"
    ++ "**Category:** " ++ assignment.category ++ "\n"
    ++ "**Payment:** $" ++ fmt.toFixed2 assignment.paymentAmount ++ "\n"
    ++ "**Deadline:** " ++ fmt.toLocaleString assignment.deadline ++ "\n"
    ++ "**Posted by:** "
    ++ (match s.findUser assignment.ownerId with
        | some owner => if owner.username != "" then owner.username else "Unknown"
        | none => "Unknown") ++ "\n"
    ++ "**Ticket Channel:** <#" ++ assignment.discordTicketChannelId.getD "undefined" ++ ">\n"
    ++ "[View Details on Web App](" ++ fmt.frontendUrl ++ "/assignments/" ++ fmt.idText id
    ++ ")\n\n"

/-- The pending assignments with their ids, newest first:
`Assignment.find({ status: 'pending' }).sort({ createdAt: -1 })`. -/
def Store.pendingNewestFirst (s : Store) : List (ObjectId × Assignment) :=
  (s.assignments.enum.filter (fun entry => entry.2.status == Status.pending)).reverse

/-- The message that the list command builds before it looks at the length. -/
def listMessage (fmt : Formatting) (s : Store) : String :=
  (s.pendingNewestFirst.map (fun entry => listEntry fmt s entry.1 entry.2)).foldl
    (fun replyMessage entry => replyMessage ++ entry) "**Available Assignments (Pending):**\n\n"

/-- The text with which the `list_assignments` branch of the slash-command
handler answers. -/
def listAssignments (env : Env) (fmt : Formatting) (s : Store) (interaction : Interaction) :
    String :=
  if !interactionIsAdmin env interaction then "You do not have permission to use this command."
  else if s.pendingNewestFirst.length = 0 then
    "There are no pending assignments available at the moment."
  else if (listMessage fmt s).length > 2000 then
    jsSubstring (listMessage fmt s) 1990 ++ "... (message truncated, too many assignments)"
  else listMessage fmt s


/-! ## What a handler write keeps of a document -/

/-- The helper of the document after a write, seen from the store before it: it
is the helper the document had, or the document had none and the new helper is
an existing account of that store. -/
def HelperFramed (s : Store) (a b : Assignment) : Prop :=
  b.helperId = a.helperId
    ∨ (a.helperId = none ∧ ∃ h, b.helperId = some h ∧ (s.findUser h).isSome = true)

/-- A write that keeps the helper payout amount and frames the helper. -/
def Framed (s : Store) (a b : Assignment) : Prop :=
  HelperFramed s a b ∧ b.adminDeterminedHelperPayout = a.adminDeterminedHelperPayout

/-- Whether the operation is a SetHelperPayout request. -/
def Op.isSetPayout : Op → Bool
  | Op.setPayout _ _ _ => true
  | _ => false


/-! ## The payout ledger against the paid assignments -/

/-- The helper payout amount that a document contributes to the ledger: the
amount stored on it when it is paid, nothing otherwise. -/
def paidPayout (x : Option Assignment) : List (Option ℚ) :=
  match x with
  | some a => if a.status = Status.paid then [a.adminDeterminedHelperPayout] else []
  | none => []

/-- The term of a document in `totalHelperPayouts`. -/
def paidAmount (a : Assignment) : ℚ :=
  if a.status = Status.paid then a.adminDeterminedHelperPayout.getD 0 else 0

/-- The operation is not a SetHelperPayout aimed at an assignment that is paid
in the store it runs on. -/
def frozenStep (s : Store) : Op → Bool
  | Op.setPayout _ id _ => s.statusOf id != some Status.paid
  | _ => true

/-- Along the execution no SetHelperPayout is aimed at an assignment that is
already paid. -/
def payoutsFrozen (env : Env) : Store → List Op → Bool
  | _, [] => true
  | s, op :: ops => frozenStep s op && payoutsFrozen env (step env s op) ops


/-! ## Earnings against the payout ledger -/

/-- The sum of the amounts of the payout transactions whose helper is the
user. -/
def Store.earnedBy (s : Store) (uid : ObjectId) : ℚ :=
  ((s.payoutTransactions.filter (fun t => t.helperId == uid)).map (fun t => t.amount)).sum

/-- An operation of either kind during which no write of Pay or of the daily
check fails. -/
def AnyOp.faultFree : AnyOp → Bool
  | AnyOp.lifecycle op => Op.faultFree op
  | AnyOp.account _ => true

/-- A move of one slot of the user collection that does not remove an
account. -/
def SlotAlive (x y : Option (Option User)) : Prop :=
  (∃ u, x = some (some u)) → ∃ v, y = some (some v)


/-! ## Concrete stores and requests used to exercise the handlers -/

/-- A helper account specialised in three categories. -/
def demoHelperUser : User :=
  { username := "hana", roles := ["helper"], authType := "local",
    specializedCategories := ["python-help", "java-help", "math-help"] }

/-- A client account with a Discord identity. -/
def demoClientUser : User :=
  { username := "carl", discordId := some "111", roles := ["client"] }

/-- A pending assignment in a category the helper covers. -/
def demoAssignment : Assignment :=
  { ownerId := 1, title := "Sorting homework", category := "python-help", paymentAmount := 100,
    deadline := 50 }

/-- The token of `demoHelperUser` (user 0). -/
def demoHelper : AuthUser := { userId := 0, username := "hana", roles := ["helper"] }

/-- The token of a second helper (user 2). -/
def demoHelper2 : AuthUser := { userId := 2, username := "hugo", roles := ["helper"] }

/-- The token of an administrator (user 3). -/
def demoAdmin : AuthUser := { userId := 3, username := "ada", isAdmin := true, roles := ["admin", "client"] }

/-- A store with one pending assignment (id 0) owned by user 1, two helpers and
an administrator. -/
def demoStore : Store :=
  { assignments := [demoAssignment],
    users := [some demoHelperUser, some demoClientUser,
      some { demoHelperUser with username := "hugo" },
      some { username := "ada", roles := ["admin", "client"], isAdmin := true }] }

/-- The store of `demoStore` with the owner account of the assignment missing. -/
def danglingOwnerStore : Store :=
  { demoStore with users := [some demoHelperUser, none] }

/-- The demo assignment accepted by helper 0, completed, approved and given a
helper payout of 70. -/
def demoReadyAssignment : Assignment :=
  { demoAssignment with
    helperId := some 0, status := Status.ready_for_payout, completedAt := some 60,
    adminDeterminedHelperPayout := some 70, platformFee := some 30,
    adminShare := some 15, jolomiShare := some 15 }

/-- The demo store with its assignment ready for payout. -/
def demoReadyStore : Store :=
  { demoStore with assignments := [demoReadyAssignment] }

/-- Both requests load the assignment and their user before either saves. -/
def racingSchedule : List Bool :=
  [false, false, true, true, false, false, true, true]

/-- An environment with no Discord configuration. -/
def demoEnv : Env := {}

/-- The owner of the demo assignment, as a Discord interaction. -/
def demoOwnerInteraction : Interaction := { userId := "111", username := "carl" }

/-- The helper hands in work and the owner sends it back for revision. -/
def demoRevisionOps : List Op :=
  [Op.complete demoHelper 0 none 60 DmOutcome.delivered,
   Op.requestRevision demoOwnerInteraction 0 "please add tests" DmOutcome.fetchedNothing]

/-- An environment in which every deadline string parses to instant 50 and
every amount string to 100. -/
def scenarioEnv : Env :=
  { GUILD_ID := some "guild", parseDate := fun _ => some 50, parseFloat := fun _ => some 100 }

/-- The request body of the scenario assignment. -/
def scenarioBody : AssignmentBody :=
  { title := some "Sorting homework", description := some "Sort a list in place.",
    complexity := some "low", category := some "python-help", deadline := some "2025-01-01",
    paymentAmount := some "100" }

/-- The token of the client (user 1). -/
def demoClient : AuthUser := { userId := 1, username := "carl", roles := ["client"] }

/-- The store the scenario starts from: the demo accounts and one category. -/
def scenarioStart : Store :=
  initialStore demoStore.users [{ name := "python-help" }]

/-- A full life of one assignment: created, accepted, found overdue by the
cron job, completed, approved by its owner, given a helper payout of 70 and
paid under transaction id T1. -/
def scenarioOps : List Op :=
  [Op.create demoClient scenarioBody none false,
   Op.accept demoHelper 0,
   Op.dailyStatusCheck 100 [],
   Op.complete demoHelper 0 none 120 DmOutcome.delivered,
   Op.approveWork demoOwnerInteraction 0 DmOutcome.fetchedNothing,
   Op.setPayout demoAdmin 0 (JsonValue.number 70),
   Op.pay demoAdmin 0 (some "T1") none 130 none]

/-- The assignment document at the end of the scenario. -/
def scenarioPaidAssignment : Assignment :=
  { ownerId := 1, helperId := some 0, title := "Sorting homework",
    description := "Sort a list in place.", complexity := "low", category := "python-help",
    deadline := 50, paymentAmount := 100, adminDeterminedHelperPayout := some 70,
    platformFee := some 30, adminShare := some 15, jolomiShare := some 15,
    status := Status.paid, completedAt := some 120, paidAt := some 130 }

/-- The scenario up to the payout of 70, followed by a Pay whose
PayoutTransaction save fails. -/
def failedPayOps : List Op :=
  scenarioOps.take 6 ++
    [Op.pay demoAdmin 0 (some "T1") none 130 (some PayFault.transactionSave)]

/-- An assignment of 100 is created and given a helper payout of 150. -/
def overpayOps : List Op :=
  [Op.create demoClient scenarioBody none false,
   Op.setPayout demoAdmin 0 (JsonValue.number 150)]

/-- Two accepted assignments of helper 0, both with the deadline (50) passed at
instant 100. -/
def twoOverdueStore : Store :=
  { demoStore with
    assignments :=
      [{ demoAssignment with helperId := some 0, status := Status.accepted },
       { demoAssignment with title := "Graph homework", helperId := some 0,
                             status := Status.accepted }] }

/-- The scenario of `scenarioOps` with the outcome of the two direct messages
(to the owner after Complete, to the helper after approve_work) left open. -/
def scenarioOpsWith (dmComplete dmApprove : DmOutcome) : List Op :=
  [Op.create demoClient scenarioBody none false,
   Op.accept demoHelper 0,
   Op.dailyStatusCheck 100 [],
   Op.complete demoHelper 0 none 120 dmComplete,
   Op.approveWork demoOwnerInteraction 0 dmApprove,
   Op.setPayout demoAdmin 0 (JsonValue.number 70),
   Op.pay demoAdmin 0 (some "T1") none 130 none]

/-- The demo store with its assignment accepted by helper 0. -/
def demoAcceptedStore : Store :=
  { demoStore with
    assignments := [{ demoAssignment with helperId := some 0, status := Status.accepted }] }

/-- Two files handed in by the helper. -/
def demoFiles : Option (List UploadedFile) :=
  some [{ filename := "a1b2", originalname := "sort.py" },
        { filename := "c3d4", originalname := "report.pdf" }]

/-- The demo assignment handed in by helper 0 and waiting for the client. -/
def demoReviewAssignment : Assignment :=
  { demoAssignment with
    helperId := some 0, status := Status.pending_client_review, completedAt := some 60,
    completedWorkAttachments := [{ url := "/uploads/a1b2", filename := "sort.py" }] }

/-- The demo store with its assignment waiting for the client review. -/
def demoReviewStore : Store :=
  { demoStore with assignments := [demoReviewAssignment] }

/-- The review store in which the administrator (user 3) has the Discord
identity 999. -/
def adminReviewStore : Store :=
  { demoReviewStore with
    users := [some demoHelperUser, some demoClientUser,
      some { demoHelperUser with username := "hugo" },
      some { username := "ada", discordId := some "999", roles := ["admin", "client"],
             isAdmin := true }] }

/-- An environment that names the Discord identity 999 as an administrator. -/
def adminEnv : Env := { MY_DISCORD_ID := some "999" }

/-- The administrator of `adminReviewStore`, as a Discord interaction. -/
def demoAdminInteraction : Interaction := { userId := "999", username := "ada" }

/-- The scenario up to the payout decision, after a Discord sign-in of the
client and with the administrator confirming the helper account as active on
the way. -/
def earningsOpsBefore : List AnyOp :=
  [AnyOp.account (UserOp.signIn (some "code") (some { id := "111", username := "carl" }) false),
   AnyOp.lifecycle (Op.create demoClient scenarioBody none false),
   AnyOp.lifecycle (Op.accept demoHelper 0),
   AnyOp.account (UserOp.updateStatus demoAdmin 0 (JsonValue.bool true)),
   AnyOp.lifecycle (Op.complete demoHelper 0 none 120 DmOutcome.delivered),
   AnyOp.lifecycle (Op.approveWork demoOwnerInteraction 0 DmOutcome.fetchedNothing),
   AnyOp.lifecycle (Op.setPayout demoAdmin 0 (JsonValue.number 70))]

/-- The payout, followed by a role update of the helper account. -/
def earningsOpsAfter : List AnyOp :=
  [AnyOp.lifecycle (Op.pay demoAdmin 0 (some "T1") none 130 none),
   AnyOp.account (UserOp.updateRoles demoAdmin 0 (some ["helper", "client"]))]

/-- An environment in which every deadline string parses to instant 50 and
every amount string to -5. -/
def negativeEnv : Env :=
  { GUILD_ID := some "guild", parseDate := fun _ => some 50, parseFloat := fun _ => some (-5) }

/-- The review store in which the helper (user 0) has the Discord identity 222. -/
def notifiedReviewStore : Store :=
  { demoReviewStore with
    users := [some { demoHelperUser with discordId := some "222" }, some demoClientUser] }

/-- The rest of a life after Accept: a revision round, the approval, the payout
decision, the payment, a late change of the payout, the daily check, and an
administrator deleting the client of a paid assignment. -/
def afterAcceptOps : List AnyOp :=
  [AnyOp.lifecycle (Op.complete demoHelper 0 none 60 DmOutcome.delivered),
   AnyOp.lifecycle (Op.requestRevision demoOwnerInteraction 0 "add tests" DmOutcome.delivered),
   AnyOp.lifecycle (Op.accept demoHelper2 0),
   AnyOp.lifecycle (Op.complete demoHelper 0 demoFiles 70 DmOutcome.sendThrows),
   AnyOp.lifecycle (Op.review demoClient 0 "approve" none),
   AnyOp.lifecycle (Op.setPayout demoAdmin 0 (JsonValue.number 70)),
   AnyOp.lifecycle (Op.pay demoAdmin 0 (some "T1") none 130 none),
   AnyOp.lifecycle (Op.setPayout demoAdmin 0 (JsonValue.number 80)),
   AnyOp.lifecycle (Op.dailyStatusCheck 200 []),
   AnyOp.account (UserOp.deleteUser demoAdmin 1 true)]

/-- Operations on the user accounts from an empty store: the admin bootstrap, a
Discord sign-in, a helper registration, a ticket created by a new Discord
user, the promotion of the helper to admin and a status update. -/
def accountOps : List AnyOp :=
  [AnyOp.account (UserOp.ensureAdmins []),
   AnyOp.account (UserOp.signIn (some "code") (some { id := "111", username := "carl" }) false),
   AnyOp.account (UserOp.registerHelper
     { username := "hana", password := some "secret",
       specializedCategories := CategoriesField.array ["python-help", "java-help", "math-help"],
       region := some "local" } false false),
   AnyOp.lifecycle (Op.createModal { userId := "333", username := "dora" } "Essay" "An essay."
     "python-help" "100" "2025-01-01 10:00" "low" {}),
   AnyOp.account (UserOp.updateRoles demoAdmin 2 (some ["helper", "admin"])),
   AnyOp.account (UserOp.updateStatus demoAdmin 1 (JsonValue.bool false))]

/-- An environment with both administrator identities configured, in which
every deadline string parses to instant 50 and every amount string to 100. -/
def accountEnv : Env :=
  { MY_DISCORD_ID := some "999", JOLOMI_DISCORD_ID := some "998", GUILD_ID := some "guild",
    parseDate := fun _ => some 50, parseFloat := fun _ => some 100 }

/-- The admin bootstrap, a Discord sign-in, and the administrator giving the
helper role to the account that signed in (user 2). -/
def helperPromotionOps : List AnyOp :=
  [AnyOp.account (UserOp.ensureAdmins []),
   AnyOp.account (UserOp.signIn (some "code") (some { id := "111", username := "carl" }) false),
   AnyOp.account (UserOp.updateRoles demoAdmin 2 (some ["helper"]))]

/-- Text functions for the examples. -/
def demoFormatting : Formatting :=
  { toFixed2 := fun _ => "100.00", toLocaleString := fun _ => "1/1/2025, 10:00:00 AM",
    idText := fun _ => "64b7f1c2a9d3e5f601234567", frontendUrl := "https://app.example.org" }

/-- A pending assignment with a description of 120 characters. -/
def listedAssignment : Assignment :=
  { ownerId := 1, title := "Sorting homework", category := "python-help", paymentAmount := 100,
    deadline := 50, discordTicketChannelId := some "1398000000000000000",
    description := String.mk (List.replicate 120 'x') }

/-- The demo accounts with thirteen pending assignments. -/
def listedStore : Store :=
  { demoStore with assignments := List.replicate 13 listedAssignment }

/-- The scenario followed by a change of the helper payout after the payment. -/
def latePayoutOps : List Op :=
  scenarioOps ++ [Op.setPayout demoAdmin 0 (JsonValue.number 80)]

/-- A full life of one assignment among operations on the accounts: the admin
bootstrap, a Discord sign-in, the scenario up to the payment, and afterwards a
refused and an accepted deletion. -/
def ledgerOps : List AnyOp :=
  [AnyOp.account (UserOp.ensureAdmins []),
   AnyOp.account (UserOp.signIn (some "code") (some { id := "111", username := "carl" }) false),
   AnyOp.lifecycle (Op.create demoClient scenarioBody none false),
   AnyOp.lifecycle (Op.accept demoHelper 0),
   AnyOp.account (UserOp.deleteUser demoAdmin 0 true),
   AnyOp.lifecycle (Op.complete demoHelper 0 none 120 DmOutcome.delivered),
   AnyOp.lifecycle (Op.approveWork demoOwnerInteraction 0 DmOutcome.fetchedNothing),
   AnyOp.lifecycle (Op.setPayout demoAdmin 0 (JsonValue.number 70)),
   AnyOp.lifecycle (Op.pay demoAdmin 0 (some "T1") none 130 none),
   AnyOp.account (UserOp.deleteUser demoAdmin 1 true)]

/-- The review store in which the second helper (user 2) has the Discord
identity 444. -/
def moderatorReviewStore : Store :=
  { demoReviewStore with
    users := [some demoHelperUser, some demoClientUser,
      some { demoHelperUser with username := "hugo", discordId := some "444" },
      some { username := "ada", discordId := some "999", roles := ["admin", "client"],
             isAdmin := true }] }

/-- The second helper as a Discord interaction, holding the Administrator
permission in the guild. -/
def moderatorInteraction : Interaction :=
  { userId := "444", username := "hugo", hasAdministratorPermission := true }

/-- The demo store with a client payment of 2^-1074, the smallest positive
double (written 5e-324), on its assignment. -/
def tinyPaymentStore : Store :=
  { demoStore with assignments := [{ demoAssignment with paymentAmount := 2 ^ (-1074 : ℤ) }] }

/-- The demo store with a client payment of 1 on its assignment. -/
def unitPaymentStore : Store :=
  { demoStore with assignments := [{ demoAssignment with paymentAmount := 1 }] }

/-- The store the scenario starts from before any category is seeded. -/
def unseededStart : Store :=
  initialStore demoStore.users []

/-! # Theorems -/

/-! ## Store primitives -/

theorem findAssignment_updateAssignment (s : Store) (id id2 : ObjectId) (f : Assignment → Assignment) :
    (s.updateAssignment id f).findAssignment id2
      = if id = id2 then (s.findAssignment id2).map f else s.findAssignment id2 := by
  unfold Store.updateAssignment Store.findAssignment
  by_cases h : id = id2
  · subst h; simp
  · simp [h]

theorem findAssignment_updateUser (s : Store) (id id2 : ObjectId) (f : User → User) :
    (s.updateUser id f).findAssignment id2 = s.findAssignment id2 := rfl

theorem findUser_updateAssignment (s : Store) (id id2 : ObjectId) (f : Assignment → Assignment) :
    (s.updateAssignment id f).findUser id2 = s.findUser id2 := rfl

theorem findUser_updateUser (s : Store) (id id2 : ObjectId) (f : User → User) :
    (s.updateUser id f).findUser id2
      = if id = id2 then (s.findUser id2).map f else s.findUser id2 := by
  unfold Store.updateUser Store.findUser
  by_cases h : id = id2
  · subst h
    simp only [List.getElem?_modify_eq, if_true]
    cases s.users[id]? with
    | none => rfl
    | some u => cases u <;> rfl
  · simp [h]


/-! ## What each handler does to the assignment documents -/

theorem quietMove_update (s : Store) (id : ObjectId) (f : Assignment → Assignment) (a : Assignment)
    (hfind : s.findAssignment id = some a) (hm : QuietMove (some a) (some (f a))) (id2 : ObjectId) :
    QuietMove (s.findAssignment id2) ((s.updateAssignment id f).findAssignment id2) := by
  rw [findAssignment_updateAssignment]
  split
  · rename_i h
    subst h
    rw [hfind]
    exact hm
  · exact QuietMove.same _

theorem accept_quietMove (s : Store) (user : AuthUser) (id id2 : ObjectId) :
    QuietMove (s.findAssignment id2) ((acceptAssignment s user id).store.findAssignment id2) := by
  unfold acceptAssignment rolesDenied
  try dsimp only
  repeat' split
  all_goals first
    | exact QuietMove.same _
    | exact quietMove_update s id _ _ (by assumption)
        (QuietMove.accepted _ _ (by simp_all) (by simp_all)) id2

theorem complete_quietMove (s : Store) (user : AuthUser) (id id2 : ObjectId)
    (files : Option (List UploadedFile)) (now : Instant) (dm : DmOutcome) :
    QuietMove (s.findAssignment id2)
      ((completeAssignment s user id files now dm).store.findAssignment id2) := by
  unfold completeAssignment rolesDenied
  try dsimp only
  repeat' split
  all_goals first
    | exact QuietMove.same _
    | exact quietMove_update s id _ _ (by assumption)
        (QuietMove.completed _ user.userId _ _ (by simp_all) (by simp_all [or_iff_not_imp_left])) id2

theorem review_quietMove (s : Store) (user : AuthUser) (id id2 : ObjectId)
    (action : String) (feedback : Option String) :
    QuietMove (s.findAssignment id2)
      ((reviewAssignment s user id action feedback).store.findAssignment id2) := by
  unfold reviewAssignment rolesDenied
  try dsimp only
  repeat' split
  all_goals first
    | exact QuietMove.same _
    | exact quietMove_update s id _ _ (by assumption) (QuietMove.approved _ (by simp_all)) id2
    | exact quietMove_update s id _ _ (by assumption) (QuietMove.revised _ (by simp_all)) id2

theorem approveWork_quietMove (env : Env) (s : Store) (interaction : Interaction) (id id2 : ObjectId)
    (dm : DmOutcome) :
    QuietMove (s.findAssignment id2)
      ((approveWork env s interaction id dm).store.findAssignment id2) := by
  unfold approveWork
  try dsimp only
  repeat' split
  all_goals first
    | exact QuietMove.same _
    | exact quietMove_update s id _ _ (by assumption) (QuietMove.approved _ (by simp_all)) id2

theorem requestRevision_quietMove (env : Env) (s : Store) (interaction : Interaction)
    (id id2 : ObjectId) (feedback : String) (dm : DmOutcome) :
    QuietMove (s.findAssignment id2)
      ((requestRevision env s interaction id feedback dm).store.findAssignment id2) := by
  unfold requestRevision
  try dsimp only
  repeat' split
  all_goals first
    | exact QuietMove.same _
    | exact quietMove_update s id _ _ (by assumption) (QuietMove.revised _ (by simp_all)) id2

theorem setPayout_quietMove (s : Store) (user : AuthUser) (id id2 : ObjectId) (v : JsonValue) :
    QuietMove (s.findAssignment id2) ((setPayout s user id v).store.findAssignment id2) := by
  unfold setPayout adminDenied
  try dsimp only
  repeat' split
  all_goals first
    | exact QuietMove.same _
    | exact quietMove_update s id _ _ (by assumption) (QuietMove.payoutSet _ _ (by simp_all)) id2

theorem docMove_same (x : Option Assignment) : DocMove x x :=
  DocMove.quiet _ _ (QuietMove.same x)

theorem docMove_update (s : Store) (id : ObjectId) (f : Assignment → Assignment) (a : Assignment)
    (hfind : s.findAssignment id = some a) (hm : DocMove (some a) (some (f a))) (id2 : ObjectId) :
    DocMove (s.findAssignment id2) ((s.updateAssignment id f).findAssignment id2) := by
  rw [findAssignment_updateAssignment]
  split
  · rename_i h
    subst h
    rw [hfind]
    exact hm
  · exact docMove_same _

theorem pay_docMove (s : Store) (user : AuthUser) (id id2 : ObjectId)
    (transactionId notes : Option String) (now : Instant) (fault : Option PayFault) :
    DocMove (s.findAssignment id2)
      ((payAssignment s user id transactionId notes now fault).store.findAssignment id2) := by
  unfold payAssignment adminDenied
  try dsimp only
  repeat' split
  all_goals first
    | exact docMove_same _
    | exact docMove_update s id _ _ (by assumption)
        (DocMove.paid _ _ _ _ (by simp_all) (by assumption) (by assumption)) id2

theorem insertAssignment_eq (env : Env) (s s1 : Store) (d : Option Instant) (p : Option ℚ)
    (mk : Instant → ℚ → Assignment) (h : s.insertAssignment env d p mk = some s1) :
    ∃ d0 p0, s1 = { s with assignments := s.assignments ++ [mk d0 p0] } := by
  unfold Store.insertAssignment at h
  split at h
  · rename_i d0 p0
    dsimp only at h
    split at h
    · exact ⟨d0, p0, (Option.some.inj h).symm⟩
    · exact absurd h (by simp)
  · exact absurd h (by simp)

theorem insertAssignment_quietMove (env : Env) (s s1 : Store) (d : Option Instant) (p : Option ℚ)
    (mk : Instant → ℚ → Assignment) (h : s.insertAssignment env d p mk = some s1)
    (hfresh : ∀ d0 p0, QuietMove none (some (mk d0 p0))) (id2 : ObjectId) :
    QuietMove (s.findAssignment id2) (s1.findAssignment id2) := by
  obtain ⟨d0, p0, rfl⟩ := insertAssignment_eq env s s1 d p mk h
  unfold Store.findAssignment
  dsimp only
  rcases Nat.lt_trichotomy id2 s.assignments.length with hlt | heq | hgt
  · rw [List.getElem?_append_left hlt]
    exact QuietMove.same _
  · subst heq
    rw [List.getElem?_append_right (Nat.le_refl _), List.getElem?_eq_none (Nat.le_refl _)]
    simpa using hfresh d0 p0
  · have hlen : (s.assignments ++ [mk d0 p0]).length ≤ id2 := by
      rw [List.length_append, List.length_singleton]
      omega
    rw [List.getElem?_eq_none hlen, List.getElem?_eq_none (by omega)]
    exact QuietMove.same _

theorem create_quietMove (env : Env) (s : Store) (user : AuthUser) (body : AssignmentBody)
    (files : Option (List UploadedFile)) (channelSendThrows : Bool) (id2 : ObjectId) :
    QuietMove (s.findAssignment id2)
      ((createAssignment env s user body files channelSendThrows).store.findAssignment id2) := by
  unfold createAssignment
  try dsimp only
  repeat' split
  all_goals first
    | exact QuietMove.same _
    | exact insertAssignment_quietMove env s _ _ _ _ (by assumption)
        (fun _ _ => QuietMove.created _ rfl rfl rfl rfl rfl) id2

theorem ensureClient_assignments (s s1 : Store) (interaction : Interaction) (userId : ObjectId)
    (h : s.ensureClient interaction = some (s1, userId)) :
    s1.assignments = s.assignments ∧ s1.payoutTransactions = s.payoutTransactions := by
  unfold Store.ensureClient at h
  repeat' split at h
  all_goals try dsimp only at h
  all_goals cases h
  all_goals exact ⟨rfl, rfl⟩

theorem ticket_quietMove (env : Env) (s : Store) (interaction : Interaction)
    (title description categoryName : String) (paymentAmount : ℚ) (deadlineString : String)
    (complexity : String) (world : TicketWorld) (id2 : ObjectId) :
    QuietMove (s.findAssignment id2)
      ((createAssignmentTicket env s interaction title description categoryName paymentAmount
        deadlineString complexity world).store.findAssignment id2) := by
  unfold createAssignmentTicket
  split
  · exact QuietMove.same _
  split
  · exact QuietMove.same _
  split
  · exact QuietMove.same _
  rename_i s1 userId hens
  have hs1 : s1.findAssignment id2 = s.findAssignment id2 := by
    unfold Store.findAssignment
    rw [(ensureClient_assignments s s1 interaction userId hens).1]
  rw [← hs1]
  repeat' split
  all_goals first
    | exact QuietMove.same _
    | exact insertAssignment_quietMove env s1 _ _ _ _ (by assumption)
        (fun _ _ => QuietMove.created _ rfl rfl rfl rfl rfl) id2

theorem modal_quietMove (env : Env) (s : Store) (interaction : Interaction)
    (title description categoryName paymentInput deadlineString complexityInput : String)
    (world : TicketWorld) (id2 : ObjectId) :
    QuietMove (s.findAssignment id2)
      ((createAssignmentModal env s interaction title description categoryName paymentInput
        deadlineString complexityInput world).store.findAssignment id2) := by
  unfold createAssignmentModal
  try dsimp only
  repeat' split
  all_goals first
    | exact QuietMove.same _
    | exact ticket_quietMove _ _ _ _ _ _ _ _ _ _ _

/-- The ids the loop of the cron job has saved before it ends: all of them, or
those before the first one whose save throws. -/
theorem dailyStatusLoop_find (saveFails : ObjectId → Bool) (l : List (ObjectId × Assignment))
    (s : Store) (sent : List Notification) (id2 : ObjectId) :
    (dailyStatusLoop saveFails l s sent).1.findAssignment id2
      = if id2 ∈ (l.takeWhile (fun e => !saveFails e.1)).map Prod.fst
        then (s.findAssignment id2).map (fun a => { a with status := Status.due })
        else s.findAssignment id2 := by
  induction l generalizing s sent with
  | nil => simp [dailyStatusLoop]
  | cons e rest ih =>
    unfold dailyStatusLoop
    by_cases hf : saveFails e.1 = true
    · simp [hf]
    · simp only [hf, Bool.false_eq_true, if_false]
      rw [ih, findAssignment_updateAssignment]
      have hf2 : saveFails e.1 = false := by simpa using hf
      simp only [List.takeWhile_cons, hf2, Bool.not_false, if_true, List.map_cons, List.mem_cons]
      by_cases h1 : e.1 = id2
      · subst h1
        simp only [true_or, if_true]
        split
        · cases s.findAssignment e.1 <;> rfl
        · rfl
      · have h2 : ¬ id2 = e.1 := fun h => h1 h.symm
        simp only [h1, h2, if_false, false_or]

theorem dailyStatusLoop_rest (saveFails : ObjectId → Bool) (l : List (ObjectId × Assignment))
    (s : Store) (sent : List Notification) :
    (dailyStatusLoop saveFails l s sent).1.users = s.users
      ∧ (dailyStatusLoop saveFails l s sent).1.payoutTransactions = s.payoutTransactions
      ∧ (dailyStatusLoop saveFails l s sent).1.categories = s.categories := by
  induction l generalizing s sent with
  | nil => simp [dailyStatusLoop]
  | cons e rest ih =>
    unfold dailyStatusLoop
    split
    · exact ⟨rfl, rfl, rfl⟩
    · exact ih _ _

theorem dailyStatusCheck_quietMove (s : Store) (now : Instant) (saveFails : ObjectId → Bool)
    (id2 : ObjectId) :
    QuietMove (s.findAssignment id2) ((dailyStatusCheck s now saveFails).1.findAssignment id2) := by
  unfold dailyStatusCheck
  dsimp only
  rw [dailyStatusLoop_find]
  split
  · rename_i hmem
    obtain ⟨e, he, rfl⟩ := List.mem_map.mp hmem
    have he2 := (List.takeWhile_sublist _).subset he
    obtain ⟨henum, hcond⟩ := List.mem_filter.mp he2
    have hget : s.findAssignment e.1 = some e.2 := List.mem_enum_iff_getElem?.mp henum
    rw [hget]
    refine QuietMove.overdue e.2 ?_
    simp only [Bool.and_eq_true, List.contains_cons, List.contains_nil, Bool.or_false,
      beq_iff_eq] at hcond
    exact hcond.1.symm ▸ rfl
  · exact QuietMove.same _

/-- Every lifecycle operation moves every assignment document by at most one
handler write. -/
theorem step_docMove (env : Env) (s : Store) (op : Op) (id2 : ObjectId) :
    DocMove (s.findAssignment id2) ((step env s op).findAssignment id2) := by
  cases op with
  | create user body files channelSendThrows => exact DocMove.quiet _ _ (create_quietMove _ _ _ _ _ _ _)
  | createModal interaction title description categoryName paymentInput deadlineString
      complexityInput world => exact DocMove.quiet _ _ (modal_quietMove _ _ _ _ _ _ _ _ _ _ _)
  | accept user id => exact DocMove.quiet _ _ (accept_quietMove _ _ _ _)
  | complete user id files now dm => exact DocMove.quiet _ _ (complete_quietMove _ _ _ _ _ _ _)
  | review user id action feedback => exact DocMove.quiet _ _ (review_quietMove _ _ _ _ _ _)
  | approveWork interaction id dm => exact DocMove.quiet _ _ (approveWork_quietMove _ _ _ _ _ _)
  | requestRevision interaction id feedback dm =>
    exact DocMove.quiet _ _ (requestRevision_quietMove _ _ _ _ _ _ _)
  | setPayout user id v => exact DocMove.quiet _ _ (setPayout_quietMove _ _ _ _ _)
  | pay user id transactionId notes now fault => exact pay_docMove _ _ _ _ _ _ _ _
  | dailyStatusCheck now failing => exact DocMove.quiet _ _ (dailyStatusCheck_quietMove _ _ _ _)

/-! ## Executions -/

theorem trace_head (env : Env) (s : Store) (ops : List Op) : (trace env s ops).head? = some s := by
  cases ops <;> rfl

theorem trace_chain (env : Env) (R : Store → Store → Prop)
    (h : ∀ s op, R s (step env s op)) (s : Store) (ops : List Op) :
    List.Chain' R (trace env s ops) := by
  induction ops generalizing s with
  | nil => simp [trace]
  | cons op ops ih =>
    unfold trace
    rw [List.chain'_cons']
    refine ⟨?_, ih _⟩
    intro y hy
    rw [trace_head] at hy
    cases hy
    exact h s op

theorem run_cons (env : Env) (s : Store) (op : Op) (ops : List Op) :
    run env s (op :: ops) = run env (step env s op) ops := rfl

theorem quietMove_status (x y : Option Assignment) (h : QuietMove x y) :
    legalMove (x.map (fun a => a.status)) (y.map (fun a => a.status)) = true := by
  cases h with
  | same x =>
    cases x with
    | none => rfl
    | some a => simp [legalMove]
  | created a hs hh hp hf hpaid => simp [legalMove, hs]
  | accepted a h hs hh => simp [legalMove, hs, Edge]
  | completed a h work now hh hs => rcases hs with hs | hs <;> simp [legalMove, hs, Edge]
  | approved a hs => simp [legalMove, hs, Edge]
  | revised a hs => simp [legalMove, hs, Edge]
  | payoutSet a x hx => simp [legalMove]
  | overdue a hs => simp [legalMove, hs, Edge]

theorem docMove_status (x y : Option Assignment) (h : DocMove x y) :
    legalMove (x.map (fun a => a.status)) (y.map (fun a => a.status)) = true := by
  cases h with
  | quiet x y h => exact quietMove_status x y h
  | paid a h amount now hs hh hp => simp [legalMove, hs, Edge]

theorem step_legalMove (env : Env) (s : Store) (op : Op) (id : ObjectId) :
    legalMove (s.statusOf id) ((step env s op).statusOf id) = true :=
  docMove_status _ _ (step_docMove env s op id)

/-! ## C1: the status graph -/

/-- C1. Along every sequence of lifecycle operations, executed one at a time
from any store, every change of the status of an assignment between two
consecutive stores follows an edge of the graph (pending to accepted, accepted
to due, accepted or due to pending_client_review, pending_client_review to
ready_for_payout or back to accepted, ready_for_payout to paid); and an
assignment that is paid after an operation was paid or ready_for_payout before
it. -/
theorem status_follows_edges (env : Env) (s : Store) (ops : List Op) :
    List.Chain' (fun s1 s2 : Store => ∀ id : ObjectId,
      (∀ x y, s1.statusOf id = some x → s2.statusOf id = some y → x ≠ y → Edge x y = true)
      ∧ (s2.statusOf id = some Status.paid →
          s1.statusOf id = some Status.paid ∨ s1.statusOf id = some Status.ready_for_payout))
      (trace env s ops) := by
  apply trace_chain
  intro s1 op id
  have h := step_legalMove env s1 op id
  constructor
  · intro x y hx hy hne
    rw [hx, hy] at h
    simpa [legalMove, hne] using h
  · intro hy
    rw [hy] at h
    cases hx : s1.statusOf id with
    | none => rw [hx] at h; simp [legalMove] at h
    | some x =>
      rw [hx] at h
      cases x <;> simp_all [legalMove, Edge]

/-! ## C2: Accept -/

/-- With the owner account present, Accept answers 200 exactly under its three
preconditions, then writes helper and status, and otherwise leaves the store
as it is. -/
theorem accept_spec_of_owner (s : Store) (user : AuthUser) (id : ObjectId) (a : Assignment)
    (helperUser : User) (hrole : authorizeRoles ["helper"] user = true)
    (hfind : s.findAssignment id = some a) (hhelper : s.findUser user.userId = some helperUser)
    (howner : (s.findUser a.ownerId).isSome = true) :
    ((acceptAssignment s user id).response.code = 200 ↔
        a.status = Status.pending ∧ a.helperId = none
          ∧ a.category ∈ helperUser.specializedCategories)
      ∧ ((acceptAssignment s user id).response.code = 200 →
          (acceptAssignment s user id).store = s.updateAssignment id
            (fun a => { a with helperId := some user.userId, status := Status.accepted }))
      ∧ ((acceptAssignment s user id).response.code ≠ 200 →
          (acceptAssignment s user id).store = s) := by
  obtain ⟨owner, howner⟩ := Option.isSome_iff_exists.mp howner
  unfold acceptAssignment rolesDenied
  simp only [hrole, hfind, hhelper, Bool.not_true, Bool.false_eq_true, if_false,
    findUser_updateAssignment, howner]
  by_cases h1 : a.status = Status.pending
  · by_cases h2 : a.helperId = none
    · by_cases h3 : a.category ∈ helperUser.specializedCategories
      · simp [h1, h2, h3]
      · simp [h1, h2, h3]
    · have h2b : a.helperId.isSome = true := by
        cases hh : a.helperId with
        | none => exact absurd hh h2
        | some _ => rfl
      simp [h1, h2, h2b]
  · simp [h1]

/-- C2 (the code departs from the claim). On a pending, unassigned assignment
whose owner account no longer exists, Accept by a specialised helper writes
helper and status and then answers 500: the call fails although all three
preconditions hold, and the assignment is changed although the call failed. -/
theorem accept_fails_after_write :
    (danglingOwnerStore.findAssignment 0).map (fun a => (a.status, a.helperId))
        = some (Status.pending, none)
      ∧ "python-help" ∈ demoHelperUser.specializedCategories
      ∧ danglingOwnerStore.findUser demoHelper.userId = some demoHelperUser
      ∧ (acceptAssignment danglingOwnerStore demoHelper 0).response.code = 500
      ∧ ((acceptAssignment danglingOwnerStore demoHelper 0).store.findAssignment 0).map
          (fun a => (a.status, a.helperId)) = some (Status.accepted, some 0) := by
  refine ⟨by decide, by decide, by decide, by decide, by decide⟩

/-! ## C3: at most one helper, sequentially -/

theorem quietMove_helper (x y : Option Assignment) (h : QuietMove x y) (a : Assignment)
    (hx : x = some a) (hid : ObjectId) (hh : a.helperId = some hid) :
    ∃ b, y = some b ∧ b.helperId = some hid := by
  cases h with
  | same x => exact ⟨a, hx, hh⟩
  | created a hs hh hp hf hpaid => exact absurd hx (by simp)
  | accepted a0 h hs hh0 =>
    cases hx
    rw [hh0] at hh
    exact absurd hh (by simp)
  | completed a0 h work now hh0 hs => cases hx; exact ⟨_, rfl, hh⟩
  | approved a0 hs => cases hx; exact ⟨_, rfl, hh⟩
  | revised a0 hs => cases hx; exact ⟨_, rfl, hh⟩
  | payoutSet a0 x hx0 => cases hx; exact ⟨_, rfl, hh⟩
  | overdue a0 hs => cases hx; exact ⟨_, rfl, hh⟩

theorem docMove_helper (x y : Option Assignment) (h : DocMove x y) (a : Assignment)
    (hx : x = some a) (hid : ObjectId) (hh : a.helperId = some hid) :
    ∃ b, y = some b ∧ b.helperId = some hid := by
  cases h with
  | quiet x y h => exact quietMove_helper x y h a hx hid hh
  | paid a0 h amount now hs hh0 hp => cases hx; exact ⟨_, rfl, hh⟩

theorem run_helper_kept (env : Env) (ops : List Op) (s : Store) (id : ObjectId) (a : Assignment)
    (hid : ObjectId) (hfind : s.findAssignment id = some a) (hh : a.helperId = some hid) :
    ∃ b, (run env s ops).findAssignment id = some b ∧ b.helperId = some hid := by
  induction ops generalizing s a with
  | nil => exact ⟨a, hfind, hh⟩
  | cons op ops ih =>
    obtain ⟨b, hb, hbh⟩ := docMove_helper _ _ (step_docMove env s op id) a hfind hid hh
    rw [run_cons]
    exact ih _ b hb hbh

theorem accept_assigned (s : Store) (user : AuthUser) (id : ObjectId) (a : Assignment)
    (hid : ObjectId) (hfind : s.findAssignment id = some a) (hh : a.helperId = some hid) :
    (acceptAssignment s user id).store = s
      ∧ 400 ≤ (acceptAssignment s user id).response.code := by
  unfold acceptAssignment rolesDenied
  simp only [hfind]
  repeat' split
  all_goals first
    | exact ⟨rfl, by decide⟩
    | simp_all

theorem accept_ok_store (s : Store) (user : AuthUser) (id : ObjectId)
    (hok : (acceptAssignment s user id).response.code = 200) :
    ∃ a, (acceptAssignment s user id).store.findAssignment id = some a
      ∧ a.helperId = some user.userId ∧ a.status = Status.accepted := by
  unfold acceptAssignment rolesDenied at hok ⊢
  try dsimp only at hok ⊢
  repeat' split at hok
  all_goals first
    | (simp at hok; done)
    | simp_all [findAssignment_updateAssignment, findUser_updateAssignment]

/-- C3. Once Accept has answered 200 for a helper on assignment `id`, then after
any sequence of lifecycle operations the assignment still carries that helper,
and every further Accept on it, by any caller, answers an error (a code from
400 up) and leaves the store as it is. -/
theorem accept_at_most_once (env : Env) (s : Store) (user : AuthUser) (id : ObjectId)
    (hok : (acceptAssignment s user id).response.code = 200) (ops : List Op) (user2 : AuthUser) :
    ((run env (acceptAssignment s user id).store ops).findAssignment id).map
        (fun a => a.helperId) = some (some user.userId)
      ∧ 400 ≤ (acceptAssignment (run env (acceptAssignment s user id).store ops) user2 id).response.code
      ∧ (acceptAssignment (run env (acceptAssignment s user id).store ops) user2 id).store
          = run env (acceptAssignment s user id).store ops := by
  obtain ⟨a, ha, hh, _⟩ := accept_ok_store s user id hok
  obtain ⟨b, hb, hbh⟩ := run_helper_kept env ops _ id a user.userId ha hh
  have h2 := accept_assigned _ user2 id b user.userId hb hbh
  exact ⟨by rw [hb]; simp [hbh], h2.2, h2.1⟩

/-- C3 at a concrete execution: the helper accepts, completes, the owner
requests a revision (status back to accepted), and a second helper tries to
accept. -/
theorem accept_at_most_once_witness :
    (acceptAssignment demoStore demoHelper 0).response.code = 200
      ∧ ((run demoEnv (acceptAssignment demoStore demoHelper 0).store demoRevisionOps).findAssignment
          0).map (fun a => a.helperId) = some (some demoHelper.userId)
      ∧ 400 ≤ (acceptAssignment
          (run demoEnv (acceptAssignment demoStore demoHelper 0).store demoRevisionOps)
          demoHelper2 0).response.code
      ∧ (acceptAssignment
          (run demoEnv (acceptAssignment demoStore demoHelper 0).store demoRevisionOps)
          demoHelper2 0).store
          = run demoEnv (acceptAssignment demoStore demoHelper 0).store demoRevisionOps :=
  ⟨by decide, accept_at_most_once demoEnv demoStore demoHelper 0 (by decide) demoRevisionOps
    demoHelper2⟩

/-! ## C5: Pay -/

/-- The store after a Pay whose guards hold and whose writes all succeed. -/
theorem pay_store (s : Store) (user : AuthUser) (id : ObjectId) (a : Assignment) (t : String)
    (notes : Option String) (now : Instant) (h : ObjectId) (amount : ℚ)
    (hadmin : user.isAdmin = true) (ht : t ≠ "") (hfind : s.findAssignment id = some a)
    (hs : a.status = Status.ready_for_payout) (hh : a.helperId = some h)
    (hp : a.adminDeterminedHelperPayout = some amount) :
    (payAssignment s user id (some t) notes now none).store
      = { assignments := s.assignments.modify
            (fun a => { a with status := Status.paid, paidAt := some now }) id,
          users := s.users.modify
            (Option.map (fun u => { u with totalEarnings := u.totalEarnings + amount })) h,
          categories := s.categories,
          payoutTransactions := s.payoutTransactions ++
            [{ assignmentId := id, helperId := h, amount := amount, transactionId := t,
               notes := notes, paidAt := now }] } := by
  have ht2 : (t != "") = true := bne_iff_ne.mpr ht
  unfold payAssignment adminDenied authorizeAdmin truthy
  simp only [hadmin, hfind, hs, hh, hp, ht2, Bool.not_true, Bool.false_eq_true, if_false,
    ne_eq, not_true_eq_false, reduceCtorEq]
  split <;> rfl

theorem pay_code_ok (s : Store) (user : AuthUser) (id : ObjectId) (a : Assignment) (t : String)
    (notes : Option String) (now : Instant) (h : ObjectId) (amount : ℚ)
    (hadmin : user.isAdmin = true) (ht : t ≠ "") (hfind : s.findAssignment id = some a)
    (hs : a.status = Status.ready_for_payout) (hh : a.helperId = some h)
    (hp : a.adminDeterminedHelperPayout = some amount)
    (hhelper : (s.findUser h).isSome = true) :
    (payAssignment s user id (some t) notes now none).response.code = 200 := by
  have ht2 : (t != "") = true := bne_iff_ne.mpr ht
  obtain ⟨u, hu⟩ := Option.isSome_iff_exists.mp hhelper
  unfold payAssignment adminDenied authorizeAdmin truthy
  simp only [hadmin, hfind, hs, hh, hp, ht2, Bool.not_true, Bool.false_eq_true, if_false,
    ne_eq, not_true_eq_false, reduceCtorEq]
  have hfu : ∀ (l : List PayoutTransaction) (f : Assignment → Assignment) (g : User → User),
      (Store.updateUser { s.updateAssignment id f with payoutTransactions := l } h g).findUser h
        = some (g u) := by
    intro l f g
    rw [findUser_updateUser]
    simp only [if_true]
    show Option.map g (s.findUser h) = some (g u)
    rw [hu]
    rfl
  rw [hfu]

theorem pay_guard_fails (s : Store) (user : AuthUser) (id : ObjectId) (a : Assignment)
    (t : Option String) (notes : Option String) (now : Instant) (fault : Option PayFault)
    (hfind : s.findAssignment id = some a)
    (hg : ¬ (a.status = Status.ready_for_payout ∧ a.helperId.isSome = true
      ∧ a.adminDeterminedHelperPayout.isSome = true)) :
    (payAssignment s user id t notes now fault).response.code ≠ 200
      ∧ 400 ≤ (payAssignment s user id t notes now fault).response.code
      ∧ (payAssignment s user id t notes now fault).store = s := by
  unfold payAssignment adminDenied
  simp only [hfind]
  repeat' split
  all_goals first
    | exact ⟨by simp, by simp, rfl⟩
    | (exfalso; apply hg; simp_all)

/-- C5. For an existing assignment, an administrator and a non-empty
transaction id, with the helper account (if a helper is attached) present and
no storage failure: Pay answers 200 exactly when the status is
ready_for_payout, a helper is attached and the helper payout is set; it then
marks the assignment paid and stamps paidAt, leaves the other assignments,
appends exactly one PayoutTransaction with the assignment, the helper, the
payout amount, the transaction id and the notes, and adds exactly the payout
amount to the totalEarnings of the helper and of no one else; when it does not
answer 200 the store is unchanged. -/
theorem pay_spec (s : Store) (user : AuthUser) (id : ObjectId) (a : Assignment) (t : String)
    (notes : Option String) (now : Instant)
    (hadmin : user.isAdmin = true) (ht : t ≠ "") (hfind : s.findAssignment id = some a)
    (hhelper : ∀ h, a.helperId = some h → (s.findUser h).isSome = true) :
    ((payAssignment s user id (some t) notes now none).response.code = 200 ↔
        a.status = Status.ready_for_payout ∧ a.helperId.isSome = true
          ∧ a.adminDeterminedHelperPayout.isSome = true)
      ∧ ((payAssignment s user id (some t) notes now none).response.code = 200 →
          ∃ h amount, a.helperId = some h ∧ a.adminDeterminedHelperPayout = some amount
            ∧ (payAssignment s user id (some t) notes now none).store.findAssignment id
                = some { a with status := Status.paid, paidAt := some now }
            ∧ (∀ id2, id2 ≠ id →
                (payAssignment s user id (some t) notes now none).store.findAssignment id2
                  = s.findAssignment id2)
            ∧ (payAssignment s user id (some t) notes now none).store.payoutTransactions
                = s.payoutTransactions ++
                  [{ assignmentId := id, helperId := h, amount := amount, transactionId := t,
                     notes := notes, paidAt := now }]
            ∧ (payAssignment s user id (some t) notes now none).store.findUser h
                = (s.findUser h).map (fun u => { u with totalEarnings := u.totalEarnings + amount })
            ∧ (∀ uid, uid ≠ h →
                (payAssignment s user id (some t) notes now none).store.findUser uid
                  = s.findUser uid))
      ∧ ((payAssignment s user id (some t) notes now none).response.code ≠ 200 →
          (payAssignment s user id (some t) notes now none).store = s) := by
  by_cases hg : a.status = Status.ready_for_payout ∧ a.helperId.isSome = true
      ∧ a.adminDeterminedHelperPayout.isSome = true
  · obtain ⟨hs, hh, hp⟩ := hg
    obtain ⟨h, hh⟩ := Option.isSome_iff_exists.mp hh
    obtain ⟨amount, hp⟩ := Option.isSome_iff_exists.mp hp
    have hcode := pay_code_ok s user id a t notes now h amount hadmin ht hfind hs hh hp
      (hhelper h hh)
    have hstore := pay_store s user id a t notes now h amount hadmin ht hfind hs hh hp
    refine ⟨⟨fun _ => ⟨hs, by simp [hh], by simp [hp]⟩, fun _ => hcode⟩, ?_, ?_⟩
    · intro _
      refine ⟨h, amount, hh, hp, ?_, ?_, ?_, ?_, ?_⟩
      · rw [hstore]
        show (s.assignments.modify _ id)[id]? = _
        rw [List.getElem?_modify_eq]
        have : s.assignments[id]? = some a := hfind
        rw [this]
        rfl
      · intro id2 hne
        rw [hstore]
        show (s.assignments.modify _ id)[id2]? = s.assignments[id2]?
        exact List.getElem?_modify_ne _ _ (fun h => hne h.symm)
      · rw [hstore]
      · rw [hstore]
        show ((s.users.modify _ h)[h]?).join = _
        rw [List.getElem?_modify_eq]
        unfold Store.findUser
        cases s.users[h]? with
        | none => rfl
        | some u => cases u <;> rfl
      · intro uid hne
        rw [hstore]
        show ((s.users.modify _ h)[uid]?).join = (s.users[uid]?).join
        rw [List.getElem?_modify_ne _ _ (fun h => hne h.symm)]
    · intro hne
      exact absurd hcode hne
  · have hf := pay_guard_fails s user id a (some t) notes now none hfind hg
    exact ⟨⟨fun h => absurd h hf.1, fun h => absurd h hg⟩, fun h => absurd h hf.1, fun _ => hf.2.2⟩

/-- C5 at a concrete store: the demo assignment, accepted by helper 0, approved,
with payout 70, is paid under transaction id T1. -/
theorem pay_spec_witness :
    ((payAssignment demoReadyStore demoAdmin 0 (some "T1") none 90 none).response.code = 200 ↔
        demoReadyAssignment.status = Status.ready_for_payout
          ∧ demoReadyAssignment.helperId.isSome = true
          ∧ demoReadyAssignment.adminDeterminedHelperPayout.isSome = true)
      ∧ ((payAssignment demoReadyStore demoAdmin 0 (some "T1") none 90 none).response.code = 200 →
          ∃ h amount, demoReadyAssignment.helperId = some h
            ∧ demoReadyAssignment.adminDeterminedHelperPayout = some amount
            ∧ (payAssignment demoReadyStore demoAdmin 0 (some "T1") none 90 none).store.findAssignment 0
                = some { demoReadyAssignment with status := Status.paid, paidAt := some 90 }
            ∧ (∀ id2, id2 ≠ 0 →
                (payAssignment demoReadyStore demoAdmin 0 (some "T1") none 90 none).store.findAssignment id2
                  = demoReadyStore.findAssignment id2)
            ∧ (payAssignment demoReadyStore demoAdmin 0 (some "T1") none 90 none).store.payoutTransactions
                = demoReadyStore.payoutTransactions ++
                  [{ assignmentId := 0, helperId := h, amount := amount, transactionId := "T1",
                     notes := none, paidAt := 90 }]
            ∧ (payAssignment demoReadyStore demoAdmin 0 (some "T1") none 90 none).store.findUser h
                = (demoReadyStore.findUser h).map
                    (fun u => { u with totalEarnings := u.totalEarnings + amount })
            ∧ (∀ uid, uid ≠ h →
                (payAssignment demoReadyStore demoAdmin 0 (some "T1") none 90 none).store.findUser uid
                  = demoReadyStore.findUser uid))
      ∧ ((payAssignment demoReadyStore demoAdmin 0 (some "T1") none 90 none).response.code ≠ 200 →
          (payAssignment demoReadyStore demoAdmin 0 (some "T1") none 90 none).store = demoReadyStore) :=
  pay_spec demoReadyStore demoAdmin 0 demoReadyAssignment "T1" none 90 rfl (by decide) rfl
    (by intro h hh; cases hh; rfl)

/-! ## The payout ledger under each operation -/

theorem accept_rest (s : Store) (user : AuthUser) (id : ObjectId) :
    (acceptAssignment s user id).store.payoutTransactions = s.payoutTransactions
      ∧ (acceptAssignment s user id).store.users = s.users := by
  unfold acceptAssignment rolesDenied
  try dsimp only
  repeat' split
  all_goals exact ⟨rfl, rfl⟩

theorem complete_rest (s : Store) (user : AuthUser) (id : ObjectId)
    (files : Option (List UploadedFile)) (now : Instant) (dm : DmOutcome) :
    (completeAssignment s user id files now dm).store.payoutTransactions = s.payoutTransactions
      ∧ (completeAssignment s user id files now dm).store.users = s.users := by
  unfold completeAssignment rolesDenied
  try dsimp only
  repeat' split
  all_goals exact ⟨rfl, rfl⟩

theorem review_rest (s : Store) (user : AuthUser) (id : ObjectId) (action : String)
    (feedback : Option String) :
    (reviewAssignment s user id action feedback).store.payoutTransactions = s.payoutTransactions
      ∧ (reviewAssignment s user id action feedback).store.users = s.users := by
  unfold reviewAssignment rolesDenied
  try dsimp only
  repeat' split
  all_goals exact ⟨rfl, rfl⟩

theorem approveWork_rest (env : Env) (s : Store) (interaction : Interaction) (id : ObjectId)
    (dm : DmOutcome) :
    (approveWork env s interaction id dm).store.payoutTransactions = s.payoutTransactions
      ∧ (approveWork env s interaction id dm).store.users = s.users := by
  unfold approveWork
  try dsimp only
  repeat' split
  all_goals exact ⟨rfl, rfl⟩

theorem requestRevision_rest (env : Env) (s : Store) (interaction : Interaction) (id : ObjectId)
    (feedback : String) (dm : DmOutcome) :
    (requestRevision env s interaction id feedback dm).store.payoutTransactions
        = s.payoutTransactions
      ∧ (requestRevision env s interaction id feedback dm).store.users = s.users := by
  unfold requestRevision
  try dsimp only
  repeat' split
  all_goals exact ⟨rfl, rfl⟩

theorem setPayout_rest (s : Store) (user : AuthUser) (id : ObjectId) (v : JsonValue) :
    (setPayout s user id v).store.payoutTransactions = s.payoutTransactions
      ∧ (setPayout s user id v).store.users = s.users := by
  unfold setPayout adminDenied
  try dsimp only
  repeat' split
  all_goals exact ⟨rfl, rfl⟩

theorem create_rest (env : Env) (s : Store) (user : AuthUser) (body : AssignmentBody)
    (files : Option (List UploadedFile)) (channelSendThrows : Bool) :
    (createAssignment env s user body files channelSendThrows).store.payoutTransactions
        = s.payoutTransactions
      ∧ (createAssignment env s user body files channelSendThrows).store.users = s.users := by
  unfold createAssignment
  try dsimp only
  repeat' split
  all_goals first
    | exact ⟨rfl, rfl⟩
    | (obtain ⟨d0, p0, h⟩ := insertAssignment_eq env s _ _ _ _ (by assumption)
       rw [h]
       exact ⟨rfl, rfl⟩)

theorem ticket_payouts (env : Env) (s : Store) (interaction : Interaction)
    (title description categoryName : String) (paymentAmount : ℚ) (deadlineString : String)
    (complexity : String) (world : TicketWorld) :
    (createAssignmentTicket env s interaction title description categoryName paymentAmount
        deadlineString complexity world).store.payoutTransactions = s.payoutTransactions := by
  unfold createAssignmentTicket
  split
  · rfl
  split
  · rfl
  split
  · rfl
  rename_i s1 userId hens
  rw [← (ensureClient_assignments s s1 interaction userId hens).2]
  repeat' split
  all_goals first
    | rfl
    | (obtain ⟨d0, p0, h⟩ := insertAssignment_eq env s1 _ _ _ _ (by assumption)
       rw [h])

theorem modal_payouts (env : Env) (s : Store) (interaction : Interaction)
    (title description categoryName paymentInput deadlineString complexityInput : String)
    (world : TicketWorld) :
    (createAssignmentModal env s interaction title description categoryName paymentInput
        deadlineString complexityInput world).store.payoutTransactions = s.payoutTransactions := by
  unfold createAssignmentModal
  try dsimp only
  repeat' split
  all_goals first
    | rfl
    | exact ticket_payouts _ _ _ _ _ _ _ _ _ _

/-- Pay either writes nothing, or its guards hold and it has performed its
writes in order up to the one that failed. -/
theorem pay_ledger (s : Store) (user : AuthUser) (id : ObjectId)
    (transactionId notes : Option String) (now : Instant) (fault : Option PayFault) :
    (payAssignment s user id transactionId notes now fault).store = s
      ∨ ∃ a h amount, s.findAssignment id = some a ∧ a.status = Status.ready_for_payout
          ∧ a.helperId = some h ∧ a.adminDeterminedHelperPayout = some amount
          ∧ (payAssignment s user id transactionId notes now fault).store.assignments
              = s.assignments.modify (fun a => { a with status := Status.paid, paidAt := some now }) id
          ∧ ((fault = some PayFault.transactionSave
                ∧ (payAssignment s user id transactionId notes now fault).store.payoutTransactions
                    = s.payoutTransactions
                ∧ (payAssignment s user id transactionId notes now fault).store.users = s.users)
              ∨ (fault = some PayFault.earningsUpdate
                ∧ (payAssignment s user id transactionId notes now fault).store.payoutTransactions
                    = s.payoutTransactions ++
                      [{ assignmentId := id, helperId := h, amount := amount,
                         transactionId := transactionId.getD "", notes := notes, paidAt := now }]
                ∧ (payAssignment s user id transactionId notes now fault).store.users = s.users)
              ∨ (fault = none
                ∧ (payAssignment s user id transactionId notes now fault).store.payoutTransactions
                    = s.payoutTransactions ++
                      [{ assignmentId := id, helperId := h, amount := amount,
                         transactionId := transactionId.getD "", notes := notes, paidAt := now }]
                ∧ (payAssignment s user id transactionId notes now fault).store.users
                    = s.users.modify
                        (Option.map (fun u => { u with totalEarnings := u.totalEarnings + amount })) h)) := by
  unfold payAssignment adminDenied
  split
  · exact Or.inl rfl
  split
  · exact Or.inl rfl
  split
  · exact Or.inl rfl
  rename_i a hfind
  split
  · exact Or.inl rfl
  rename_i hs
  split
  · exact Or.inl rfl
  rename_i h hh
  split
  · exact Or.inl rfl
  rename_i amount hp
  have hs2 : a.status = Status.ready_for_payout := by simpa using hs
  rcases fault with _ | f
  · right
    refine ⟨a, h, amount, hfind, hs2, hh, hp, ?_⟩
    have e1 : (none : Option PayFault) ≠ some PayFault.assignmentSave := by simp
    have e2 : (none : Option PayFault) ≠ some PayFault.transactionSave := by simp
    have e3 : (none : Option PayFault) ≠ some PayFault.earningsUpdate := by simp
    rw [if_neg e1, if_neg e2, if_neg e3]
    dsimp only
    split <;> exact ⟨rfl, Or.inr (Or.inr ⟨rfl, rfl, rfl⟩)⟩
  · cases f
    · exact Or.inl (by simp)
    · right
      refine ⟨a, h, amount, hfind, hs2, hh, hp, ?_⟩
      have e1 : some PayFault.transactionSave ≠ some PayFault.assignmentSave := by simp
      rw [if_neg e1, if_pos rfl]
      exact ⟨rfl, Or.inl ⟨rfl, rfl, rfl⟩⟩
    · right
      refine ⟨a, h, amount, hfind, hs2, hh, hp, ?_⟩
      have e1 : some PayFault.earningsUpdate ≠ some PayFault.assignmentSave := by simp
      have e2 : some PayFault.earningsUpdate ≠ some PayFault.transactionSave := by simp
      rw [if_neg e1, if_neg e2, if_pos rfl]
      exact ⟨rfl, Or.inr (Or.inl ⟨rfl, rfl, rfl⟩)⟩

/-- Every operation either leaves the payout transactions alone and moves the
documents quietly, or is a Pay whose guards held: it marked one
ready_for_payout assignment paid and, unless the transaction save failed,
appended one transaction for it. -/
theorem step_ledger (env : Env) (s : Store) (op : Op) :
    ((step env s op).payoutTransactions = s.payoutTransactions
        ∧ ∀ id, QuietMove (s.findAssignment id) ((step env s op).findAssignment id))
      ∨ ∃ id a h amount now, s.findAssignment id = some a ∧ a.status = Status.ready_for_payout
          ∧ a.helperId = some h ∧ a.adminDeterminedHelperPayout = some amount
          ∧ (step env s op).assignments
              = s.assignments.modify (fun a => { a with status := Status.paid, paidAt := some now }) id
          ∧ (((step env s op).payoutTransactions = s.payoutTransactions ∧ Op.faultFree op = false)
              ∨ ∃ tx : PayoutTransaction, tx.assignmentId = id ∧ tx.helperId = h ∧ tx.amount = amount
                  ∧ (step env s op).payoutTransactions = s.payoutTransactions ++ [tx]) := by
  cases op with
  | create user body files channelSendThrows =>
    exact Or.inl ⟨(create_rest _ _ _ _ _ _).1, fun id => create_quietMove _ _ _ _ _ _ id⟩
  | createModal interaction title description categoryName paymentInput deadlineString
      complexityInput world =>
    exact Or.inl ⟨modal_payouts _ _ _ _ _ _ _ _ _ _, fun id => modal_quietMove _ _ _ _ _ _ _ _ _ _ id⟩
  | accept user id => exact Or.inl ⟨(accept_rest _ _ _).1, fun id2 => accept_quietMove _ _ _ id2⟩
  | complete user id files now dm =>
    exact Or.inl ⟨(complete_rest _ _ _ _ _ _).1, fun id2 => complete_quietMove _ _ _ id2 _ _ _⟩
  | review user id action feedback =>
    exact Or.inl ⟨(review_rest _ _ _ _ _).1, fun id2 => review_quietMove _ _ _ id2 _ _⟩
  | approveWork interaction id dm =>
    exact Or.inl ⟨(approveWork_rest _ _ _ _ _).1, fun id2 => approveWork_quietMove _ _ _ _ id2 _⟩
  | requestRevision interaction id feedback dm =>
    exact Or.inl ⟨(requestRevision_rest _ _ _ _ _ _).1,
      fun id2 => requestRevision_quietMove _ _ _ _ id2 _ _⟩
  | setPayout user id v =>
    exact Or.inl ⟨(setPayout_rest _ _ _ _).1, fun id2 => setPayout_quietMove _ _ _ id2 _⟩
  | dailyStatusCheck now failing =>
    exact Or.inl ⟨(dailyStatusLoop_rest _ _ _ _).2.1, fun id2 => dailyStatusCheck_quietMove _ _ _ id2⟩
  | pay user id transactionId notes now fault =>
    rcases pay_ledger s user id transactionId notes now fault with h | ⟨a, h, amount, h1, h2, h3, h4, h5, h6⟩
    · left
      have hstep : step env s (Op.pay user id transactionId notes now fault) = s := h
      rw [hstep]
      exact ⟨rfl, fun id2 => QuietMove.same _⟩
    · right
      refine ⟨id, a, h, amount, now, h1, h2, h3, h4, h5, ?_⟩
      rcases h6 with ⟨hf, hp, _⟩ | ⟨hf, hp, _⟩ | ⟨hf, hp, _⟩
      · exact Or.inl ⟨hp, by rw [hf]; rfl⟩
      · exact Or.inr ⟨_, rfl, rfl, rfl, hp⟩
      · exact Or.inr ⟨_, rfl, rfl, rfl, hp⟩

theorem quietMove_paidCount (x y : Option Assignment) (h : QuietMove x y) :
    paidCount y = paidCount x := by
  cases h with
  | same x => rfl
  | created a hs hh hp hf hpaid => simp [paidCount, hs]
  | accepted a h hs hh => simp [paidCount, hs]
  | completed a h work now hh hs => rcases hs with hs | hs <;> simp [paidCount, hs]
  | approved a hs => simp [paidCount, hs]
  | revised a hs => simp [paidCount, hs]
  | payoutSet a x hx => simp [paidCount]
  | overdue a hs => simp [paidCount, hs]

theorem payoutsFor_append (s : Store) (l : List PayoutTransaction) (tx : PayoutTransaction)
    (id : ObjectId) (h : s.payoutTransactions = l ++ [tx]) :
    (s.payoutsFor id).length
      = (l.filter (fun t => t.assignmentId == id)).length + (if tx.assignmentId = id then 1 else 0) := by
  unfold Store.payoutsFor
  rw [h, List.filter_append, List.length_append]
  by_cases hid : tx.assignmentId = id
  · simp [List.filter_cons, hid]
  · simp [List.filter_cons, hid]

/-- The ledger invariant is kept by every operation during which no write fails. -/
theorem step_paidCount (env : Env) (s : Store) (op : Op) (hff : Op.faultFree op = true)
    (hinv : ∀ id, (s.payoutsFor id).length = paidCount (s.findAssignment id)) (id : ObjectId) :
    ((step env s op).payoutsFor id).length = paidCount ((step env s op).findAssignment id) := by
  rcases step_ledger env s op with ⟨hp, hq⟩ | ⟨id0, a, h, amount, now, h1, h2, h3, h4, h5, h6⟩
  · rw [quietMove_paidCount _ _ (hq id), ← hinv id]
    unfold Store.payoutsFor
    rw [hp]
  · rcases h6 with ⟨_, hf⟩ | ⟨tx, htx, _, _, hp⟩
    · rw [hff] at hf
      exact absurd hf (by simp)
    · rw [payoutsFor_append _ _ tx id hp]
      have hold := hinv id
      unfold Store.payoutsFor at hold
      rw [hold]
      unfold Store.findAssignment
      rw [h5]
      by_cases hid : id0 = id
      · subst hid
        have h1b : s.assignments[id0]? = some a := h1
        rw [List.getElem?_modify_eq]
        simp [Store.findAssignment, h1b, paidCount, h2, htx]
      · have hne : ¬ tx.assignmentId = id := by rw [htx]; exact hid
        rw [List.getElem?_modify_ne _ _ hid]
        simp [Store.findAssignment, hne]

theorem run_paidCount (env : Env) (ops : List Op) (s : Store)
    (hff : ∀ op ∈ ops, Op.faultFree op = true)
    (hinv : ∀ id, (s.payoutsFor id).length = paidCount (s.findAssignment id)) (id : ObjectId) :
    ((run env s ops).payoutsFor id).length = paidCount ((run env s ops).findAssignment id) := by
  induction ops generalizing s with
  | nil => exact hinv id
  | cons op ops ih =>
    rw [run_cons]
    exact ih _ (fun o ho => hff o (List.mem_cons_of_mem _ ho))
      (fun id2 => step_paidCount env s op (hff op (List.mem_cons_self _ _)) hinv id2)

theorem step_payouts_prefix (env : Env) (s : Store) (op : Op) :
    s.payoutTransactions <+: (step env s op).payoutTransactions := by
  rcases step_ledger env s op with ⟨hp, _⟩ | ⟨id0, a, h, amount, now, _, _, _, _, _, h6⟩
  · rw [hp]
  · rcases h6 with ⟨hp, _⟩ | ⟨tx, _, _, _, hp⟩
    · rw [hp]
    · rw [hp]
      exact List.prefix_append _ _

/-! ## C8: one payout transaction per paid assignment -/

/-- C8. In every store reached by lifecycle operations without storage
failures, the payout transactions that refer to an assignment number one when
the assignment is paid and none otherwise; and every operation keeps the
existing payout transactions, in order and unchanged, as the front of the new
list. -/
theorem one_payout_per_paid (env : Env) (s : Store) (hreach : ReachableWithoutFaults env s) :
    (∀ id a, s.findAssignment id = some a →
        (s.payoutsFor id).length = if a.status = Status.paid then 1 else 0)
      ∧ (∀ op, s.payoutTransactions <+: (step env s op).payoutTransactions) := by
  obtain ⟨users, categories, ops, hff, rfl⟩ := hreach
  refine ⟨?_, fun op => step_payouts_prefix env _ op⟩
  intro id a ha
  have h := run_paidCount env ops (initialStore users categories) hff
    (fun id2 => by simp [Store.payoutsFor, initialStore, Store.findAssignment, paidCount]) id
  rw [h, ha]
  rfl

/-- C8 at the store the scenario reaches: created, accepted, overdue,
completed, approved, payout set, paid. -/
theorem one_payout_per_paid_witness :
    (∀ id a, (run scenarioEnv scenarioStart scenarioOps).findAssignment id = some a →
        ((run scenarioEnv scenarioStart scenarioOps).payoutsFor id).length
          = if a.status = Status.paid then 1 else 0)
      ∧ (∀ op, (run scenarioEnv scenarioStart scenarioOps).payoutTransactions
          <+: (step scenarioEnv (run scenarioEnv scenarioStart scenarioOps) op).payoutTransactions) :=
  one_payout_per_paid scenarioEnv (run scenarioEnv scenarioStart scenarioOps)
    ⟨demoStore.users, [{ name := "python-help" }], scenarioOps, by decide, rfl⟩

/-! ## C6: Pay cannot be repeated -/

theorem quietMove_paid_kept (x y : Option Assignment) (h : QuietMove x y) (a : Assignment)
    (hx : x = some a) (hs : a.status = Status.paid) : ∃ b, y = some b ∧ b.status = Status.paid := by
  cases h with
  | same x => exact ⟨a, hx, hs⟩
  | created a hs hh hp hf hpaid => exact absurd hx (by simp)
  | accepted a0 h hs0 hh0 => cases hx; rw [hs] at hs0; exact absurd hs0 (by simp)
  | completed a0 h work now hh0 hs0 =>
    cases hx; rw [hs] at hs0; rcases hs0 with h1 | h1 <;> exact absurd h1 (by simp)
  | approved a0 hs0 => cases hx; rw [hs] at hs0; exact absurd hs0 (by simp)
  | revised a0 hs0 => cases hx; rw [hs] at hs0; exact absurd hs0 (by simp)
  | payoutSet a0 x hx0 => cases hx; exact ⟨_, rfl, hs⟩
  | overdue a0 hs0 => cases hx; rw [hs] at hs0; exact absurd hs0 (by simp)

/-- A paid assignment stays paid, and the number of its payout transactions
stays, under every operation. -/
theorem step_paid_kept (env : Env) (s : Store) (op : Op) (id : ObjectId) (a : Assignment)
    (ha : s.findAssignment id = some a) (hs : a.status = Status.paid) :
    (∃ b, (step env s op).findAssignment id = some b ∧ b.status = Status.paid)
      ∧ ((step env s op).payoutsFor id).length = (s.payoutsFor id).length := by
  rcases step_ledger env s op with ⟨hp, hq⟩ | ⟨id0, a0, h, amount, now, h1, h2, h3, h4, h5, h6⟩
  · refine ⟨quietMove_paid_kept _ _ (hq id) a ha hs, ?_⟩
    unfold Store.payoutsFor
    rw [hp]
  · have hne : id0 ≠ id := by
      intro heq
      subst heq
      rw [ha] at h1
      cases h1
      rw [hs] at h2
      exact absurd h2 (by simp)
    constructor
    · refine ⟨a, ?_, hs⟩
      unfold Store.findAssignment
      rw [h5, List.getElem?_modify_ne _ _ hne]
      exact ha
    · rcases h6 with ⟨hp, _⟩ | ⟨tx, htx, _, _, hp⟩
      · unfold Store.payoutsFor
        rw [hp]
      · rw [payoutsFor_append _ _ tx id hp]
        have : ¬ tx.assignmentId = id := by rw [htx]; exact hne
        simp [Store.payoutsFor, this]

theorem run_paid_kept (env : Env) (ops : List Op) (s : Store) (id : ObjectId) (a : Assignment)
    (ha : s.findAssignment id = some a) (hs : a.status = Status.paid) :
    (∃ b, (run env s ops).findAssignment id = some b ∧ b.status = Status.paid)
      ∧ ((run env s ops).payoutsFor id).length = (s.payoutsFor id).length := by
  induction ops generalizing s a with
  | nil => exact ⟨⟨a, ha, hs⟩, rfl⟩
  | cons op ops ih =>
    obtain ⟨⟨b, hb, hbs⟩, hcount⟩ := step_paid_kept env s op id a ha hs
    rw [run_cons]
    obtain ⟨h1, h2⟩ := ih _ b hb hbs
    exact ⟨h1, h2.trans hcount⟩

theorem pay_ok_guards (s : Store) (user : AuthUser) (id : ObjectId)
    (transactionId notes : Option String) (now : Instant) (fault : Option PayFault)
    (hok : (payAssignment s user id transactionId notes now fault).response.code = 200) :
    user.isAdmin = true ∧ fault = none
      ∧ (∃ t, transactionId = some t ∧ t ≠ "")
      ∧ ∃ a h amount, s.findAssignment id = some a ∧ a.status = Status.ready_for_payout
          ∧ a.helperId = some h ∧ a.adminDeterminedHelperPayout = some amount := by
  unfold payAssignment adminDenied at hok
  split at hok
  · simp at hok
  rename_i hadmin
  split at hok
  · simp at hok
  rename_i htxn
  split at hok
  · simp at hok
  rename_i a hfind
  split at hok
  · simp at hok
  rename_i hs
  split at hok
  · simp at hok
  rename_i h hh
  split at hok
  · simp at hok
  rename_i amount hp
  split at hok
  · simp at hok
  rename_i f1
  split at hok
  · simp at hok
  rename_i f2
  split at hok
  · simp at hok
  rename_i f3
  refine ⟨by simpa [authorizeAdmin] using hadmin, ?_, ?_, a, h, amount, hfind, by simpa using hs, hh, hp⟩
  · cases fault with
    | none => rfl
    | some f => cases f <;> simp_all
  · cases transactionId with
    | none => simp [truthy] at htxn
    | some t => exact ⟨t, rfl, by simpa [truthy] using htxn⟩

theorem pay_ok_paid (s : Store) (user : AuthUser) (id : ObjectId)
    (transactionId notes : Option String) (now : Instant)
    (hok : (payAssignment s user id transactionId notes now none).response.code = 200) :
    (∃ b, (payAssignment s user id transactionId notes now none).store.findAssignment id = some b
        ∧ b.status = Status.paid)
      ∧ ((payAssignment s user id transactionId notes now none).store.payoutsFor id).length
          = (s.payoutsFor id).length + 1 := by
  obtain ⟨hadmin, _, ⟨t, rfl, ht⟩, a, h, amount, hfind, hs, hh, hp⟩ :=
    pay_ok_guards s user id transactionId notes now none hok
  rw [pay_store s user id a t notes now h amount hadmin ht hfind hs hh hp]
  constructor
  · refine ⟨{ a with status := Status.paid, paidAt := some now }, ?_, rfl⟩
    show (s.assignments.modify _ id)[id]? = _
    rw [List.getElem?_modify_eq]
    have h1b : s.assignments[id]? = some a := hfind
    rw [h1b]
    rfl
  · rw [payoutsFor_append _ s.payoutTransactions _ id rfl]
    simp [Store.payoutsFor]

/-- C6. After a Pay that answered 200, and after any further lifecycle
operations, every repeated Pay on the same assignment (any caller, transaction
id, notes, time or storage behaviour) answers an error and leaves the store as
it is, so it adds no PayoutTransaction and changes no totalEarnings; the
assignment has exactly one payout transaction more than before the first Pay. -/
theorem pay_not_repeatable (env : Env) (s : Store) (user : AuthUser) (id : ObjectId)
    (transactionId notes : Option String) (now : Instant)
    (hok : (payAssignment s user id transactionId notes now none).response.code = 200)
    (ops : List Op) (user2 : AuthUser) (transactionId2 notes2 : Option String) (now2 : Instant)
    (fault2 : Option PayFault) :
    400 ≤ (payAssignment (run env (payAssignment s user id transactionId notes now none).store ops)
        user2 id transactionId2 notes2 now2 fault2).response.code
      ∧ (payAssignment (run env (payAssignment s user id transactionId notes now none).store ops)
          user2 id transactionId2 notes2 now2 fault2).store
          = run env (payAssignment s user id transactionId notes now none).store ops
      ∧ ((payAssignment (run env (payAssignment s user id transactionId notes now none).store ops)
          user2 id transactionId2 notes2 now2 fault2).store.payoutsFor id).length
          = (s.payoutsFor id).length + 1 := by
  obtain ⟨⟨b, hb, hbs⟩, hcount⟩ := pay_ok_paid s user id transactionId notes now hok
  obtain ⟨⟨c, hc, hcs⟩, hcount2⟩ := run_paid_kept env ops _ id b hb hbs
  have hg : ¬ (c.status = Status.ready_for_payout ∧ c.helperId.isSome = true
      ∧ c.adminDeterminedHelperPayout.isSome = true) := by
    rw [hcs]
    simp
  obtain ⟨_, h400, hstore⟩ := pay_guard_fails _ user2 id c transactionId2 notes2 now2 fault2 hc hg
  exact ⟨h400, hstore, by rw [hstore, hcount2, hcount]⟩

/-- C6 at the demo store: Pay under T1, then an Accept attempt, then Pay again
under T2. -/
theorem pay_not_repeatable_witness :
    (payAssignment demoReadyStore demoAdmin 0 (some "T1") none 90 none).response.code = 200
      ∧ 400 ≤ (payAssignment
          (run demoEnv (payAssignment demoReadyStore demoAdmin 0 (some "T1") none 90 none).store
            [Op.accept demoHelper2 0])
          demoAdmin 0 (some "T2") none 95 none).response.code
      ∧ (payAssignment
          (run demoEnv (payAssignment demoReadyStore demoAdmin 0 (some "T1") none 90 none).store
            [Op.accept demoHelper2 0])
          demoAdmin 0 (some "T2") none 95 none).store
          = run demoEnv (payAssignment demoReadyStore demoAdmin 0 (some "T1") none 90 none).store
              [Op.accept demoHelper2 0]
      ∧ ((payAssignment
          (run demoEnv (payAssignment demoReadyStore demoAdmin 0 (some "T1") none 90 none).store
            [Op.accept demoHelper2 0])
          demoAdmin 0 (some "T2") none 95 none).store.payoutsFor 0).length
          = (demoReadyStore.payoutsFor 0).length + 1 :=
  ⟨by decide, pay_not_repeatable demoEnv demoReadyStore demoAdmin 0 (some "T1") none 90
    (by decide) [Op.accept demoHelper2 0] demoAdmin (some "T2") none 95 none⟩

/-! ## C7: storage failures during Pay -/

/-- C7 as stated fails. In the scenario, when the PayoutTransaction save of Pay
fails, Pay answers 500 and the store it leaves, a store reachable by lifecycle
operations, holds the assignment as paid with paidAt stamped, although there is
no payout transaction and the earnings of the helper are unchanged: one of the
three effects is visible without the other two. -/
theorem pay_partial_failure :
    Reachable scenarioEnv (run scenarioEnv scenarioStart failedPayOps)
      ∧ (payAssignment (run scenarioEnv scenarioStart (scenarioOps.take 6)) demoAdmin 0 (some "T1")
          none 130 (some PayFault.transactionSave)).response.code = 500
      ∧ ((run scenarioEnv scenarioStart failedPayOps).findAssignment 0).map
            (fun a => (a.status, a.paidAt)) = some (Status.paid, some 130)
      ∧ (run scenarioEnv scenarioStart failedPayOps).payoutTransactions = []
      ∧ ((run scenarioEnv scenarioStart failedPayOps).findUser 0).map (fun u => u.totalEarnings)
          = some 0 := by
  refine ⟨⟨_, _, failedPayOps, rfl⟩, by decide!, by decide!, by decide!, by decide!⟩

/-- C7, amended. Pay performs its three writes in order and undoes none of
them: when its guards hold, a failure of the assignment save leaves the store
unchanged; a failure of the PayoutTransaction save leaves exactly the
assignment marked paid; a failure of the earnings increment leaves the
assignment paid and the transaction recorded but the earnings as they were;
each failure is answered with 500; and without a failure all three effects are
present. -/
theorem pay_writes_in_order (s : Store) (user : AuthUser) (id : ObjectId) (a : Assignment)
    (t : String) (notes : Option String) (now : Instant) (h : ObjectId) (amount : ℚ)
    (hadmin : user.isAdmin = true) (ht : t ≠ "") (hfind : s.findAssignment id = some a)
    (hs : a.status = Status.ready_for_payout) (hh : a.helperId = some h)
    (hp : a.adminDeterminedHelperPayout = some amount) :
    (payAssignment s user id (some t) notes now (some PayFault.assignmentSave)).store = s
      ∧ (payAssignment s user id (some t) notes now (some PayFault.transactionSave)).store
          = s.updateAssignment id (fun a => { a with status := Status.paid, paidAt := some now })
      ∧ (payAssignment s user id (some t) notes now (some PayFault.earningsUpdate)).store
          = { s.updateAssignment id (fun a => { a with status := Status.paid, paidAt := some now })
              with payoutTransactions := s.payoutTransactions ++
                [{ assignmentId := id, helperId := h, amount := amount, transactionId := t,
                   notes := notes, paidAt := now }] }
      ∧ (payAssignment s user id (some t) notes now none).store
          = Store.updateUser
              { s.updateAssignment id (fun a => { a with status := Status.paid, paidAt := some now })
                with payoutTransactions := s.payoutTransactions ++
                  [{ assignmentId := id, helperId := h, amount := amount, transactionId := t,
                     notes := notes, paidAt := now }] }
              h (fun u => { u with totalEarnings := u.totalEarnings + amount })
      ∧ (∀ f, (payAssignment s user id (some t) notes now (some f)).response.code = 500) := by
  have ht2 : (t != "") = true := bne_iff_ne.mpr ht
  refine ⟨?_, ?_, ?_, ?_, ?_⟩
  · unfold payAssignment adminDenied authorizeAdmin truthy
    simp only [hadmin, hfind, hs, hh, hp, ht2, Bool.not_true, Bool.false_eq_true, if_false,
      ne_eq, not_true_eq_false, if_true]
  · unfold payAssignment adminDenied authorizeAdmin truthy
    simp only [hadmin, hfind, hs, hh, hp, ht2, Bool.not_true, Bool.false_eq_true, if_false,
      ne_eq, not_true_eq_false, if_true, Option.some.injEq, reduceCtorEq]
  · unfold payAssignment adminDenied authorizeAdmin truthy
    simp only [hadmin, hfind, hs, hh, hp, ht2, Bool.not_true, Bool.false_eq_true, if_false,
      ne_eq, not_true_eq_false, if_true, Option.some.injEq, reduceCtorEq]
    rfl
  · rw [pay_store s user id a t notes now h amount hadmin ht hfind hs hh hp]
    rfl
  · intro f
    unfold payAssignment adminDenied authorizeAdmin truthy
    simp only [hadmin, hfind, hs, hh, hp, ht2, Bool.not_true, Bool.false_eq_true, if_false,
      ne_eq, not_true_eq_false, if_true, Option.some.injEq, reduceCtorEq]
    cases f <;> simp

/-- C7, amended, at the demo store. -/
theorem pay_writes_in_order_witness :
    (payAssignment demoReadyStore demoAdmin 0 (some "T1") none 90
        (some PayFault.assignmentSave)).store = demoReadyStore
      ∧ (payAssignment demoReadyStore demoAdmin 0 (some "T1") none 90
          (some PayFault.transactionSave)).store
          = demoReadyStore.updateAssignment 0
              (fun a => { a with status := Status.paid, paidAt := some 90 })
      ∧ (payAssignment demoReadyStore demoAdmin 0 (some "T1") none 90
          (some PayFault.earningsUpdate)).store
          = { demoReadyStore.updateAssignment 0
                (fun a => { a with status := Status.paid, paidAt := some 90 })
              with payoutTransactions := demoReadyStore.payoutTransactions ++
                [{ assignmentId := 0, helperId := 0, amount := 70, transactionId := "T1",
                   notes := none, paidAt := 90 }] }
      ∧ (payAssignment demoReadyStore demoAdmin 0 (some "T1") none 90 none).store
          = Store.updateUser
              { demoReadyStore.updateAssignment 0
                  (fun a => { a with status := Status.paid, paidAt := some 90 })
                with payoutTransactions := demoReadyStore.payoutTransactions ++
                  [{ assignmentId := 0, helperId := 0, amount := 70, transactionId := "T1",
                     notes := none, paidAt := 90 }] }
              0 (fun u => { u with totalEarnings := u.totalEarnings + 70 })
      ∧ (∀ f, (payAssignment demoReadyStore demoAdmin 0 (some "T1") none 90
          (some f)).response.code = 500) :=
  pay_writes_in_order demoReadyStore demoAdmin 0 demoReadyAssignment "T1" none 90 0 70
    rfl (by decide) rfl rfl rfl rfl

/-! ## C9: SetHelperPayout -/

/-- The outcome of SetHelperPayout for an administrator, an existing assignment
and a non-negative number. -/
theorem setPayout_ok (s : Store) (user : AuthUser) (id : ObjectId) (a : Assignment) (x : ℚ)
    (hadmin : user.isAdmin = true) (hfind : s.findAssignment id = some a) (hx : 0 ≤ x) :
    setPayout s user id (JsonValue.number x)
      = { store := s.updateAssignment id (fun a =>
            { a with adminDeterminedHelperPayout := some x,
                     platformFee := some (a.paymentAmount - x),
                     adminShare := some ((a.paymentAmount - x) * (1 / 2)),
                     jolomiShare := some ((a.paymentAmount - x) * (1 / 2)) }),
          response := ⟨200, "Helper payout amount set successfully."⟩ } := by
  have hget : s.assignments[id]? = some a := hfind
  unfold setPayout adminDenied authorizeAdmin
  simp only [hadmin, hfind, Bool.not_true, Bool.false_eq_true, if_false, not_lt.mpr hx]
  unfold Store.updateAssignment
  congr 2
  apply List.ext_getElem?
  intro n
  by_cases hn : id = n
  · subst hn
    simp [hget]
  · simp [List.getElem?_modify_ne _ _ hn]

/-! ### Rounding to doubles -/

theorem roundHalfEven_intCast (n : ℤ) : roundHalfEven (n : ℚ) = n := by
  simp [roundHalfEven]

theorem roundHalfEven_mem (r : ℚ) : roundHalfEven r = ⌊r⌋ ∨ roundHalfEven r = ⌊r⌋ + 1 := by
  unfold roundHalfEven
  split
  · exact Or.inl rfl
  · split
    · exact Or.inr rfl
    · split
      · exact Or.inl rfl
      · exact Or.inr rfl

theorem roundHalfEven_abs_le (r : ℚ) (n : ℤ) (h : |r| ≤ n) : |roundHalfEven r| ≤ n := by
  rw [abs_le] at h ⊢
  have hlo : -n ≤ ⌊r⌋ := by
    rw [Int.le_floor]; push_cast; exact h.1
  by_cases hint : (⌊r⌋ : ℚ) = r
  · have : roundHalfEven r = ⌊r⌋ := by
      rw [← hint, roundHalfEven_intCast]; simp
    rw [this]
    refine ⟨hlo, ?_⟩
    have : ((⌊r⌋ : ℤ) : ℚ) ≤ n := hint ▸ h.2
    exact_mod_cast this
  · have hlt : (⌊r⌋ : ℚ) < r := lt_of_le_of_ne (Int.floor_le r) hint
    have hfl : ⌊r⌋ < n := by
      have : ((⌊r⌋ : ℤ) : ℚ) < n := lt_of_lt_of_le hlt h.2
      exact_mod_cast this
    rcases roundHalfEven_mem r with h1 | h1 <;> rw [h1] <;> constructor <;> omega

theorem two_zpow_pos (k : ℤ) : (0 : ℚ) < 2 ^ k := zpow_pos (by norm_num) k

theorem two_zpow_add_nat (u : ℤ) (d : ℕ) : (2 : ℚ) ^ (u + d) = 2 ^ d * 2 ^ u := by
  rw [zpow_add₀ (by norm_num), zpow_natCast, mul_comm]

theorem log_lt_of_lt (q : ℚ) (x : ℤ) (hq : q ≠ 0) (h : |q| < 2 ^ x) : Int.log 2 |q| < x :=
  (Int.lt_zpow_iff_log_lt (R := ℚ) (b := 2) (by norm_num) (abs_pos.mpr hq) (x := x)).1
    (by simpa using h)

theorem lt_zpow_log_succ (q : ℚ) : |q| < 2 ^ (Int.log 2 |q| + 1) := by
  simpa using Int.lt_zpow_succ_log_self (R := ℚ) (b := 2) (by norm_num) |q|

/-- A multiple of the quantum of q is left as it is. -/
theorem roundDouble_of_multiple (q : ℚ) (n : ℤ) (h : q = n * 2 ^ ulpExponent q) :
    roundDouble q = q := by
  unfold roundDouble
  have h2 : q / 2 ^ ulpExponent q = n := by
    rw [div_eq_iff (ne_of_gt (two_zpow_pos _))]
    exact h
  rw [h2, roundHalfEven_intCast]
  exact h.symm

/-- A value with a mantissa below 2^53 at an exponent of at least -1074 is
left as it is. -/
theorem roundDouble_of_mantissa (m k : ℤ) (hm : |m| < 2 ^ 53) (hk : -1074 ≤ k) :
    roundDouble (m * 2 ^ k) = m * 2 ^ k := by
  by_cases hm0 : m = 0
  · subst hm0
    simp [roundDouble, roundHalfEven]
  have hU : ulpExponent (m * 2 ^ k) ≤ k := by
    unfold ulpExponent
    apply max_le _ hk
    have : Int.log 2 |(m : ℚ) * 2 ^ k| < k + 53 := by
      apply log_lt_of_lt _ _ (mul_ne_zero (by exact_mod_cast hm0) (ne_of_gt (two_zpow_pos k)))
      rw [abs_mul, abs_of_pos (two_zpow_pos k), zpow_add₀ (by norm_num), mul_comm]
      apply mul_lt_mul_of_pos_left _ (two_zpow_pos k)
      have : ((|m| : ℤ) : ℚ) < ((2 ^ 53 : ℤ) : ℚ) := by exact_mod_cast hm
      rw [zpow_ofNat]
      simpa using this
    omega
  obtain ⟨d, hd⟩ : ∃ d : ℕ, k = ulpExponent (m * 2 ^ k) + d :=
    ⟨(k - ulpExponent (m * 2 ^ k)).toNat, by omega⟩
  apply roundDouble_of_multiple _ (m * 2 ^ d)
  conv_lhs => rw [hd]
  rw [two_zpow_add_nat]
  push_cast
  ring


theorem abs_div_ulp_lt (q : ℚ) : |q / 2 ^ ulpExponent q| < 2 ^ 53 := by
  rw [abs_div, abs_of_pos (two_zpow_pos _), div_lt_iff₀ (two_zpow_pos _)]
  have h1 := lt_zpow_log_succ q
  have h2 : Int.log 2 |q| + 1 ≤ ulpExponent q + 53 := by
    have := le_max_left (Int.log 2 |q| - 52) (-1074)
    unfold ulpExponent
    omega
  have h3 : (2 : ℚ) ^ (Int.log 2 |q| + 1) ≤ 2 ^ (ulpExponent q + 53) :=
    zpow_le_zpow_right₀ (by norm_num) h2
  have h4 : (2 : ℚ) ^ (ulpExponent q + 53) = 2 ^ 53 * 2 ^ ulpExponent q := by
    rw [show ulpExponent q + 53 = ulpExponent q + ((53 : ℕ) : ℤ) by norm_num, two_zpow_add_nat]
  rw [← h4]
  exact lt_of_lt_of_le h1 h3

/-- The rounded value has a mantissa below 2^53 at an exponent of at least
-1074. -/
theorem roundDouble_mantissa (q : ℚ) :
    ∃ m k : ℤ, |m| < 2 ^ 53 ∧ -1074 ≤ k ∧ roundDouble q = m * 2 ^ k := by
  have hU : -1074 ≤ ulpExponent q := le_max_right _ _
  have hle : |roundHalfEven (q / 2 ^ ulpExponent q)| ≤ 2 ^ 53 := by
    apply roundHalfEven_abs_le
    push_cast
    exact le_of_lt (abs_div_ulp_lt q)
  rcases lt_or_eq_of_le hle with hlt | heq
  · exact ⟨_, _, hlt, hU, rfl⟩
  · rcases abs_eq (by norm_num : (0 : ℤ) ≤ 2 ^ 53) |>.1 heq with h | h
    · refine ⟨2 ^ 52, ulpExponent q + 1, by norm_num, by omega, ?_⟩
      unfold roundDouble
      rw [h, zpow_add₀ (by norm_num)]
      push_cast
      ring
    · refine ⟨-2 ^ 52, ulpExponent q + 1, by norm_num, by omega, ?_⟩
      unfold roundDouble
      rw [h, zpow_add₀ (by norm_num)]
      push_cast
      ring

/-- Rounding does not cross a multiple of a power of two that is no finer than
the quantum. -/
theorem roundDouble_abs_le_multiple (q : ℚ) (j n : ℤ) (hj : ulpExponent q ≤ j)
    (h : |q| ≤ n * 2 ^ j) : |roundDouble q| ≤ n * 2 ^ j := by
  obtain ⟨d, hd⟩ : ∃ d : ℕ, j = ulpExponent q + d := ⟨(j - ulpExponent q).toNat, by omega⟩
  have hq : |q / 2 ^ ulpExponent q| ≤ ((n * 2 ^ d : ℤ) : ℚ) := by
    rw [abs_div, abs_of_pos (two_zpow_pos _), div_le_iff₀ (two_zpow_pos _)]
    push_cast
    rw [mul_assoc, ← two_zpow_add_nat, ← hd]
    exact h
  have hr := roundHalfEven_abs_le _ _ hq
  unfold roundDouble
  rw [abs_mul, abs_of_pos (two_zpow_pos _), hd, two_zpow_add_nat, ← mul_assoc]
  apply mul_le_mul_of_nonneg_right _ (le_of_lt (two_zpow_pos _))
  have : ((|roundHalfEven (q / 2 ^ ulpExponent q)| : ℤ) : ℚ) ≤ ((n * 2 ^ d : ℤ) : ℚ) := by
    exact_mod_cast hr
  simpa using this

theorem roundDouble_abs_le (q : ℚ) (j : ℤ) (hj : ulpExponent q ≤ j) (h : |q| ≤ 2 ^ j) :
    |roundDouble q| ≤ 2 ^ j := by
  have := roundDouble_abs_le_multiple q j 1 hj (by simpa using h)
  simpa using this

theorem ulpExponent_le (q : ℚ) (j : ℤ) (hj : -1074 ≤ j) (h : |q| < 2 ^ (j + 53)) (hq : q ≠ 0) :
    ulpExponent q ≤ j := by
  have := log_lt_of_lt q _ hq h
  unfold ulpExponent
  exact max_le (by omega) hj

/-- Half of a finite double does not overflow. -/
theorem roundDouble_half_lt (q : ℚ) (h : |q| < 2 ^ (1024 : ℤ)) :
    |roundDouble (q * (1 / 2))| < 2 ^ (1024 : ℤ) := by
  by_cases hq : q = 0
  · subst hq
    simpa [roundDouble, roundHalfEven] using h
  have hhalf : |q * (1 / 2)| < 2 ^ (1023 : ℤ) := by
    rw [abs_mul, abs_of_pos (by norm_num : (0 : ℚ) < 1 / 2)]
    have : (2 : ℚ) ^ (1024 : ℤ) = 2 ^ (1023 : ℤ) * 2 := by
      rw [show (1024 : ℤ) = 1023 + 1 by norm_num, zpow_add₀ (by norm_num)]; norm_num
    rw [this] at h
    linarith
  have hU : ulpExponent (q * (1 / 2)) ≤ 1023 := by
    apply ulpExponent_le _ _ (by norm_num) _ (mul_ne_zero hq (by norm_num))
    exact lt_trans hhalf (zpow_lt_zpow_right₀ (by norm_num) (by norm_num))
  have := roundDouble_abs_le _ 1023 hU (le_of_lt hhalf)
  exact lt_of_le_of_lt this (zpow_lt_zpow_right₀ (by norm_num) (by norm_num))


/-- The exponent of the binade of a value between two powers of two. -/
theorem log_eq_of_bounds (q : ℚ) (e : ℤ) (hlo : 2 ^ e ≤ |q|) (hhi : |q| < 2 ^ (e + 1)) :
    Int.log 2 |q| = e := by
  have hpos : 0 < |q| := lt_of_lt_of_le (two_zpow_pos e) hlo
  have h1 : e ≤ Int.log 2 |q| :=
    (Int.zpow_le_iff_le_log (R := ℚ) (b := 2) (by norm_num) hpos (x := e)).1 (by simpa using hlo)
  have h2 : Int.log 2 |q| < e + 1 :=
    (Int.lt_zpow_iff_log_lt (R := ℚ) (b := 2) (by norm_num) hpos (x := e + 1)).1
      (by simpa using hhi)
  omega

/-- Half of the smallest positive double is a tie between 0 and that double and
rounds to the even one, 0. -/
theorem roundDouble_half_min : roundDouble (2 ^ (-1074 : ℤ) * (1 / 2)) = 0 := by
  have hq : (2 : ℚ) ^ (-1074 : ℤ) * (1 / 2) = 2 ^ (-1075 : ℤ) := by
    rw [show (-1074 : ℤ) = -1075 + 1 by norm_num, zpow_add₀ (by norm_num)]; norm_num
  have hlog : Int.log 2 |(2 : ℚ) ^ (-1075 : ℤ)| = -1075 :=
    log_eq_of_bounds _ _ (by rw [abs_of_pos (two_zpow_pos _)])
      (by rw [abs_of_pos (two_zpow_pos _)]; exact zpow_lt_zpow_right₀ (by norm_num) (by norm_num))
  have hU : ulpExponent ((2 : ℚ) ^ (-1075 : ℤ)) = -1074 := by
    unfold ulpExponent; rw [hlog]; norm_num
  have hdiv : (2 : ℚ) ^ (-1075 : ℤ) / 2 ^ (-1074 : ℤ) = 1 / 2 := by
    rw [show (-1074 : ℤ) = -1075 + 1 by norm_num, zpow_add₀ (by norm_num)]
    field_simp
  have hfloor : ⌊(1 / 2 : ℚ)⌋ = 0 := by
    rw [Int.floor_eq_iff]; norm_num
  rw [hq]
  unfold roundDouble
  rw [hU, hdiv]
  unfold roundHalfEven
  rw [hfloor]
  norm_num

/-- The difference 1 - 2^-60 lies between two doubles and rounds to 1. -/
theorem roundDouble_one_sub : roundDouble (1 - 2 ^ (-60 : ℤ)) = 1 := by
  have habs : |1 - (2 : ℚ) ^ (-60 : ℤ)| = 1 - 2 ^ (-60 : ℤ) := abs_of_pos (by norm_num)
  have hlog : Int.log 2 |1 - (2 : ℚ) ^ (-60 : ℤ)| = -1 :=
    log_eq_of_bounds _ _ (by rw [habs]; norm_num) (by rw [habs]; norm_num)
  have hU : ulpExponent (1 - (2 : ℚ) ^ (-60 : ℤ)) = -53 := by
    unfold ulpExponent; rw [hlog]; norm_num
  have hdiv : (1 - (2 : ℚ) ^ (-60 : ℤ)) / 2 ^ (-53 : ℤ) = 2 ^ 53 - 1 / 128 := by
    rw [show (-60 : ℤ) = -53 + -7 by norm_num, zpow_add₀ (by norm_num)]
    field_simp
    norm_num
  have hfloor : ⌊((2 : ℚ) ^ 53 - 1 / 128)⌋ = 2 ^ 53 - 1 := by
    rw [Int.floor_eq_iff]; norm_num
  unfold roundDouble
  rw [hU, hdiv]
  unfold roundHalfEven
  rw [hfloor]
  norm_num


/-- Halving a double that is a multiple of 2^-1073 is exact. -/
theorem roundDouble_half_exact (q : ℚ) (n : ℤ) (h : roundDouble q = n * 2 ^ (-1073 : ℤ)) :
    roundDouble (roundDouble q * (1 / 2)) = roundDouble q * (1 / 2) := by
  obtain ⟨m, k, hm, hk, hq⟩ := roundDouble_mantissa q
  have hsplit : ∀ j : ℤ, (2 : ℚ) ^ j * (1 / 2) = 2 ^ (j - 1) := by
    intro j
    rw [zpow_sub₀ (by norm_num), zpow_one]
    ring
  by_cases hk2 : -1073 ≤ k
  · have : roundDouble q * (1 / 2) = m * 2 ^ (k - 1) := by
      rw [hq, mul_assoc, hsplit]
    rw [this]
    exact roundDouble_of_mantissa m (k - 1) hm (by omega)
  · have hk3 : k = -1074 := by omega
    subst hk3
    have hmn : m = 2 * n := by
      have h2 : (m : ℚ) * 2 ^ (-1074 : ℤ) = n * 2 ^ (-1073 : ℤ) := by rw [← hq, h]
      have h3 : (2 : ℚ) ^ (-1073 : ℤ) = 2 * 2 ^ (-1074 : ℤ) := by
        rw [show (-1073 : ℤ) = -1074 + 1 by norm_num, zpow_add₀ (by norm_num)]; ring
      rw [h3, ← mul_assoc] at h2
      have h4 := mul_right_cancel₀ (ne_of_gt (two_zpow_pos _)) h2
      have h5 : (m : ℚ) = ((2 * n : ℤ) : ℚ) := by push_cast; rw [h4]; ring
      exact_mod_cast h5
    have : roundDouble q * (1 / 2) = n * 2 ^ (-1074 : ℤ) := by
      rw [hq, hmn]; push_cast; ring
    rw [this]
    refine roundDouble_of_mantissa n (-1074) ?_ (by norm_num)
    rw [hmn, abs_mul] at hm
    have : |(2 : ℤ)| = 2 := rfl
    rw [this] at hm
    omega

/-- A double of magnitude at least 2^-1021 is a multiple of 2^-1073. -/
theorem roundDouble_multiple_of_large (q : ℚ) (h : 2 ^ (-1021 : ℤ) ≤ |roundDouble q|) :
    ∃ n : ℤ, roundDouble q = n * 2 ^ (-1073 : ℤ) := by
  obtain ⟨m, k, hm, hk, hq⟩ := roundDouble_mantissa q
  have hk2 : -1073 ≤ k := by
    by_contra hcon
    have hk3 : k = -1074 := by omega
    subst hk3
    rw [hq, abs_mul, abs_of_pos (two_zpow_pos _)] at h
    have hm2 : |(m : ℚ)| < 2 ^ (53 : ℤ) := by
      have : ((|m| : ℤ) : ℚ) < ((2 ^ 53 : ℤ) : ℚ) := by exact_mod_cast hm
      rw [zpow_ofNat]
      simpa using this
    have : |(m : ℚ)| * 2 ^ (-1074 : ℤ) < 2 ^ (53 : ℤ) * 2 ^ (-1074 : ℤ) :=
      mul_lt_mul_of_pos_right hm2 (two_zpow_pos _)
    rw [← zpow_add₀ (by norm_num)] at this
    norm_num at this
    norm_num at h
    linarith
  obtain ⟨d, hd⟩ : ∃ d : ℕ, k = -1073 + d := ⟨(k + 1073).toNat, by omega⟩
  refine ⟨m * 2 ^ d, ?_⟩
  rw [hq, hd, two_zpow_add_nat]
  push_cast
  ring


theorem roundDouble_zero : roundDouble 0 = 0 := by
  simp [roundDouble, roundHalfEven]

/-- Rounding does not cross a double. -/
theorem roundDouble_abs_le_double (q b : ℚ) (hb : roundDouble b = b) (h : |q| ≤ |b|) :
    |roundDouble q| ≤ |b| := by
  by_cases hq : q = 0
  · subst hq
    rw [roundDouble_zero]
    exact h
  have hlog : Int.log 2 |q| ≤ Int.log 2 |b| := Int.log_mono_right (abs_pos.mpr hq) h
  have hU : ulpExponent q ≤ ulpExponent b := by
    unfold ulpExponent
    exact max_le_max (by omega) le_rfl
  have hbabs : |b| = ((|roundHalfEven (b / 2 ^ ulpExponent b)| : ℤ) : ℚ) * 2 ^ ulpExponent b := by
    conv_lhs => rw [← hb]
    unfold roundDouble
    rw [abs_mul, abs_of_pos (two_zpow_pos _)]
    push_cast
    rfl
  rw [hbabs] at h ⊢
  exact roundDouble_abs_le_multiple q _ _ hU h

theorem toDouble_eq_some (q r : ℚ) :
    toDouble q = some r ↔ roundDouble q = r ∧ |r| < 2 ^ (1024 : ℤ) := by
  unfold toDouble
  constructor
  · intro h
    split at h
    · rename_i hlt
      cases h
      exact ⟨rfl, hlt⟩
    · exact absurd h (by simp)
  · rintro ⟨rfl, hlt⟩
    rw [if_pos hlt]

/-- The difference of two finite doubles that are not negative is finite. -/
theorem toDouble_sub_isSome (p x : ℚ) (hp : toDouble p = some p) (hx : toDouble x = some x)
    (hp0 : 0 ≤ p) (hx0 : 0 ≤ x) : (toDouble (p - x)).isSome = true := by
  rw [toDouble_eq_some] at hp hx
  have hbound : |roundDouble (p - x)| < 2 ^ (1024 : ℤ) := by
    by_cases hpx : x ≤ p
    · have h : |p - x| ≤ |p| := by
        rw [abs_of_nonneg (by linarith), abs_of_nonneg hp0]; linarith
      exact lt_of_le_of_lt (roundDouble_abs_le_double _ _ hp.1 h) hp.2
    · have h : |p - x| ≤ |x| := by
        rw [abs_of_nonpos (by linarith), abs_of_nonneg hx0]; linarith
      exact lt_of_le_of_lt (roundDouble_abs_le_double _ _ hx.1 h) hx.2
  unfold toDouble
  rw [if_pos hbound]
  rfl

theorem toDouble_of_mantissa (m k : ℤ) (hm : |m| < 2 ^ 53) (hk : -1074 ≤ k)
    (hlt : |(m : ℚ) * 2 ^ k| < 2 ^ (1024 : ℤ)) :
    toDouble ((m : ℚ) * 2 ^ k) = some ((m : ℚ) * 2 ^ k) := by
  rw [toDouble_eq_some]
  exact ⟨roundDouble_of_mantissa m k hm hk, hlt⟩

theorem toDouble_intCast (m : ℤ) (hm : |m| < 2 ^ 53) : toDouble m = some (m : ℚ) := by
  have h := toDouble_of_mantissa m 0 hm (by norm_num) (by
    rw [zpow_zero, mul_one]
    have : ((|m| : ℤ) : ℚ) < ((2 ^ 53 : ℤ) : ℚ) := by exact_mod_cast hm
    push_cast at this
    exact lt_trans this (by norm_num))
  simpa using h

theorem toDouble_half_isSome (q fee : ℚ) (h : toDouble q = some fee) :
    ∃ share, toDouble (fee * (1 / 2)) = some share := by
  rw [toDouble_eq_some] at h
  exact ⟨roundDouble (fee * (1 / 2)),
    (toDouble_eq_some _ _).2 ⟨rfl, roundDouble_half_lt fee h.2⟩⟩

/-- The two shares are half the fee when the fee is a multiple of 2^-1073. -/
theorem toDouble_half_exact (q fee share : ℚ) (n : ℤ) (hfee : toDouble q = some fee)
    (hshare : toDouble (fee * (1 / 2)) = some share) (hn : fee = n * 2 ^ (-1073 : ℤ)) :
    share = fee / 2 ∧ share + share = fee := by
  rw [toDouble_eq_some] at hfee hshare
  have h1 : roundDouble q = n * 2 ^ (-1073 : ℤ) := by rw [hfee.1, hn]
  have h2 := roundDouble_half_exact q n h1
  rw [hfee.1, hshare.1] at h2
  subst h2
  constructor <;> ring

/-- The outcome of SetHelperPayout in double arithmetic for an administrator,
an existing assignment and a literal whose double is not negative, when the
difference is finite. -/
theorem setPayoutDouble_ok (s : Store) (user : AuthUser) (id : ObjectId) (a : Assignment)
    (literal x fee share : ℚ) (hadmin : user.isAdmin = true)
    (hfind : s.findAssignment id = some a) (hx : toDouble literal = some x) (h0 : 0 ≤ x)
    (hfee : toDouble (a.paymentAmount - x) = some fee)
    (hshare : toDouble (fee * (1 / 2)) = some share) :
    setPayoutDouble s user id (JsonValue.number literal)
      = some { store := s.updateAssignment id (fun a =>
                 { a with adminDeterminedHelperPayout := some x,
                          platformFee := some fee,
                          adminShare := some share,
                          jolomiShare := some share }),
               response := ⟨200, "Helper payout amount set successfully."⟩ } := by
  unfold setPayoutDouble authorizeAdmin
  simp only [hadmin, hfind, hx, hfee, hshare, Bool.not_true, Bool.false_eq_true, if_false,
    not_lt.mpr h0]

theorem updateAssignment_payout_twice (s : Store) (id : ObjectId)
    (x fee share y fee2 share2 : Option ℚ) :
    (s.updateAssignment id (fun a =>
        { a with adminDeterminedHelperPayout := x, platformFee := fee,
                 adminShare := share, jolomiShare := share })).updateAssignment id (fun a =>
        { a with adminDeterminedHelperPayout := y, platformFee := fee2,
                 adminShare := share2, jolomiShare := share2 })
      = s.updateAssignment id (fun a =>
        { a with adminDeterminedHelperPayout := y, platformFee := fee2,
                 adminShare := share2, jolomiShare := share2 }) := by
  unfold Store.updateAssignment
  simp only [Store.mk.injEq, and_true, true_and]
  apply List.ext_getElem?
  intro n
  by_cases hn : id = n
  · subst hn
    cases h : s.assignments[id]? <;> simp [h]
  · simp [List.getElem?_modify_ne _ _ hn]

/-- Where no result needs rounding, the handler in double arithmetic does what
the handler in exact arithmetic does. -/
theorem setPayoutDouble_exact (s : Store) (user : AuthUser) (id : ObjectId) (v : JsonValue)
    (hv : ∀ x, v = JsonValue.number x → toDouble x = some x
      ∧ ∀ a, s.findAssignment id = some a →
          toDouble (a.paymentAmount - x) = some (a.paymentAmount - x)
          ∧ toDouble ((a.paymentAmount - x) * (1 / 2)) = some ((a.paymentAmount - x) * (1 / 2))) :
    setPayoutDouble s user id v = some (setPayout s user id v) := by
  unfold setPayoutDouble setPayout
  split
  · rfl
  · cases v with
    | number x =>
      obtain ⟨hx, ha⟩ := hv x rfl
      simp only [hx]
      split
      · rfl
      · cases hfind : s.findAssignment id with
        | none => rfl
        | some a =>
          obtain ⟨hfee, hshare⟩ := ha a hfind
          simp only [hfee, hshare]
    | missing => rfl
    | null => rfl
    | bool b => rfl
    | string str => rfl

theorem toDouble_zero : toDouble 0 = some 0 := by
  simpa using toDouble_intCast 0 (by norm_num)

/-- C9 (counterexample). With a client payment of 2^-1074 (5e-324, the smallest
positive double) and a helper payout of 0 the call answers 200 and stores the
fee 2^-1074 with both shares 0: the shares are not half the fee and do not sum
to it.  With a client payment of 1 and a helper payout of 2^-60 it stores the
fee 1, which is not paymentAmount − payout. -/
theorem payout_shares_rounded :
    (∃ o : Outcome, setPayoutDouble tinyPaymentStore demoAdmin 0 (JsonValue.number 0) = some o
        ∧ o.response.code = 200
        ∧ (o.store.findAssignment 0).map (fun a => (a.paymentAmount,
              a.adminDeterminedHelperPayout, a.platformFee, a.adminShare, a.jolomiShare))
            = some (2 ^ (-1074 : ℤ), some 0, some (2 ^ (-1074 : ℤ)), some 0, some 0))
      ∧ (0 : ℚ) ≠ 2 ^ (-1074 : ℤ) / 2
      ∧ (0 : ℚ) + 0 ≠ 2 ^ (-1074 : ℤ)
      ∧ (∃ o : Outcome, setPayoutDouble unitPaymentStore demoAdmin 0
            (JsonValue.number (2 ^ (-60 : ℤ))) = some o
        ∧ o.response.code = 200
        ∧ (o.store.findAssignment 0).map (fun a => (a.paymentAmount,
              a.adminDeterminedHelperPayout, a.platformFee, a.adminShare, a.jolomiShare))
            = some (1, some (2 ^ (-60 : ℤ)), some 1, some (1 / 2), some (1 / 2)))
      ∧ (1 : ℚ) ≠ 1 - 2 ^ (-60 : ℤ) := by
  have hpos := two_zpow_pos (-1074)
  have hmin : toDouble ((2 : ℚ) ^ (-1074 : ℤ) - 0) = some (2 ^ (-1074 : ℤ)) := by
    have := toDouble_of_mantissa 1 (-1074) (by norm_num) (by norm_num) (by
      rw [Int.cast_one, one_mul, abs_of_pos (two_zpow_pos _)]
      exact zpow_lt_zpow_right₀ (by norm_num) (by norm_num))
    simpa using this
  have hhalf : toDouble ((2 : ℚ) ^ (-1074 : ℤ) * (1 / 2)) = some 0 :=
    (toDouble_eq_some _ _).2 ⟨roundDouble_half_min, by simpa using two_zpow_pos 1024⟩
  have hx : toDouble ((2 : ℚ) ^ (-60 : ℤ)) = some (2 ^ (-60 : ℤ)) := by
    have := toDouble_of_mantissa 1 (-60) (by norm_num) (by norm_num) (by
      rw [Int.cast_one, one_mul, abs_of_pos (two_zpow_pos _)]
      exact zpow_lt_zpow_right₀ (by norm_num) (by norm_num))
    simpa using this
  have hone : toDouble ((1 : ℚ) - 2 ^ (-60 : ℤ)) = some 1 :=
    (toDouble_eq_some _ _).2 ⟨roundDouble_one_sub, by
      rw [abs_one]; exact one_lt_zpow₀ (by norm_num) (by norm_num)⟩
  have hhalf1 : toDouble ((1 : ℚ) * (1 / 2)) = some (1 / 2) := by
    have := toDouble_of_mantissa 1 (-1) (by norm_num) (by norm_num) (by
      rw [Int.cast_one, one_mul, abs_of_pos (two_zpow_pos _)]
      exact zpow_lt_zpow_right₀ (by norm_num) (by norm_num))
    simpa using this
  refine ⟨⟨_, setPayoutDouble_ok tinyPaymentStore demoAdmin 0 _ 0 0 _ 0 rfl rfl toDouble_zero
      le_rfl hmin hhalf, rfl, ?_⟩, ?_, ?_,
    ⟨_, setPayoutDouble_ok unitPaymentStore demoAdmin 0 _ _ _ 1 (1 / 2) rfl rfl hx
      (le_of_lt (two_zpow_pos _)) hone hhalf1, rfl, ?_⟩, ?_⟩
  · rw [findAssignment_updateAssignment, if_pos rfl]
    rfl
  · exact ne_of_lt (by positivity)
  · rw [add_zero]; exact ne_of_lt hpos
  · rw [findAssignment_updateAssignment, if_pos rfl]
    rfl
  · have := two_zpow_pos (-60)
    intro h
    linarith

theorem roundDouble_idem (q : ℚ) : roundDouble (roundDouble q) = roundDouble q := by
  obtain ⟨m, k, hm, hk, hq⟩ := roundDouble_mantissa q
  rw [hq]
  exact roundDouble_of_mantissa m k hm hk

theorem toDouble_idem (q x : ℚ) (h : toDouble q = some x) : toDouble x = some x := by
  rw [toDouble_eq_some] at h ⊢
  obtain ⟨rfl, hlt⟩ := h
  exact ⟨roundDouble_idem q, hlt⟩

/-- C9, amended. For an administrator and an existing assignment a, in the
arithmetic of JavaScript numbers: for every number literal whose double x is
not negative, when the difference paymentAmount − x is finite, the call
answers 200 and leaves a with helper payout x, platformFee the double nearest
to paymentAmount − x and both shares equal to the double nearest to half the
fee, every other field, status and paymentAmount among them, and every other
document unchanged; the shares are exactly half the fee and sum to it whenever
the fee has a magnitude of at least 2^-1021 or is a multiple of 2^-1073; a
second call gives what it gives on the original store, so the result does not
depend on an earlier payout.  The difference is finite whenever paymentAmount
is a double that is not negative.  For a literal whose double is negative and
for a value that is not a number the call answers 400 and leaves the store
unchanged. -/
theorem setPayoutDouble_spec (s : Store) (user : AuthUser) (id : ObjectId) (a : Assignment)
    (hadmin : user.isAdmin = true) (hfind : s.findAssignment id = some a) :
    (∀ literal x fee : ℚ, toDouble literal = some x → 0 ≤ x →
        toDouble (a.paymentAmount - x) = some fee →
        ∃ (share : ℚ) (o : Outcome), toDouble (fee * (1 / 2)) = some share
          ∧ setPayoutDouble s user id (JsonValue.number literal) = some o
          ∧ o.response.code = 200
          ∧ o.store.findAssignment id
              = some { a with adminDeterminedHelperPayout := some x,
                              platformFee := some fee,
                              adminShare := some share,
                              jolomiShare := some share }
          ∧ (∀ id2, id2 ≠ id → o.store.findAssignment id2 = s.findAssignment id2)
          ∧ o.store.users = s.users
          ∧ o.store.payoutTransactions = s.payoutTransactions
          ∧ ((2 ^ (-1021 : ℤ) ≤ |fee| ∨ ∃ n : ℤ, fee = n * 2 ^ (-1073 : ℤ)) →
              share = fee / 2 ∧ share + share = fee)
          ∧ (∀ literal2 y fee2 : ℚ, toDouble literal2 = some y → 0 ≤ y →
              toDouble (a.paymentAmount - y) = some fee2 →
              ∃ o2, setPayoutDouble s user id (JsonValue.number literal2) = some o2
                ∧ setPayoutDouble o.store user id (JsonValue.number literal2) = some o2))
      ∧ (toDouble a.paymentAmount = some a.paymentAmount → 0 ≤ a.paymentAmount →
          ∀ literal x : ℚ, toDouble literal = some x → 0 ≤ x →
            (toDouble (a.paymentAmount - x)).isSome = true)
      ∧ (∀ v : JsonValue,
          (∀ literal, v = JsonValue.number literal →
            (toDouble literal = none ∧ literal < 0) ∨ ∃ x, toDouble literal = some x ∧ x < 0) →
          setPayoutDouble s user id v
            = some { store := s,
                     response := ⟨400, "Helper payout amount must be a non-negative number."⟩ }) := by
  refine ⟨?_, ?_, ?_⟩
  · intro literal x fee hx h0 hfee
    obtain ⟨share, hshare⟩ := toDouble_half_isSome _ fee hfee
    refine ⟨share, _, hshare, setPayoutDouble_ok s user id a literal x fee share hadmin hfind hx h0
      hfee hshare, rfl, ?_, ?_, rfl, rfl, ?_, ?_⟩
    · rw [findAssignment_updateAssignment, if_pos rfl, hfind]
      rfl
    · intro id2 hne
      rw [findAssignment_updateAssignment, if_neg (fun h => hne h.symm)]
    · rintro (hlarge | ⟨n, hn⟩)
      · have hr : roundDouble (a.paymentAmount - x) = fee := ((toDouble_eq_some _ _).1 hfee).1
        obtain ⟨n, hn⟩ := roundDouble_multiple_of_large (a.paymentAmount - x) (by rw [hr]; exact hlarge)
        exact toDouble_half_exact _ fee share n hfee hshare (by rw [← hr, hn])
      · exact toDouble_half_exact _ fee share n hfee hshare hn
    · intro literal2 y fee2 hy hy0 hfee2
      obtain ⟨share2, hshare2⟩ := toDouble_half_isSome _ fee2 hfee2
      refine ⟨_, setPayoutDouble_ok s user id a literal2 y fee2 share2 hadmin hfind hy hy0
        hfee2 hshare2, ?_⟩
      have hfind2 : (s.updateAssignment id (fun a =>
            { a with adminDeterminedHelperPayout := some x, platformFee := some fee,
                     adminShare := some share, jolomiShare := some share })).findAssignment id
          = some { a with adminDeterminedHelperPayout := some x, platformFee := some fee,
                          adminShare := some share, jolomiShare := some share } := by
        rw [findAssignment_updateAssignment, if_pos rfl, hfind]
        rfl
      rw [setPayoutDouble_ok _ user id _ literal2 y fee2 share2 hadmin hfind2 hy hy0 hfee2 hshare2,
        updateAssignment_payout_twice]
  · intro hp hp0 literal x hx hx0
    exact toDouble_sub_isSome _ _ hp (toDouble_idem _ _ hx) hp0 hx0
  · intro v hv
    unfold setPayoutDouble authorizeAdmin
    simp only [hadmin, Bool.not_true, Bool.false_eq_true, if_false]
    cases v with
    | number literal =>
      rcases hv literal rfl with ⟨hnone, hneg⟩ | ⟨x, hx, hneg⟩
      · simp only [hnone, if_pos hneg]
      · simp only [hx, if_pos hneg]
    | missing => rfl
    | null => rfl
    | bool b => rfl
    | string str => rfl

/-- C9, amended, at the demo store: a payout of 70 on the payment of 100 leaves
a fee of 30 and two shares of 15, which sum to the fee. -/
theorem setPayoutDouble_spec_witness :
    ∃ o : Outcome, setPayoutDouble demoStore demoAdmin 0 (JsonValue.number 70) = some o
      ∧ o.response.code = 200
      ∧ o.store.findAssignment 0
          = some { demoAssignment with adminDeterminedHelperPayout := some 70,
                                       platformFee := some 30,
                                       adminShare := some 15,
                                       jolomiShare := some 15 }
      ∧ (15 : ℚ) + 15 = 30
      ∧ toDouble demoAssignment.paymentAmount = some demoAssignment.paymentAmount
      ∧ (toDouble (demoAssignment.paymentAmount - 70)).isSome = true := by
  have h100 : toDouble demoAssignment.paymentAmount = some demoAssignment.paymentAmount := by
    have := toDouble_intCast 100 (by norm_num)
    norm_num [demoAssignment]
    simpa using this
  have h70 : toDouble 70 = some 70 := by
    simpa using toDouble_intCast 70 (by norm_num)
  have h30 : toDouble (demoAssignment.paymentAmount - 70) = some 30 := by
    have := toDouble_intCast 30 (by norm_num)
    norm_num [demoAssignment]
    simpa using this
  have h15 : toDouble (30 * (1 / 2)) = some 15 := by
    have := toDouble_intCast 15 (by norm_num)
    norm_num
    simpa using this
  obtain ⟨share, o, hshare, ho, hcode, hdoc, -, -, -, hsum, -⟩ :=
    (setPayoutDouble_spec demoStore demoAdmin 0 demoAssignment rfl rfl).1 70 70 30 h70
      (by norm_num) h30
  have hs : share = 15 := by
    rw [h15] at hshare
    exact (Option.some.inj hshare).symm
  subst hs
  exact ⟨o, ho, hcode, hdoc, by norm_num, h100,
    (setPayoutDouble_spec demoStore demoAdmin 0 demoAssignment rfl rfl).2.1 h100 (by decide!)
      70 70 h70 (by norm_num)⟩

/-! ## C10: the helper payout and the payment amount -/

/-- C10 as stated fails. An assignment of 100 is created and the administrator
sets a helper payout of 150: the store is reachable by lifecycle operations,
the payout exceeds the payment amount and platformFee is −50. -/
theorem payout_may_exceed_payment :
    Reachable scenarioEnv (run scenarioEnv scenarioStart overpayOps)
      ∧ ((run scenarioEnv scenarioStart overpayOps).findAssignment 0).map
          (fun a => (a.paymentAmount, a.adminDeterminedHelperPayout, a.platformFee))
          = some (100, some 150, some (-50))
      ∧ ¬ ((150 : ℚ) ≤ 100) := by
  refine ⟨⟨_, _, overpayOps, rfl⟩, by decide!, by norm_num⟩

theorem quietMove_payout (x y : Option Assignment) (h : QuietMove x y)
    (hinv : ∀ a, x = some a → ∀ p, a.adminDeterminedHelperPayout = some p →
      0 ≤ p ∧ a.platformFee = some (a.paymentAmount - p))
    (b : Assignment) (hy : y = some b) (p : ℚ) (hp : b.adminDeterminedHelperPayout = some p) :
    0 ≤ p ∧ b.platformFee = some (b.paymentAmount - p) := by
  cases h with
  | same x => exact hinv b hy p hp
  | created a hs hh hp0 hf hpaid =>
    cases hy
    rw [hp0] at hp
    exact absurd hp (by simp)
  | accepted a0 h hs hh0 => cases hy; exact hinv a0 rfl p hp
  | completed a0 h work now hh0 hs => cases hy; exact hinv a0 rfl p hp
  | approved a0 hs => cases hy; exact hinv a0 rfl p hp
  | revised a0 hs => cases hy; exact hinv a0 rfl p hp
  | payoutSet a0 x0 hx0 =>
    cases hy
    simp only [Option.some.injEq] at hp
    subst hp
    exact ⟨hx0, rfl⟩
  | overdue a0 hs => cases hy; exact hinv a0 rfl p hp

theorem docMove_payout (x y : Option Assignment) (h : DocMove x y)
    (hinv : ∀ a, x = some a → ∀ p, a.adminDeterminedHelperPayout = some p →
      0 ≤ p ∧ a.platformFee = some (a.paymentAmount - p))
    (b : Assignment) (hy : y = some b) (p : ℚ) (hp : b.adminDeterminedHelperPayout = some p) :
    0 ≤ p ∧ b.platformFee = some (b.paymentAmount - p) := by
  cases h with
  | quiet x y h => exact quietMove_payout x y h hinv b hy p hp
  | paid a0 h amount now hs hh0 hp0 => cases hy; exact hinv a0 rfl p hp

theorem run_payout (env : Env) (ops : List Op) (s : Store)
    (hinv : ∀ id a, s.findAssignment id = some a → ∀ p, a.adminDeterminedHelperPayout = some p →
      0 ≤ p ∧ a.platformFee = some (a.paymentAmount - p)) :
    ∀ id a, (run env s ops).findAssignment id = some a →
      ∀ p, a.adminDeterminedHelperPayout = some p →
        0 ≤ p ∧ a.platformFee = some (a.paymentAmount - p) := by
  induction ops generalizing s with
  | nil => exact hinv
  | cons op ops ih =>
    rw [run_cons]
    apply ih
    intro id b hb p hp
    exact docMove_payout _ _ (step_docMove env s op id) (fun a ha => hinv id a ha) b hb p hp

/-- C10, amended. In every store reachable by lifecycle operations, every
assignment whose helper payout amount is set has a helper payout amount ≥ 0 and
platformFee = paymentAmount − helper payout amount; the payout is not bounded
by paymentAmount, so platformFee may be negative. -/
theorem payout_nonneg_fee_consistent (env : Env) (s : Store) (hreach : Reachable env s)
    (id : ObjectId) (a : Assignment) (ha : s.findAssignment id = some a) (p : ℚ)
    (hp : a.adminDeterminedHelperPayout = some p) :
    0 ≤ p ∧ a.platformFee = some (a.paymentAmount - p) := by
  obtain ⟨users, categories, ops, rfl⟩ := hreach
  refine run_payout env ops (initialStore users categories) ?_ id a ha p hp
  intro id2 a2 h2
  simp [initialStore, Store.findAssignment] at h2

/-- C10, amended, at the store of the scenario, whose assignment of 100 carries
a payout of 70. -/
theorem payout_nonneg_fee_consistent_witness :
    (0 : ℚ) ≤ 70
      ∧ scenarioPaidAssignment.platformFee = some (scenarioPaidAssignment.paymentAmount - 70) :=
  payout_nonneg_fee_consistent scenarioEnv (run scenarioEnv scenarioStart scenarioOps)
    ⟨_, _, scenarioOps, rfl⟩ 0 scenarioPaidAssignment (by decide!) 70 rfl

/-! ## C4: two Accept requests in flight -/

/-- Run alone, the request machine is the accept handler: same store, same
reply. -/
theorem acceptAlone_eq (s : Store) (user : AuthUser) (id : ObjectId) :
    (acceptAlone s user id).1 = (acceptAssignment s user id).store
      ∧ (acceptAlone s user id).2.stage
          = AcceptStage.replied (acceptAssignment s user id).response := by
  unfold acceptAlone acceptAssignment
  by_cases hrole : authorizeRoles ["helper"] user = true
  · cases hfind : s.findAssignment id with
    | none =>
      cases hu : s.findUser user.userId <;>
        simp [acceptAdvance, AcceptRequest.reply, hrole, hfind, hu]
    | some a =>
      cases hu : s.findUser user.userId with
      | none => simp [acceptAdvance, AcceptRequest.reply, hrole, hfind, hu]
      | some helperUser =>
        by_cases h1 : a.status = Status.pending
        · by_cases h2 : a.helperId.isSome = true
          · simp [acceptAdvance, AcceptRequest.reply, hrole, hfind, hu, h1, h2]
          · by_cases h3 : a.category ∈ helperUser.specializedCategories
            · cases ho : s.findUser a.ownerId <;>
                simp [acceptAdvance, AcceptRequest.reply, hrole, hfind, hu, h1, h2, h3, ho,
                  findUser_updateAssignment]
            · simp [acceptAdvance, AcceptRequest.reply, hrole, hfind, hu, h1, h2, h3]
        · simp [acceptAdvance, AcceptRequest.reply, hrole, hfind, hu, h1]
  · simp [acceptAdvance, AcceptRequest.reply, hrole, rolesDenied]

/-- C4 (the code departs from the claim). Two specialised helpers send Accept
for the same fresh pending assignment and each loads the assignment before the
other saves: both requests are answered 200, and the assignment ends with the
helper of the request that saved last, the first helper overwritten.  Run one
after the other, the second request is answered 400. -/
theorem concurrent_accepts_both_succeed :
    (demoStore.findAssignment 0).map (fun a => (a.status, a.helperId))
        = some (Status.pending, none)
      ∧ (interleave racingSchedule
          (demoStore, { user := demoHelper, id := 0 }, { user := demoHelper2, id := 0 })).2.1.stage
          = AcceptStage.replied ⟨200, "Assignment accepted successfully!"⟩
      ∧ (interleave racingSchedule
          (demoStore, { user := demoHelper, id := 0 }, { user := demoHelper2, id := 0 })).2.2.stage
          = AcceptStage.replied ⟨200, "Assignment accepted successfully!"⟩
      ∧ ((interleave racingSchedule
          (demoStore, { user := demoHelper, id := 0 }, { user := demoHelper2, id := 0 })).1.findAssignment
            0).map (fun a => a.helperId) = some (some demoHelper2.userId)
      ∧ (interleave [false, false, false, false, true, true, true, true]
          (demoStore, { user := demoHelper, id := 0 }, { user := demoHelper2, id := 0 })).2.2.stage
          = AcceptStage.replied ⟨400, "Assignment is already accepted."⟩ := by
  refine ⟨by decide, by decide, by decide, by decide, by decide⟩

/-! ## C15: the financial summary -/

theorem groupTotal_headD (docs : List Assignment) (field : Assignment → ℚ) :
    (groupTotal docs field).headD 0 = (docs.map field).sum := by
  unfold groupTotal
  cases docs with
  | nil => rfl
  | cons a rest => rfl

theorem paid_payout_sum (ledger : List Assignment) :
    ((ledger.filter
        (fun a => a.status == Status.paid && a.adminDeterminedHelperPayout.isSome)).map
        (fun a => a.adminDeterminedHelperPayout.getD 0)).sum
      = ((ledger.filter (fun a => a.status == Status.paid)).map
          (fun a => a.adminDeterminedHelperPayout.getD 0)).sum := by
  induction ledger with
  | nil => rfl
  | cons a rest ih =>
    by_cases hs : a.status = Status.paid
    · cases hp : a.adminDeterminedHelperPayout with
      | none => simp [List.filter_cons, hs, hp, ih]
      | some p => simp [List.filter_cons, hs, hp, ih]
    · simp [List.filter_cons, hs, ih]

/-- C15. For every store and administrator, the summary route answers 200 with
totalClientPayments the sum of paymentAmount over all assignments whatever
their status, totalHelperPayouts the sum of the helper payout amount over
exactly the assignments with status paid (an unset amount counting as nothing),
and platformProfit their difference; on a ledger without assignments all three
are 0. -/
theorem summary_spec (s : Store) (user : AuthUser) (hadmin : user.isAdmin = true) :
    (financialSummary s user).response.code = 200
      ∧ (financialSummary s user).summary = some
          { totalClientPayments := (s.assignments.map (fun a => a.paymentAmount)).sum,
            totalHelperPayouts :=
              ((s.assignments.filter (fun a => a.status == Status.paid)).map
                (fun a => a.adminDeterminedHelperPayout.getD 0)).sum,
            platformProfit := (s.assignments.map (fun a => a.paymentAmount)).sum
              - ((s.assignments.filter (fun a => a.status == Status.paid)).map
                  (fun a => a.adminDeterminedHelperPayout.getD 0)).sum }
      ∧ (s.assignments = [] →
          (financialSummary s user).summary = some
            { totalClientPayments := 0, totalHelperPayouts := 0, platformProfit := 0 }) := by
  have hroute : financialSummary s user
      = { response := ⟨200, "Financial summary retrieved successfully."⟩,
          summary := some (summarize s.assignments) } := by
    unfold financialSummary authorizeAdmin
    simp [hadmin]
  rw [hroute]
  refine ⟨rfl, ?_, ?_⟩
  · unfold summarize
    simp only [groupTotal_headD, paid_payout_sum]
  · intro hempty
    rw [hempty]
    simp [summarize, groupTotal]

/-- C15 at the store the scenario ends in (one assignment of 100, paid, with a
helper payout of 70). -/
theorem summary_spec_witness :
    (financialSummary (run scenarioEnv scenarioStart scenarioOps) demoAdmin).response.code = 200
      ∧ (financialSummary (run scenarioEnv scenarioStart scenarioOps) demoAdmin).summary = some
          { totalClientPayments :=
              ((run scenarioEnv scenarioStart scenarioOps).assignments.map
                (fun a => a.paymentAmount)).sum,
            totalHelperPayouts :=
              (((run scenarioEnv scenarioStart scenarioOps).assignments.filter
                (fun a => a.status == Status.paid)).map
                (fun a => a.adminDeterminedHelperPayout.getD 0)).sum,
            platformProfit :=
              ((run scenarioEnv scenarioStart scenarioOps).assignments.map
                (fun a => a.paymentAmount)).sum
              - (((run scenarioEnv scenarioStart scenarioOps).assignments.filter
                  (fun a => a.status == Status.paid)).map
                  (fun a => a.adminDeterminedHelperPayout.getD 0)).sum }
      ∧ ((run scenarioEnv scenarioStart scenarioOps).assignments = [] →
          (financialSummary (run scenarioEnv scenarioStart scenarioOps) demoAdmin).summary = some
            { totalClientPayments := 0, totalHelperPayouts := 0, platformProfit := 0 }) :=
  summary_spec (run scenarioEnv scenarioStart scenarioOps) demoAdmin rfl

/-! ## C16, C17, C18: the daily status check -/

theorem dailyStatusLoop_sent (saveFails : ObjectId → Bool) (l : List (ObjectId × Assignment))
    (s : Store) (sent : List Notification) :
    (dailyStatusLoop saveFails l s sent).2
      = sent ++ (l.takeWhile (fun e => !saveFails e.1)).map
          (fun e => Notification.assignmentOverdue e.1) := by
  induction l generalizing s sent with
  | nil => simp [dailyStatusLoop]
  | cons e rest ih =>
    unfold dailyStatusLoop
    by_cases hf : saveFails e.1 = true
    · simp [hf]
    · have hf2 : saveFails e.1 = false := by simpa using hf
      simp only [hf2, Bool.false_eq_true, if_false, List.takeWhile_cons, Bool.not_false, if_true,
        List.map_cons]
      rw [ih]
      simp

theorem dailyStatusCheck_eq (s : Store) (now : Instant) (saveFails : ObjectId → Bool) :
    dailyStatusCheck s now saveFails = dailyStatusLoop saveFails (s.overdueAccepted now) s [] :=
  rfl

/-- The documents the cron job finds: accepted, with the deadline passed. -/
theorem mem_overdueAccepted (s : Store) (now : Instant) (e : ObjectId × Assignment) :
    e ∈ s.overdueAccepted now
      ↔ s.findAssignment e.1 = some e.2 ∧ e.2.status = Status.accepted ∧ e.2.deadline < now := by
  unfold Store.overdueAccepted
  rw [List.mem_filter, List.mem_enum_iff_getElem?]
  simp only [Bool.and_eq_true, List.contains_cons, List.contains_nil, Bool.or_false,
    beq_iff_eq, decide_eq_true_eq, Store.findAssignment]

theorem overdueAccepted_nodup (s : Store) (now : Instant) :
    ((s.overdueAccepted now).map Prod.fst).Nodup := by
  have h : (s.assignments.enum.map Prod.fst).Nodup := by
    rw [List.enum_map_fst]
    exact List.nodup_range _
  exact List.Nodup.sublist ((List.filter_sublist _).map Prod.fst) h

theorem mem_overdueAccepted_ids (s : Store) (now : Instant) (id : ObjectId) :
    id ∈ (s.overdueAccepted now).map Prod.fst
      ↔ ∃ a, s.findAssignment id = some a ∧ a.status = Status.accepted ∧ a.deadline < now := by
  rw [List.mem_map]
  constructor
  · rintro ⟨e, he, rfl⟩
    exact ⟨e.2, (mem_overdueAccepted s now e).mp he⟩
  · rintro ⟨a, ha⟩
    exact ⟨(id, a), (mem_overdueAccepted s now (id, a)).mpr ha, rfl⟩

theorem takeWhile_no_failure (l : List (ObjectId × Assignment)) :
    l.takeWhile (fun e => !(fun _ => false) e.1) = l := by
  rw [List.takeWhile_eq_self_iff]
  intro x _
  rfl

theorem dailyStatusCheck_assignments (s : Store) (now : Instant) :
    (dailyStatusCheck s now (fun _ => false)).1.assignments
      = s.assignments.map (fun a =>
          if a.status = Status.accepted ∧ a.deadline < now then { a with status := Status.due }
          else a) := by
  apply List.ext_getElem?
  intro id
  have h := dailyStatusLoop_find (fun _ => false) (s.overdueAccepted now) s [] id
  rw [takeWhile_no_failure] at h
  have h2 : ((dailyStatusCheck s now (fun _ => false)).1.assignments)[id]?
      = (dailyStatusLoop (fun _ => false) (s.overdueAccepted now) s []).1.findAssignment id := rfl
  rw [h2, h, List.getElem?_map]
  cases hget : s.assignments[id]? with
  | none =>
    have : s.findAssignment id = none := hget
    simp [this]
  | some a =>
    have hfa : s.findAssignment id = some a := hget
    by_cases hc : a.status = Status.accepted ∧ a.deadline < now
    · have hmem : id ∈ (s.overdueAccepted now).map Prod.fst :=
        (mem_overdueAccepted_ids s now id).mpr ⟨a, hfa, hc⟩
      simp [hmem, hfa, hc]
    · have hmem : ¬ id ∈ (s.overdueAccepted now).map Prod.fst := by
        intro hm
        obtain ⟨a2, ha2, hc2⟩ := (mem_overdueAccepted_ids s now id).mp hm
        rw [hfa] at ha2
        cases ha2
        exact hc hc2
      rw [if_neg hmem, hfa]
      simp [hc]

/-- C16. For every store and instant, the daily status check without storage
failures sets status to due on exactly the assignments that are accepted with
deadline before now and changes no other field and no other assignment, leaves
users, payout transactions and categories as they are, and emits exactly one
overdue notification for each of those assignments, in the order of the query,
and nothing else. -/
theorem sweep_spec (s : Store) (now : Instant) :
    (dailyStatusCheck s now (fun _ => false)).1.assignments
        = s.assignments.map (fun a =>
            if a.status = Status.accepted ∧ a.deadline < now then { a with status := Status.due }
            else a)
      ∧ (dailyStatusCheck s now (fun _ => false)).1.users = s.users
      ∧ (dailyStatusCheck s now (fun _ => false)).1.payoutTransactions = s.payoutTransactions
      ∧ (dailyStatusCheck s now (fun _ => false)).1.categories = s.categories
      ∧ (dailyStatusCheck s now (fun _ => false)).2
          = (s.overdueAccepted now).map (fun e => Notification.assignmentOverdue e.1)
      ∧ (∀ id, id ∈ (s.overdueAccepted now).map Prod.fst
          ↔ ∃ a, s.findAssignment id = some a ∧ a.status = Status.accepted ∧ a.deadline < now)
      ∧ ((s.overdueAccepted now).map Prod.fst).Nodup := by
  refine ⟨dailyStatusCheck_assignments s now, (dailyStatusLoop_rest _ _ _ _).1,
    (dailyStatusLoop_rest _ _ _ _).2.1, (dailyStatusLoop_rest _ _ _ _).2.2, ?_,
    mem_overdueAccepted_ids s now, overdueAccepted_nodup s now⟩
  rw [dailyStatusCheck_eq, dailyStatusLoop_sent, takeWhile_no_failure]
  rfl

theorem overdueAccepted_after_sweep (s : Store) (now : Instant) :
    (dailyStatusCheck s now (fun _ => false)).1.overdueAccepted now = [] := by
  rw [List.eq_nil_iff_forall_not_mem]
  intro e he
  obtain ⟨hfind, hst, hdl⟩ := (mem_overdueAccepted _ now e).mp he
  have hget : ((dailyStatusCheck s now (fun _ => false)).1.assignments)[e.1]? = some e.2 := hfind
  rw [dailyStatusCheck_assignments s now, List.getElem?_map] at hget
  cases hs : s.assignments[e.1]? with
  | none => rw [hs] at hget; simp at hget
  | some a =>
    rw [hs] at hget
    simp only [Option.map_some', Option.some.injEq] at hget
    by_cases hc : a.status = Status.accepted ∧ a.deadline < now
    · rw [if_pos hc] at hget
      rw [← hget] at hst
      simp at hst
    · rw [if_neg hc] at hget
      rw [← hget] at hst hdl
      exact hc ⟨hst, hdl⟩

/-- C17. Running the daily status check again, at the same instant, on the
store a check without storage failures has left changes nothing and emits no
notification; and in every run, whatever the store, the instant and the
failing saves, an overdue notification is emitted only for an assignment whose
status at the start of the run is accepted, never for one that is already
due. -/
theorem sweep_idempotent (s : Store) (now : Instant) (saveFails2 : ObjectId → Bool)
    (s2 : Store) (now2 : Instant) (saveFails : ObjectId → Bool) (id : ObjectId) :
    dailyStatusCheck (dailyStatusCheck s now (fun _ => false)).1 now saveFails2
        = ((dailyStatusCheck s now (fun _ => false)).1, [])
      ∧ (Notification.assignmentOverdue id ∈ (dailyStatusCheck s2 now2 saveFails).2 →
          s2.statusOf id = some Status.accepted) := by
  constructor
  · rw [dailyStatusCheck_eq _ now saveFails2, overdueAccepted_after_sweep]
    rfl
  · intro hmem
    rw [dailyStatusCheck_eq, dailyStatusLoop_sent, List.nil_append, List.mem_map] at hmem
    obtain ⟨e, he, heq⟩ := hmem
    have hid : e.1 = id := by simpa using heq
    have he2 := (List.takeWhile_sublist _).subset he
    obtain ⟨hfind, hst, _⟩ := (mem_overdueAccepted s2 now2 e).mp he2
    unfold Store.statusOf
    rw [← hid, hfind]
    simp [hst]

/-- C18 as stated fails. Two accepted assignments are overdue and the save of
the first one fails: the job ends there, the second assignment, after the
failing one in iteration order, stays accepted and nothing is announced. -/
theorem sweep_aborts_on_failure :
    (twoOverdueStore.overdueAccepted 100).map Prod.fst = [0, 1]
      ∧ (dailyStatusCheck twoOverdueStore 100 (fun id => id == 0)).1.statusOf 0
          = some Status.accepted
      ∧ (dailyStatusCheck twoOverdueStore 100 (fun id => id == 0)).1.statusOf 1
          = some Status.accepted
      ∧ (dailyStatusCheck twoOverdueStore 100 (fun id => id == 0)).2 = [] := by
  refine ⟨by decide, by decide, by decide, by decide⟩

/-- C18, amended. When the save of an overdue accepted assignment fails, the
job stops at it: the assignments the query returned before the first failing
one are set to due and announced, and the failing one and every one the query
returned after it are left as they were, accepted, and are not announced. -/
theorem sweep_stops_at_failure (s : Store) (now : Instant) (saveFails : ObjectId → Bool) :
    (∀ id, (dailyStatusCheck s now saveFails).1.findAssignment id
        = if id ∈ ((s.overdueAccepted now).takeWhile (fun e => !saveFails e.1)).map Prod.fst
          then (s.findAssignment id).map (fun a => { a with status := Status.due })
          else s.findAssignment id)
      ∧ (dailyStatusCheck s now saveFails).2
          = ((s.overdueAccepted now).takeWhile (fun e => !saveFails e.1)).map
              (fun e => Notification.assignmentOverdue e.1)
      ∧ (∀ e ∈ (s.overdueAccepted now).dropWhile (fun e => !saveFails e.1),
          (dailyStatusCheck s now saveFails).1.findAssignment e.1 = some e.2
            ∧ e.2.status = Status.accepted) := by
  refine ⟨fun id => dailyStatusLoop_find saveFails (s.overdueAccepted now) s [] id, ?_, ?_⟩
  · rw [dailyStatusCheck_eq, dailyStatusLoop_sent]
    rfl
  · intro e he
    have hfound : e ∈ s.overdueAccepted now := (List.dropWhile_sublist _).subset he
    obtain ⟨hfind, hst, _⟩ := (mem_overdueAccepted s now e).mp hfound
    refine ⟨?_, hst⟩
    have hnodup := overdueAccepted_nodup s now
    rw [← List.takeWhile_append_dropWhile (fun e => !saveFails e.1) (s.overdueAccepted now),
      List.map_append] at hnodup
    have hdisj := (List.nodup_append.mp hnodup).2.2
    have hnot : ¬ e.1 ∈ ((s.overdueAccepted now).takeWhile (fun e => !saveFails e.1)).map Prod.fst :=
      fun hin => hdisj hin (List.mem_map_of_mem Prod.fst he)
    have h := dailyStatusLoop_find saveFails (s.overdueAccepted now) s [] e.1
    rw [if_neg hnot] at h
    exact h.trans hfind

/-! ## C19: the end-to-end scenario -/

/-- C19. An assignment is created pending with paymentAmount 100 and a deadline
(50) that has passed when the daily check runs (100); helper 0, specialised in
its category, accepts; the daily check runs; helper 0 completes; the owner
approves through approve_work; the administrator sets a helper payout of 70 and
pays under transaction id T1.  Whatever becomes of the direct messages, the
assignment passes through pending, accepted, due, pending_client_review and
ready_for_payout and ends paid with completedAt set, platformFee 30 and both
shares 15; the store then holds exactly one payout transaction, for this
assignment and helper, with amount 70 and transaction id T1; and the
totalEarnings of the helper have grown by exactly 70. -/
theorem scenario_end_to_end (dmComplete dmApprove : DmOutcome) :
    (trace scenarioEnv scenarioStart (scenarioOpsWith dmComplete dmApprove)).map
        (fun s => s.statusOf 0)
        = [none, some Status.pending, some Status.accepted, some Status.due,
           some Status.pending_client_review, some Status.ready_for_payout,
           some Status.ready_for_payout, some Status.paid]
      ∧ (run scenarioEnv scenarioStart (scenarioOpsWith dmComplete dmApprove)).findAssignment 0
          = some
            { ownerId := 1, helperId := some 0, title := "Sorting homework",
              description := "Sort a list in place.", complexity := "low",
              category := "python-help", deadline := 50, paymentAmount := 100,
              adminDeterminedHelperPayout := some 70, platformFee := some 30,
              adminShare := some 15, jolomiShare := some 15, status := Status.paid,
              completedAt := some 120, paidAt := some 130 }
      ∧ (run scenarioEnv scenarioStart (scenarioOpsWith dmComplete dmApprove)).payoutTransactions
          = [{ assignmentId := 0, helperId := 0, amount := 70, transactionId := "T1",
               notes := none, paidAt := 130 }]
      ∧ (run scenarioEnv scenarioStart (scenarioOpsWith dmComplete dmApprove)).findUser 0
          = (scenarioStart.findUser 0).map
              (fun u => { u with totalEarnings := u.totalEarnings + 70 })
      ∧ (∀ uid, uid ≠ 0 →
          (run scenarioEnv scenarioStart (scenarioOpsWith dmComplete dmApprove)).findUser uid
            = scenarioStart.findUser uid) := by
  have husers : (run scenarioEnv scenarioStart (scenarioOpsWith dmComplete dmApprove)).users
      = scenarioStart.users.modify
          (Option.map (fun u => { u with totalEarnings := u.totalEarnings + 70 })) 0 := by
    cases dmComplete <;> cases dmApprove <;> decide!
  refine ⟨?_, ?_, ?_, ?_, ?_⟩
  · cases dmComplete <;> cases dmApprove <;> decide!
  · cases dmComplete <;> cases dmApprove <;> decide!
  · cases dmComplete <;> cases dmApprove <;> decide!
  · cases dmComplete <;> cases dmApprove <;> decide!
  · intro uid hne
    unfold Store.findUser
    rw [husers, List.getElem?_modify_ne _ _ (fun h => hne h.symm)]

/-! ## C11: Complete -/

/-- With the owner account present and the direct message to the owner not
throwing (or the owner without a Discord identity), Complete answers 200
exactly when the caller is the attached helper and the status is accepted or
due; it then stores the attachments built from the files in order, the status
and the completion time, and otherwise leaves the store as it is. -/
theorem complete_spec_of_delivery (s : Store) (user : AuthUser) (id : ObjectId) (a : Assignment)
    (owner : User) (files : Option (List UploadedFile)) (now : Instant) (dm : DmOutcome)
    (hrole : authorizeRoles ["helper"] user = true)
    (hfind : s.findAssignment id = some a) (howner : s.findUser a.ownerId = some owner)
    (hdm : truthy owner.discordId = false ∨ dm = DmOutcome.delivered
      ∨ dm = DmOutcome.fetchedNothing) :
    ((completeAssignment s user id files now dm).response.code = 200 ↔
        a.helperId = some user.userId ∧ (a.status = Status.accepted ∨ a.status = Status.due))
      ∧ ((completeAssignment s user id files now dm).response.code = 200 →
          (completeAssignment s user id files now dm).store.findAssignment id
            = some { a with completedWorkAttachments := toAttachments files,
                            status := Status.pending_client_review,
                            completedAt := some now })
      ∧ ((completeAssignment s user id files now dm).response.code ≠ 200 →
          (completeAssignment s user id files now dm).store = s) := by
  have hnothrow : ¬ (truthy owner.discordId = true
      ∧ (dm = DmOutcome.fetchThrows ∨ dm = DmOutcome.sendThrows)) := by
    rintro ⟨h1, h2⟩
    rcases hdm with h | h | h
    · rw [h] at h1; exact absurd h1 (by simp)
    · rw [h] at h2; rcases h2 with h2 | h2 <;> exact absurd h2 (by simp)
    · rw [h] at h2; rcases h2 with h2 | h2 <;> exact absurd h2 (by simp)
  unfold completeAssignment rolesDenied
  simp only [hrole, hfind, Bool.not_true, Bool.false_eq_true, if_false,
    findUser_updateAssignment, howner, hnothrow]
  by_cases h1 : a.helperId = some user.userId
  · by_cases h2 : a.status = Status.accepted
    · simp [h1, h2, findAssignment_updateAssignment, hfind]
    · by_cases h3 : a.status = Status.due
      · simp [h1, h3, findAssignment_updateAssignment, hfind]
      · simp [h1, h2, h3]
  · simp [h1]

/-- C11 (the code departs from the claim). The assignment is accepted by
helper 0, who sends Complete with two files; the owner has a Discord identity
and the direct message to the owner cannot be sent.  The handler has already
saved the attachments, the status pending_client_review and the completion
time when the message throws, and it answers 500: the call fails although the
caller is the attached helper and the status is accepted, and the assignment is
changed although the call failed.  The same happens when the owner account is
missing. -/
theorem complete_fails_after_write :
    (demoAcceptedStore.findAssignment 0).map (fun a => (a.status, a.helperId))
        = some (Status.accepted, some demoHelper.userId)
      ∧ (completeAssignment demoAcceptedStore demoHelper 0 demoFiles 60
          DmOutcome.sendThrows).response.code = 500
      ∧ ((completeAssignment demoAcceptedStore demoHelper 0 demoFiles 60
          DmOutcome.sendThrows).store.findAssignment 0).map
            (fun a => (a.status, a.completedWorkAttachments, a.completedAt))
          = some (Status.pending_client_review,
              [{ url := "/uploads/a1b2", filename := "sort.py" },
               { url := "/uploads/c3d4", filename := "report.pdf" }], some 60)
      ∧ (completeAssignment { demoAcceptedStore with users := [some demoHelperUser, none] }
          demoHelper 0 demoFiles 60 DmOutcome.delivered).response.code = 500
      ∧ ((completeAssignment { demoAcceptedStore with users := [some demoHelperUser, none] }
          demoHelper 0 demoFiles 60 DmOutcome.delivered).store.findAssignment 0).map
            (fun a => a.status) = some Status.pending_client_review := by
  refine ⟨by decide, by decide, by decide, by decide, by decide⟩

/-! ## C12: the approve_work command -/

theorem notOwner_eq_false (owner : Option User) (interaction : Interaction) :
    notOwner owner interaction = false ↔
      ∃ o, owner = some o ∧ o.discordId = some interaction.userId := by
  cases owner with
  | none => simp [notOwner]
  | some o => simp [notOwner]

theorem approveWork_store (env : Env) (s : Store) (interaction : Interaction) (id : ObjectId)
    (a : Assignment) (dm : DmOutcome) (hfind : s.findAssignment id = some a) :
    (approveWork env s interaction id dm).store
      = if (interactionIsAdmin env interaction = true
            ∨ notOwner (s.findUser a.ownerId) interaction = false)
          ∧ a.status = Status.pending_client_review
        then s.updateAssignment id (fun a => { a with status := Status.ready_for_payout })
        else s := by
  unfold approveWork
  simp only [hfind]
  cases hadmin : interactionIsAdmin env interaction <;>
    cases howner : notOwner (s.findUser a.ownerId) interaction <;>
    by_cases hst : a.status = Status.pending_client_review <;>
    simp [hst] <;> split <;> rfl

/-- C12 (counterexample). The demo assignment waits for the client review and
is owned by user 1.  The administrator (user 3, roles admin and client, Discord
identity 999) is privileged by the rule owner or admin role, yet with no
administrator identity configured approve_work refuses the command and leaves
the store as it is.  The second helper (user 2, role helper only, Discord
identity 444) is neither the owner nor a holder of the admin role, yet holding
the Administrator permission of the guild the same command moves the
assignment to ready_for_payout. -/
theorem approve_work_ignores_admin_role :
    adminReviewStore.findAssignment 0 = some demoReviewAssignment
      ∧ moderatorReviewStore.findAssignment 0 = some demoReviewAssignment
      ∧ demoReviewAssignment.status = Status.pending_client_review
      ∧ (adminReviewStore.findUser 3).map (fun u => (u.discordId, u.roles))
          = some (some demoAdminInteraction.userId, ["admin", "client"])
      ∧ specOwnerOrAdmin adminReviewStore 3 demoReviewAssignment = true
      ∧ (approveWork demoEnv adminReviewStore demoAdminInteraction 0
          DmOutcome.fetchedNothing).replies = [CommandReply.notAuthorized]
      ∧ (approveWork demoEnv adminReviewStore demoAdminInteraction 0
          DmOutcome.fetchedNothing).store = adminReviewStore
      ∧ (moderatorReviewStore.findUser 2).map (fun u => (u.discordId, u.roles))
          = some (some moderatorInteraction.userId, ["helper"])
      ∧ specOwnerOrAdmin moderatorReviewStore 2 demoReviewAssignment = false
      ∧ (approveWork demoEnv moderatorReviewStore moderatorInteraction 0
          DmOutcome.fetchedNothing).replies = [CommandReply.approved]
      ∧ (approveWork demoEnv moderatorReviewStore moderatorInteraction 0
          DmOutcome.fetchedNothing).store.findAssignment 0
          = some { demoReviewAssignment with status := Status.ready_for_payout } := by
  refine ⟨rfl, rfl, rfl, by decide, by decide, by decide, by decide, by decide, by decide,
    by decide, by decide⟩

/-- C12, amended. For an existing assignment a, the approve_work command issued
by a Discord user changes a exactly when the status is pending_client_review
and the user is the owner (the owner account exists and carries the Discord
identity of the user) or an admin as this handler computes it (one of the two
configured admin Discord identities, or a holder of the guild Administrator
permission; the roles of the account are not read).  When it
changes a, the stored document is a with status ready_for_payout and every
other field as before, and nothing else in the store changes; otherwise the
whole store is unchanged.  This holds whatever happens to the direct message
to the helper. -/
theorem approveWork_spec (env : Env) (s : Store) (interaction : Interaction) (id : ObjectId)
    (a : Assignment) (dm : DmOutcome) (hfind : s.findAssignment id = some a) :
    ((approveWork env s interaction id dm).store.findAssignment id ≠ some a ↔
        ((∃ owner, s.findUser a.ownerId = some owner
              ∧ owner.discordId = some interaction.userId)
            ∨ interactionIsAdmin env interaction = true)
          ∧ a.status = Status.pending_client_review)
      ∧ ((approveWork env s interaction id dm).store.findAssignment id ≠ some a →
          (approveWork env s interaction id dm).store.findAssignment id
              = some { a with status := Status.ready_for_payout }
            ∧ (∀ id2, id2 ≠ id →
                (approveWork env s interaction id dm).store.findAssignment id2
                  = s.findAssignment id2)
            ∧ (approveWork env s interaction id dm).store.users = s.users
            ∧ (approveWork env s interaction id dm).store.payoutTransactions
                = s.payoutTransactions)
      ∧ ((approveWork env s interaction id dm).store.findAssignment id = some a →
          (approveWork env s interaction id dm).store = s) := by
  rw [approveWork_store env s interaction id a dm hfind, ← notOwner_eq_false]
  by_cases hauth : (interactionIsAdmin env interaction = true
      ∨ notOwner (s.findUser a.ownerId) interaction = false)
      ∧ a.status = Status.pending_client_review
  · have hne : ({ a with status := Status.ready_for_payout } : Assignment) ≠ a := by
      intro h
      have h2 := congrArg Assignment.status h
      rw [hauth.2] at h2
      simp at h2
    rw [if_pos hauth]
    refine ⟨⟨fun _ => ⟨hauth.1.symm, hauth.2⟩, fun _ h => ?_⟩,
      fun _ => ⟨?_, fun id2 h2 => ?_, rfl, rfl⟩, fun h => ?_⟩
    · rw [findAssignment_updateAssignment, if_pos rfl, hfind] at h
      exact hne (Option.some.inj h)
    · rw [findAssignment_updateAssignment, if_pos rfl, hfind]; rfl
    · rw [findAssignment_updateAssignment, if_neg (Ne.symm h2)]
    · rw [findAssignment_updateAssignment, if_pos rfl, hfind] at h
      exact absurd (Option.some.inj h) hne
  · rw [if_neg hauth]
    refine ⟨⟨fun h => absurd hfind h, fun h => absurd ⟨h.1.symm, h.2⟩ hauth⟩,
      fun h => absurd hfind h, fun _ => rfl⟩

/-- C12, amended, at a concrete store: the owner of the demo assignment, which
waits for the client review, approves it from Discord. -/
theorem approveWork_spec_witness :
    ((approveWork demoEnv demoReviewStore demoOwnerInteraction 0
          DmOutcome.delivered).store.findAssignment 0 ≠ some demoReviewAssignment ↔
        ((∃ owner, demoReviewStore.findUser demoReviewAssignment.ownerId = some owner
              ∧ owner.discordId = some demoOwnerInteraction.userId)
            ∨ interactionIsAdmin demoEnv demoOwnerInteraction = true)
          ∧ demoReviewAssignment.status = Status.pending_client_review)
      ∧ ((approveWork demoEnv demoReviewStore demoOwnerInteraction 0
            DmOutcome.delivered).store.findAssignment 0 ≠ some demoReviewAssignment →
          (approveWork demoEnv demoReviewStore demoOwnerInteraction 0
              DmOutcome.delivered).store.findAssignment 0
              = some { demoReviewAssignment with status := Status.ready_for_payout }
            ∧ (∀ id2, id2 ≠ 0 →
                (approveWork demoEnv demoReviewStore demoOwnerInteraction 0
                  DmOutcome.delivered).store.findAssignment id2
                  = demoReviewStore.findAssignment id2)
            ∧ (approveWork demoEnv demoReviewStore demoOwnerInteraction 0
                DmOutcome.delivered).store.users = demoReviewStore.users
            ∧ (approveWork demoEnv demoReviewStore demoOwnerInteraction 0
                DmOutcome.delivered).store.payoutTransactions
                = demoReviewStore.payoutTransactions)
      ∧ ((approveWork demoEnv demoReviewStore demoOwnerInteraction 0
            DmOutcome.delivered).store.findAssignment 0 = some demoReviewAssignment →
          (approveWork demoEnv demoReviewStore demoOwnerInteraction 0
            DmOutcome.delivered).store = demoReviewStore) :=
  approveWork_spec demoEnv demoReviewStore demoOwnerInteraction 0 demoReviewAssignment
    DmOutcome.delivered rfl

/-! ## C13: revision and second hand-in -/

theorem requestRevision_store (env : Env) (s : Store) (interaction : Interaction) (id : ObjectId)
    (a : Assignment) (feedback : String) (dm : DmOutcome) (hfind : s.findAssignment id = some a) :
    (requestRevision env s interaction id feedback dm).store
      = if (interactionIsAdmin env interaction = true
            ∨ notOwner (s.findUser a.ownerId) interaction = false)
          ∧ a.status = Status.pending_client_review
        then s.updateAssignment id (fun a =>
          { a with status := Status.accepted, completedWorkAttachments := [] })
        else s := by
  unfold requestRevision
  simp only [hfind]
  cases hadmin : interactionIsAdmin env interaction <;>
    cases howner : notOwner (s.findUser a.ownerId) interaction <;>
    by_cases hst : a.status = Status.pending_client_review <;>
    simp [hst] <;> split <;> rfl

/-- The assignment a waits for the client review with helper H attached, as
Complete leaves it.  A request_revision by the owner stores a with status
accepted and no completed-work attachments and every other field as before
(the helper included; the feedback text does not occur in the stored
document), and leaves users and payout transactions alone.  A Complete by H
after that stores the new attachments, the status pending_client_review and the
new completion time, whatever happens to the direct message to the owner; it
answers 200 unless that message throws, and 500 if it does. -/
theorem revision_then_complete (env : Env) (s : Store) (interaction : Interaction)
    (id : ObjectId) (a : Assignment) (owner : User) (user : AuthUser) (feedback : String)
    (dm dm2 : DmOutcome) (files : Option (List UploadedFile)) (now : Instant)
    (hrole : authorizeRoles ["helper"] user = true)
    (hfind : s.findAssignment id = some a)
    (hstatus : a.status = Status.pending_client_review)
    (hhelper : a.helperId = some user.userId)
    (howner : s.findUser a.ownerId = some owner)
    (hactor : owner.discordId = some interaction.userId) :
    (requestRevision env s interaction id feedback dm).store.findAssignment id
        = some { a with status := Status.accepted, completedWorkAttachments := [] }
      ∧ (requestRevision env s interaction id feedback dm).store.users = s.users
      ∧ (requestRevision env s interaction id feedback dm).store.payoutTransactions
          = s.payoutTransactions
      ∧ (completeAssignment (requestRevision env s interaction id feedback dm).store
            user id files now dm2).store.findAssignment id
          = some { a with completedWorkAttachments := toAttachments files,
                          status := Status.pending_client_review,
                          completedAt := some now }
      ∧ (completeAssignment (requestRevision env s interaction id feedback dm).store
            user id files now dm2).response.code
          = if truthy owner.discordId = true
              ∧ (dm2 = DmOutcome.fetchThrows ∨ dm2 = DmOutcome.sendThrows)
            then 500 else 200 := by
  have hno : notOwner (s.findUser a.ownerId) interaction = false :=
    (notOwner_eq_false _ _).2 ⟨owner, howner, hactor⟩
  have hstore := requestRevision_store env s interaction id a feedback dm hfind
  rw [if_pos ⟨Or.inr hno, hstatus⟩] at hstore
  have hfind2 : (s.updateAssignment id (fun a =>
      { a with status := Status.accepted, completedWorkAttachments := [] })).findAssignment id
      = some { a with status := Status.accepted, completedWorkAttachments := [] } := by
    rw [findAssignment_updateAssignment, if_pos rfl, hfind]; rfl
  rw [hstore]
  refine ⟨hfind2, rfl, rfl, ?_, ?_⟩
  · unfold completeAssignment rolesDenied
    simp only [hrole, hfind2, Bool.not_true, Bool.false_eq_true, if_false,
      findUser_updateAssignment, howner, hhelper]
    by_cases hthrow : truthy owner.discordId = true
      ∧ (dm2 = DmOutcome.fetchThrows ∨ dm2 = DmOutcome.sendThrows)
    · simp [hthrow, hhelper, findAssignment_updateAssignment, hfind2]
    · simp [hthrow, hhelper, findAssignment_updateAssignment, hfind2]
  · unfold completeAssignment rolesDenied
    simp only [hrole, hfind2, Bool.not_true, Bool.false_eq_true, if_false,
      findUser_updateAssignment, howner, hhelper]
    by_cases hthrow : truthy owner.discordId = true
      ∧ (dm2 = DmOutcome.fetchThrows ∨ dm2 = DmOutcome.sendThrows)
    · simp [hthrow, hhelper]
    · simp [hthrow, hhelper]

/-- C13 (the code departs from the claim in its last part). Helper 0 hands in
the accepted demo assignment, the owner requests a revision with feedback, and
helper 0 hands in again while the direct message to the owner cannot be sent.
The revision request leaves status accepted, no completed-work attachments and
helper 0 attached; the second Complete writes pending_client_review again but
answers 500, so it does not succeed for its caller. -/
theorem recomplete_reports_failure :
    (completeAssignment demoAcceptedStore demoHelper 0 demoFiles 60
        DmOutcome.delivered).response.code = 200
      ∧ ((requestRevision demoEnv
            (completeAssignment demoAcceptedStore demoHelper 0 demoFiles 60
              DmOutcome.delivered).store
            demoOwnerInteraction 0 "please add tests"
            DmOutcome.fetchedNothing).store.findAssignment 0).map
          (fun a => (a.status, a.completedWorkAttachments, a.helperId))
          = some (Status.accepted, [], some 0)
      ∧ (completeAssignment
          (requestRevision demoEnv
            (completeAssignment demoAcceptedStore demoHelper 0 demoFiles 60
              DmOutcome.delivered).store
            demoOwnerInteraction 0 "please add tests" DmOutcome.fetchedNothing).store
          demoHelper 0 demoFiles 70 DmOutcome.sendThrows).response.code = 500
      ∧ ((completeAssignment
          (requestRevision demoEnv
            (completeAssignment demoAcceptedStore demoHelper 0 demoFiles 60
              DmOutcome.delivered).store
            demoOwnerInteraction 0 "please add tests" DmOutcome.fetchedNothing).store
          demoHelper 0 demoFiles 70 DmOutcome.sendThrows).store.findAssignment 0).map
          (fun a => (a.status, a.completedAt))
          = some (Status.pending_client_review, some 70) := by
  refine ⟨by decide, by decide, by decide, by decide⟩

/-! ## C14: the review rule at the web route and at the commands -/

theorem review_store (s : Store) (user : AuthUser) (id : ObjectId) (a : Assignment)
    (action : String) (feedback : Option String) (hfind : s.findAssignment id = some a) :
    (reviewAssignment s user id action feedback).store
      = if authorizeRoles ["client"] user = true ∧ a.ownerId = user.userId
            ∧ a.status = Status.pending_client_review
        then
          (if action = "approve" then
            s.updateAssignment id (fun a => { a with status := Status.ready_for_payout })
          else if action = "reject" then
            s.updateAssignment id (fun a =>
              { a with status := Status.accepted, completedWorkAttachments := [] })
          else s)
        else s := by
  unfold reviewAssignment rolesDenied
  simp only [hfind]
  cases hrole : authorizeRoles ["client"] user <;>
    by_cases howner : a.ownerId = user.userId <;>
    by_cases hst : a.status = Status.pending_client_review <;>
    by_cases h1 : action = "approve" <;>
    by_cases h2 : action = "reject" <;>
    simp [howner, hst, h1, h2]

/-- C14 (counterexample). The administrator (user 3, roles admin and client,
Discord identity 999) is not the owner of the demo assignment, which waits for
the client review; by the rule of the specification the administrator is
privileged.  The web review route answers 403 to the administrator and leaves
the assignment as it is, while approve_work from the same person, whose
Discord identity is configured as an administrator, moves it to
ready_for_payout: the two entry points disagree.  With no Discord identity
configured the command refuses the same administrator as well, so neither
entry point applies the rule owner or admin role. -/
theorem admin_review_differs :
    specOwnerOrAdmin adminReviewStore demoAdmin.userId demoReviewAssignment = true
      ∧ adminReviewStore.findAssignment 0 = some demoReviewAssignment
      ∧ (reviewAssignment adminReviewStore demoAdmin 0 "approve" none).response.code = 403
      ∧ (reviewAssignment adminReviewStore demoAdmin 0 "approve" none).store.findAssignment 0
          = some demoReviewAssignment
      ∧ (approveWork adminEnv adminReviewStore demoAdminInteraction 0
          DmOutcome.delivered).store.findAssignment 0
          = some { demoReviewAssignment with status := Status.ready_for_payout }
      ∧ (approveWork demoEnv adminReviewStore demoAdminInteraction 0
          DmOutcome.delivered).replies = [CommandReply.notAuthorized]
      ∧ (approveWork demoEnv adminReviewStore demoAdminInteraction 0
          DmOutcome.delivered).store.findAssignment 0 = some demoReviewAssignment := by
  refine ⟨by decide, rfl, by decide, rfl, rfl, by decide, rfl⟩

/-- C14 (amended). The assignment a waits for the client review; the actor has
an account, signs in to the web with a token for it and uses Discord under the
identity stored on it.  The web review route changes a exactly when the token
carries the client role and the account is the owner of a; the approve_work
and request_revision commands change a exactly when the Discord identity is the
one on the owner account or is a Discord administrator (configured identity or
guild Administrator permission).  An authorized approve stores status
ready_for_payout and an authorized reject or revision request stores status
accepted with no completed-work attachments, the same at both entry points;
an unauthorized call leaves the store as it is.  Whoever the web route
authorizes the commands authorize too. -/
theorem review_entry_points (env : Env) (s : Store) (id : ObjectId) (a : Assignment)
    (user : AuthUser) (actor : User) (interaction : Interaction)
    (feedback : Option String) (text : String) (dm : DmOutcome)
    (hfind : s.findAssignment id = some a)
    (hstatus : a.status = Status.pending_client_review)
    (hactor : s.findUser user.userId = some actor)
    (hdiscord : actor.discordId = some interaction.userId) :
    ((authorizeRoles ["client"] user = true ∧ a.ownerId = user.userId) →
        (reviewAssignment s user id "approve" feedback).store
            = s.updateAssignment id (fun a => { a with status := Status.ready_for_payout })
          ∧ (reviewAssignment s user id "reject" feedback).store
            = s.updateAssignment id (fun a =>
                { a with status := Status.accepted, completedWorkAttachments := [] }))
      ∧ (¬ (authorizeRoles ["client"] user = true ∧ a.ownerId = user.userId) →
          (reviewAssignment s user id "approve" feedback).store = s
            ∧ (reviewAssignment s user id "reject" feedback).store = s)
      ∧ ((interactionIsAdmin env interaction = true
            ∨ ∃ owner, s.findUser a.ownerId = some owner
                ∧ owner.discordId = some interaction.userId) →
          (approveWork env s interaction id dm).store
              = s.updateAssignment id (fun a => { a with status := Status.ready_for_payout })
            ∧ (requestRevision env s interaction id text dm).store
              = s.updateAssignment id (fun a =>
                  { a with status := Status.accepted, completedWorkAttachments := [] }))
      ∧ (¬ (interactionIsAdmin env interaction = true
            ∨ ∃ owner, s.findUser a.ownerId = some owner
                ∧ owner.discordId = some interaction.userId) →
          (approveWork env s interaction id dm).store = s
            ∧ (requestRevision env s interaction id text dm).store = s)
      ∧ ((authorizeRoles ["client"] user = true ∧ a.ownerId = user.userId) →
          (interactionIsAdmin env interaction = true
            ∨ ∃ owner, s.findUser a.ownerId = some owner
                ∧ owner.discordId = some interaction.userId))
      ∧ (s.updateAssignment id (fun a =>
            { a with status := Status.ready_for_payout })).findAssignment id
          = some { a with status := Status.ready_for_payout }
      ∧ (s.updateAssignment id (fun a =>
            { a with status := Status.accepted, completedWorkAttachments := [] })).findAssignment id
          = some { a with status := Status.accepted, completedWorkAttachments := [] } := by
  have hweb1 := review_store s user id a "approve" feedback hfind
  have hweb2 := review_store s user id a "reject" feedback hfind
  have hcmd1 := approveWork_store env s interaction id a dm hfind
  have hcmd2 := requestRevision_store env s interaction id a text dm hfind
  have hiff : (interactionIsAdmin env interaction = true
        ∨ notOwner (s.findUser a.ownerId) interaction = false)
      ↔ (interactionIsAdmin env interaction = true
        ∨ ∃ o, s.findUser a.ownerId = some o ∧ o.discordId = some interaction.userId) := by
    rw [notOwner_eq_false]
  refine ⟨fun h => ?_, fun h => ?_, fun h => ?_, fun h => ?_, fun h => ?_, ?_, ?_⟩
  · rw [if_pos ⟨h.1, h.2, hstatus⟩] at hweb1 hweb2
    exact ⟨by simpa using hweb1, by simpa using hweb2⟩
  · have hn : ¬ (authorizeRoles ["client"] user = true ∧ a.ownerId = user.userId
        ∧ a.status = Status.pending_client_review) := fun h3 => h ⟨h3.1, h3.2.1⟩
    rw [if_neg hn] at hweb1 hweb2
    exact ⟨hweb1, hweb2⟩
  · rw [if_pos ⟨hiff.2 h, hstatus⟩] at hcmd1 hcmd2
    exact ⟨hcmd1, hcmd2⟩
  · have hn : ¬ ((interactionIsAdmin env interaction = true
        ∨ notOwner (s.findUser a.ownerId) interaction = false)
        ∧ a.status = Status.pending_client_review) := fun h3 => h (hiff.1 h3.1)
    rw [if_neg hn] at hcmd1 hcmd2
    exact ⟨hcmd1, hcmd2⟩
  · exact Or.inr ⟨actor, by rw [h.2]; exact hactor, hdiscord⟩
  · rw [findAssignment_updateAssignment, if_pos rfl, hfind]; rfl
  · rw [findAssignment_updateAssignment, if_pos rfl, hfind]; rfl

/-- C14 (amended) at a concrete store: the owner of the demo assignment, which
waits for the client review, acts through the web token and through Discord. -/
theorem review_entry_points_witness :
    ((authorizeRoles ["client"] demoClient = true
          ∧ demoReviewAssignment.ownerId = demoClient.userId) →
        (reviewAssignment demoReviewStore demoClient 0 "approve" none).store
            = demoReviewStore.updateAssignment 0
                (fun a => { a with status := Status.ready_for_payout })
          ∧ (reviewAssignment demoReviewStore demoClient 0 "reject" none).store
            = demoReviewStore.updateAssignment 0 (fun a =>
                { a with status := Status.accepted, completedWorkAttachments := [] }))
      ∧ (¬ (authorizeRoles ["client"] demoClient = true
            ∧ demoReviewAssignment.ownerId = demoClient.userId) →
          (reviewAssignment demoReviewStore demoClient 0 "approve" none).store = demoReviewStore
            ∧ (reviewAssignment demoReviewStore demoClient 0 "reject" none).store
              = demoReviewStore)
      ∧ ((interactionIsAdmin demoEnv demoOwnerInteraction = true
            ∨ ∃ owner, demoReviewStore.findUser demoReviewAssignment.ownerId = some owner
                ∧ owner.discordId = some demoOwnerInteraction.userId) →
          (approveWork demoEnv demoReviewStore demoOwnerInteraction 0 DmOutcome.delivered).store
              = demoReviewStore.updateAssignment 0
                  (fun a => { a with status := Status.ready_for_payout })
            ∧ (requestRevision demoEnv demoReviewStore demoOwnerInteraction 0 "add tests"
                DmOutcome.delivered).store
              = demoReviewStore.updateAssignment 0 (fun a =>
                  { a with status := Status.accepted, completedWorkAttachments := [] }))
      ∧ (¬ (interactionIsAdmin demoEnv demoOwnerInteraction = true
            ∨ ∃ owner, demoReviewStore.findUser demoReviewAssignment.ownerId = some owner
                ∧ owner.discordId = some demoOwnerInteraction.userId) →
          (approveWork demoEnv demoReviewStore demoOwnerInteraction 0 DmOutcome.delivered).store
              = demoReviewStore
            ∧ (requestRevision demoEnv demoReviewStore demoOwnerInteraction 0 "add tests"
                DmOutcome.delivered).store = demoReviewStore)
      ∧ ((authorizeRoles ["client"] demoClient = true
            ∧ demoReviewAssignment.ownerId = demoClient.userId) →
          (interactionIsAdmin demoEnv demoOwnerInteraction = true
            ∨ ∃ owner, demoReviewStore.findUser demoReviewAssignment.ownerId = some owner
                ∧ owner.discordId = some demoOwnerInteraction.userId))
      ∧ (demoReviewStore.updateAssignment 0 (fun a =>
            { a with status := Status.ready_for_payout })).findAssignment 0
          = some { demoReviewAssignment with status := Status.ready_for_payout }
      ∧ (demoReviewStore.updateAssignment 0 (fun a =>
            { a with status := Status.accepted, completedWorkAttachments := [] })).findAssignment 0
          = some { demoReviewAssignment with
                   status := Status.accepted, completedWorkAttachments := [] } :=
  review_entry_points demoEnv demoReviewStore 0 demoReviewAssignment demoClient demoClientUser
    demoOwnerInteraction none "add tests" DmOutcome.delivered rfl rfl rfl rfl

/-! ## C20: cumulative earnings -/

theorem findUser_eq_some (s : Store) (uid : ObjectId) (u : User) :
    s.findUser uid = some u ↔ s.users[uid]? = some (some u) := by
  unfold Store.findUser
  cases h : s.users[uid]? with
  | none => simp
  | some x => cases x <;> simp

theorem findUser_eq_none (s : Store) (uid : ObjectId) :
    s.findUser uid = none ↔ s.users[uid]? = none ∨ s.users[uid]? = some none := by
  unfold Store.findUser
  cases h : s.users[uid]? with
  | none => simp
  | some x => cases x <;> simp

theorem slotKept_refl (x : Option (Option User)) (hx : x = none ∨ ∃ y, x = some y) :
    SlotKept x x := by
  rcases x with _ | _ | u
  · intro u h; exact absurd h (by simp)
  · rfl
  · exact Or.inr ⟨u, rfl, rfl⟩

theorem slotKept_same (x : Option (Option User)) : SlotKept x x :=
  slotKept_refl x (by cases x <;> simp)

theorem slotKept_trans (x y z : Option (Option User)) (h1 : SlotKept x y) (h2 : SlotKept y z) :
    SlotKept x z := by
  rcases x with _ | _ | u
  · intro w hz
    rcases y with _ | _ | v
    · exact h2 w hz
    · rw [show z = some none from h2] at hz; exact absurd hz (by simp)
    · rcases h2 with h2 | ⟨w2, hw2, he⟩
      · rw [h2] at hz; exact absurd hz (by simp)
      · rw [hw2] at hz
        cases hz
        rw [he]; exact h1 v rfl
  · rw [show y = some none from h1] at h2; exact h2
  · rcases h1 with h1 | ⟨v, hv, he⟩
    · rw [h1] at h2; exact Or.inl h2
    · rw [hv] at h2
      rcases h2 with h2 | ⟨w, hw, he2⟩
      · exact Or.inl h2
      · exact Or.inr ⟨w, hw, by rw [he2, he]⟩

theorem slotKept_modify (l : List (Option User)) (f : User → User)
    (hf : ∀ u, (f u).totalEarnings = u.totalEarnings) (j i : Nat) :
    SlotKept l[i]? (l.modify (Option.map f) j)[i]? := by
  by_cases h : j = i
  · subst h
    rw [List.getElem?_modify_eq]
    rcases l[j]? with _ | _ | u
    · intro u h; exact absurd h (by simp)
    · rfl
    · exact Or.inr ⟨f u, rfl, hf u⟩
  · rw [List.getElem?_modify_ne _ _ h]
    exact slotKept_same _

theorem slotKept_updateUser (s : Store) (id : ObjectId) (f : User → User)
    (hf : ∀ u, (f u).totalEarnings = u.totalEarnings) (i : Nat) :
    SlotKept s.users[i]? (s.updateUser id f).users[i]? :=
  slotKept_modify s.users f hf id i

theorem slotKept_append (l : List (Option User)) (u0 : User) (h0 : u0.totalEarnings = 0)
    (i : Nat) : SlotKept l[i]? (l ++ [some u0])[i]? := by
  by_cases h : i < l.length
  · rw [List.getElem?_append_left h]
    exact slotKept_same _
  · have hn : l[i]? = none := List.getElem?_eq_none (Nat.le_of_not_lt h)
    rw [hn]
    intro u hu
    rw [List.getElem?_append_right (Nat.le_of_not_lt h)] at hu
    rcases hi : i - l.length with _ | k
    · rw [hi] at hu
      simp only [List.getElem?_cons_zero, Option.some.injEq] at hu
      rw [← hu]; exact h0
    · rw [hi] at hu
      simp at hu

theorem slotKept_set (l : List (Option User)) (j i : Nat) :
    SlotKept l[i]? (l.set j none)[i]? := by
  by_cases h : j = i
  · subst h
    by_cases hj : j < l.length
    · rw [List.getElem?_set_self hj]
      rcases l[j]? with _ | _ | u
      · intro u h; exact absurd h (by simp)
      · rfl
      · exact Or.inl rfl
    · have hn : l[j]? = none := List.getElem?_eq_none (Nat.le_of_not_lt hj)
      have hn2 : (l.set j none)[j]? = none :=
        List.getElem?_eq_none (by rw [List.length_set]; exact Nat.le_of_not_lt hj)
      rw [hn, hn2]
      exact slotKept_same _
  · rw [List.getElem?_set_ne h]
    exact slotKept_same _

theorem slotKept_grows (x y : Option (Option User)) (h : SlotKept x y) : SlotGrows x y := by
  rcases x with _ | _ | u
  · trivial
  · exact h
  · rcases h with h | ⟨v, hv, he⟩
    · exact Or.inl h
    · exact Or.inr ⟨v, hv, by rw [he]⟩

theorem ensureClient_slots (s s1 : Store) (interaction : Interaction) (userId : ObjectId)
    (h : s.ensureClient interaction = some (s1, userId)) (i : Nat) :
    SlotKept s.users[i]? s1.users[i]? := by
  unfold Store.ensureClient at h
  repeat' split at h
  all_goals try dsimp only at h
  all_goals cases h
  all_goals first
    | exact slotKept_same _
    | exact slotKept_append _ _ rfl _
    | (apply slotKept_updateUser; intro u; rfl)

theorem ticket_slots (env : Env) (s : Store) (interaction : Interaction)
    (title description categoryName : String) (paymentAmount : ℚ) (deadlineString : String)
    (complexity : String) (world : TicketWorld) (i : Nat) :
    SlotKept s.users[i]?
      (createAssignmentTicket env s interaction title description categoryName paymentAmount
        deadlineString complexity world).store.users[i]? := by
  unfold createAssignmentTicket
  split
  · exact slotKept_same _
  split
  · exact slotKept_same _
  split
  · exact slotKept_same _
  rename_i s1 userId hens
  have h1 := ensureClient_slots s s1 interaction userId hens i
  repeat' split
  all_goals first
    | exact h1
    | (obtain ⟨d0, p0, h⟩ := insertAssignment_eq env s1 _ _ _ _ (by assumption)
       rw [h]
       exact h1)

theorem modal_slots (env : Env) (s : Store) (interaction : Interaction)
    (title description categoryName paymentInput deadlineString complexityInput : String)
    (world : TicketWorld) (i : Nat) :
    SlotKept s.users[i]?
      (createAssignmentModal env s interaction title description categoryName paymentInput
        deadlineString complexityInput world).store.users[i]? := by
  unfold createAssignmentModal
  try dsimp only
  repeat' split
  all_goals first
    | exact slotKept_same _
    | exact ticket_slots _ _ _ _ _ _ _ _ _ _ i

theorem ensureAdmin_slots (s s1 : Store) (adminData : AdminData) (saveFails : Bool)
    (h : ensureAdmin s adminData saveFails = some s1) (i : Nat) :
    SlotKept s.users[i]? s1.users[i]? := by
  unfold ensureAdmin at h
  dsimp only at h
  repeat' split at h
  all_goals cases h
  all_goals first
    | exact slotKept_same _
    | exact slotKept_append _ _ rfl _
    | (apply slotKept_updateUser; intro u; rfl)

theorem ensureAdmin_assignments (s s1 : Store) (adminData : AdminData) (saveFails : Bool)
    (h : ensureAdmin s adminData saveFails = some s1) :
    s1.assignments = s.assignments ∧ s1.payoutTransactions = s.payoutTransactions := by
  unfold ensureAdmin at h
  dsimp only at h
  repeat' split at h
  all_goals cases h
  all_goals exact ⟨rfl, rfl⟩

theorem ensureAdminsLoop_slots (failing l : List AdminData) (s : Store) (i : Nat) :
    SlotKept s.users[i]? (ensureAdminsLoop failing l s).users[i]? := by
  induction l generalizing s with
  | nil => exact slotKept_same _
  | cons adminData rest ih =>
    unfold ensureAdminsLoop
    split
    · exact slotKept_same _
    · rename_i s1 h1
      exact slotKept_trans _ _ _ (ensureAdmin_slots s s1 adminData _ h1 i) (ih s1)

theorem ensureAdminsLoop_assignments (failing l : List AdminData) (s : Store) :
    (ensureAdminsLoop failing l s).assignments = s.assignments
      ∧ (ensureAdminsLoop failing l s).payoutTransactions = s.payoutTransactions := by
  induction l generalizing s with
  | nil => exact ⟨rfl, rfl⟩
  | cons adminData rest ih =>
    unfold ensureAdminsLoop
    split
    · exact ⟨rfl, rfl⟩
    · rename_i s1 h1
      have h2 := ensureAdmin_assignments s s1 adminData _ h1
      exact ⟨(ih s1).1.trans h2.1, (ih s1).2.trans h2.2⟩

theorem exchangeCode_slots (s : Store) (code : Option String) (profile : Option DiscordProfile)
    (saveFails : Bool) (i : Nat) :
    SlotKept s.users[i]? (exchangeCode s code profile saveFails).store.users[i]? := by
  unfold exchangeCode
  repeat' split
  all_goals first
    | exact slotKept_same _
    | exact slotKept_append _ _ rfl _
    | (apply slotKept_updateUser; intro u; rfl)

theorem registerHelper_slots (s : Store) (request : RegisterRequest)
    (registrationClosed saveFails : Bool) (i : Nat) :
    SlotKept s.users[i]? (registerHelper s request registrationClosed saveFails).store.users[i]? := by
  unfold registerHelper
  repeat' split
  all_goals first
    | exact slotKept_same _
    | exact slotKept_append _ _ rfl _

theorem deleteUser_slots (s : Store) (user : AuthUser) (id : ObjectId) (spelledAsToken : Bool)
    (i : Nat) : SlotKept s.users[i]? (deleteUser s user id spelledAsToken).store.users[i]? := by
  unfold deleteUser adminDenied
  try dsimp only
  repeat' split
  all_goals first
    | exact slotKept_same _
    | exact slotKept_set _ _ _

theorem updateUserRoles_slots (s : Store) (user : AuthUser) (id : ObjectId)
    (roles : Option (List String)) (i : Nat) :
    SlotKept s.users[i]? (updateUserRoles s user id roles).store.users[i]? := by
  unfold updateUserRoles adminDenied
  repeat' split
  all_goals first
    | exact slotKept_same _
    | (apply slotKept_updateUser; intro u; rfl)

theorem updateUserStatus_slots (s : Store) (user : AuthUser) (id : ObjectId)
    (isActive : JsonValue) (i : Nat) :
    SlotKept s.users[i]? (updateUserStatus s user id isActive).store.users[i]? := by
  unfold updateUserStatus adminDenied
  repeat' split
  all_goals first
    | exact slotKept_same _
    | (apply slotKept_updateUser; intro u; rfl)

theorem stepUser_slots (env : Env) (s : Store) (op : UserOp) (i : Nat) :
    SlotKept s.users[i]? (stepUser env s op).users[i]? := by
  cases op with
  | ensureAdmins failing => exact ensureAdminsLoop_slots _ _ _ i
  | signIn code profile saveFails => exact exchangeCode_slots _ _ _ _ i
  | registerHelper request registrationClosed saveFails => exact registerHelper_slots _ _ _ _ i
  | deleteUser user id spelledAsToken => exact deleteUser_slots _ _ _ _ i
  | updateRoles user id roles => exact updateUserRoles_slots _ _ _ _ i
  | updateStatus user id isActive => exact updateUserStatus_slots _ _ _ _ i

theorem exchangeCode_assignments (s : Store) (code : Option String)
    (profile : Option DiscordProfile) (saveFails : Bool) :
    (exchangeCode s code profile saveFails).store.assignments = s.assignments
      ∧ (exchangeCode s code profile saveFails).store.payoutTransactions
          = s.payoutTransactions := by
  unfold exchangeCode
  repeat' split
  all_goals exact ⟨rfl, rfl⟩

theorem registerHelper_assignments (s : Store) (request : RegisterRequest)
    (registrationClosed saveFails : Bool) :
    (registerHelper s request registrationClosed saveFails).store.assignments = s.assignments
      ∧ (registerHelper s request registrationClosed saveFails).store.payoutTransactions
          = s.payoutTransactions := by
  unfold registerHelper
  repeat' split
  all_goals exact ⟨rfl, rfl⟩

theorem deleteUser_assignments (s : Store) (user : AuthUser) (id : ObjectId)
    (spelledAsToken : Bool) :
    (deleteUser s user id spelledAsToken).store.assignments = s.assignments
      ∧ (deleteUser s user id spelledAsToken).store.payoutTransactions
          = s.payoutTransactions := by
  unfold deleteUser adminDenied
  try dsimp only
  repeat' split
  all_goals exact ⟨rfl, rfl⟩

theorem updateUserRoles_assignments (s : Store) (user : AuthUser) (id : ObjectId)
    (roles : Option (List String)) :
    (updateUserRoles s user id roles).store.assignments = s.assignments
      ∧ (updateUserRoles s user id roles).store.payoutTransactions = s.payoutTransactions := by
  unfold updateUserRoles adminDenied
  repeat' split
  all_goals exact ⟨rfl, rfl⟩

theorem updateUserStatus_assignments (s : Store) (user : AuthUser) (id : ObjectId)
    (isActive : JsonValue) :
    (updateUserStatus s user id isActive).store.assignments = s.assignments
      ∧ (updateUserStatus s user id isActive).store.payoutTransactions
          = s.payoutTransactions := by
  unfold updateUserStatus adminDenied
  repeat' split
  all_goals exact ⟨rfl, rfl⟩

theorem stepUser_assignments (env : Env) (s : Store) (op : UserOp) :
    (stepUser env s op).assignments = s.assignments
      ∧ (stepUser env s op).payoutTransactions = s.payoutTransactions := by
  cases op with
  | ensureAdmins failing => exact ensureAdminsLoop_assignments _ _ _
  | signIn code profile saveFails => exact exchangeCode_assignments _ _ _ _
  | registerHelper request registrationClosed saveFails =>
    exact registerHelper_assignments _ _ _ _
  | deleteUser user id spelledAsToken => exact deleteUser_assignments _ _ _ _
  | updateRoles user id roles => exact updateUserRoles_assignments _ _ _ _
  | updateStatus user id isActive => exact updateUserStatus_assignments _ _ _ _

theorem users_slotKept (s t : Store) (h : t.users = s.users) (i : Nat) :
    SlotKept s.users[i]? t.users[i]? := by
  rw [h]; exact slotKept_same _

theorem step_slots (env : Env) (s : Store) (op : Op)
    (hop : AnyOp.isPay (AnyOp.lifecycle op) = false) (i : Nat) :
    SlotKept s.users[i]? (step env s op).users[i]? := by
  cases op with
  | create user body files channelSendThrows =>
    exact users_slotKept _ _ (create_rest _ _ _ _ _ _).2 i
  | createModal interaction title description categoryName paymentInput deadlineString
      complexityInput world =>
    exact modal_slots _ _ _ _ _ _ _ _ _ _ i
  | accept user id => exact users_slotKept _ _ (accept_rest _ _ _).2 i
  | complete user id files now dm => exact users_slotKept _ _ (complete_rest _ _ _ _ _ _).2 i
  | review user id action feedback => exact users_slotKept _ _ (review_rest _ _ _ _ _).2 i
  | approveWork interaction id dm => exact users_slotKept _ _ (approveWork_rest _ _ _ _ _).2 i
  | requestRevision interaction id feedback dm =>
    exact users_slotKept _ _ (requestRevision_rest _ _ _ _ _ _).2 i
  | setPayout user id v => exact users_slotKept _ _ (setPayout_rest _ _ _ _).2 i
  | dailyStatusCheck now failing => exact users_slotKept _ _ (dailyStatusLoop_rest _ _ _ _).1 i
  | pay user id transactionId notes now fault => exact absurd hop (by simp [AnyOp.isPay])

theorem stepAny_slots (env : Env) (s : Store) (op : AnyOp) (hop : AnyOp.isPay op = false)
    (i : Nat) : SlotKept s.users[i]? (stepAny env s op).users[i]? := by
  cases op with
  | lifecycle op => exact step_slots env s op hop i
  | account op => exact stepUser_slots env s op i

theorem slotGrows_trans (x y z : Option (Option User)) (h1 : SlotGrows x y)
    (h2 : SlotGrows y z) : SlotGrows x z := by
  rcases x with _ | _ | u
  · trivial
  · rw [show y = some none from h1] at h2; exact h2
  · rcases h1 with h1 | ⟨v, hv, he⟩
    · rw [h1] at h2; exact Or.inl h2
    · rw [hv] at h2
      rcases h2 with h2 | ⟨w, hw, he2⟩
      · exact Or.inl h2
      · exact Or.inr ⟨w, hw, le_trans he he2⟩

/-- Pay leaves a slot of the user collection as it is, or adds the helper
payout amount of the assignment to the earnings of the account in it. -/
theorem pay_slots (s : Store) (user : AuthUser) (id : ObjectId)
    (transactionId notes : Option String) (now : Instant) (fault : Option PayFault) (i : Nat) :
    SlotKept s.users[i]? (payAssignment s user id transactionId notes now fault).store.users[i]?
      ∨ ∃ a amount u, s.findAssignment id = some a
          ∧ a.adminDeterminedHelperPayout = some amount
          ∧ s.users[i]? = some (some u)
          ∧ (payAssignment s user id transactionId notes now fault).store.users[i]?
              = some (some { u with totalEarnings := u.totalEarnings + amount }) := by
  rcases pay_ledger s user id transactionId notes now fault with
    h | ⟨a, h, amount, h1, _, _, h4, _, h6⟩
  · rw [h]; exact Or.inl (slotKept_same _)
  · rcases h6 with ⟨_, _, hu⟩ | ⟨_, _, hu⟩ | ⟨_, _, hu⟩
    · rw [hu]; exact Or.inl (slotKept_same _)
    · rw [hu]; exact Or.inl (slotKept_same _)
    · rw [hu]
      by_cases hi : h = i
      · subst hi
        rw [List.getElem?_modify_eq]
        rcases hl : s.users[h]? with _ | _ | u
        · exact Or.inl (slotKept_same _)
        · exact Or.inl (slotKept_same _)
        · exact Or.inr ⟨a, amount, u, h1, h4, rfl, rfl⟩
      · rw [List.getElem?_modify_ne _ _ hi]
        exact Or.inl (slotKept_same _)

theorem runAny_cons (env : Env) (s : Store) (op : AnyOp) (ops : List AnyOp) :
    runAny env s (op :: ops) = runAny env (stepAny env s op) ops := rfl

theorem runAny_append (env : Env) (s : Store) (ops later : List AnyOp) :
    runAny env s (ops ++ later) = runAny env (runAny env s ops) later := by
  unfold runAny
  rw [List.foldl_append]

theorem stepAny_payout (env : Env) (s : Store) (op : AnyOp)
    (hinv : ∀ id a, s.findAssignment id = some a → ∀ p, a.adminDeterminedHelperPayout = some p →
      0 ≤ p ∧ a.platformFee = some (a.paymentAmount - p)) :
    ∀ id a, (stepAny env s op).findAssignment id = some a →
      ∀ p, a.adminDeterminedHelperPayout = some p →
        0 ≤ p ∧ a.platformFee = some (a.paymentAmount - p) := by
  intro id b hb p hp
  cases op with
  | lifecycle op =>
    exact docMove_payout _ _ (step_docMove env s op id) (fun a ha => hinv id a ha) b hb p hp
  | account op =>
    have hsame : (stepAny env s (AnyOp.account op)).findAssignment id = s.findAssignment id := by
      unfold Store.findAssignment
      rw [show (stepAny env s (AnyOp.account op)).assignments = s.assignments from
        (stepUser_assignments env s op).1]
    rw [hsame] at hb
    exact hinv id b hb p hp

theorem runAny_payout (env : Env) (ops : List AnyOp) (s : Store)
    (hinv : ∀ id a, s.findAssignment id = some a → ∀ p, a.adminDeterminedHelperPayout = some p →
      0 ≤ p ∧ a.platformFee = some (a.paymentAmount - p)) :
    ∀ id a, (runAny env s ops).findAssignment id = some a →
      ∀ p, a.adminDeterminedHelperPayout = some p →
        0 ≤ p ∧ a.platformFee = some (a.paymentAmount - p) := by
  induction ops generalizing s with
  | nil => exact hinv
  | cons op ops ih =>
    rw [runAny_cons]
    exact ih _ (stepAny_payout env s op hinv)

theorem stepAny_grows (env : Env) (s : Store) (op : AnyOp)
    (hinv : ∀ id a, s.findAssignment id = some a → ∀ p, a.adminDeterminedHelperPayout = some p →
      0 ≤ p ∧ a.platformFee = some (a.paymentAmount - p)) (i : Nat) :
    SlotGrows s.users[i]? (stepAny env s op).users[i]? := by
  cases hop : AnyOp.isPay op with
  | false => exact slotKept_grows _ _ (stepAny_slots env s op hop i)
  | true =>
    cases op with
    | account op => exact absurd hop (by simp [AnyOp.isPay])
    | lifecycle op =>
      cases op with
      | pay user id transactionId notes now fault =>
        rcases pay_slots s user id transactionId notes now fault i with
          h | ⟨a, amount, u, ha, hp, hu, hv⟩
        · exact slotKept_grows _ _ h
        · have hstep : (stepAny env s (AnyOp.lifecycle
              (Op.pay user id transactionId notes now fault))).users[i]?
              = some (some { u with totalEarnings := u.totalEarnings + amount }) := hv
          rw [hstep, hu]
          exact Or.inr ⟨_, rfl, le_add_of_nonneg_right (hinv id a ha amount hp).1⟩
      | _ => exact absurd hop (by simp [AnyOp.isPay])

theorem runAny_grows (env : Env) (ops : List AnyOp) (s : Store)
    (hinv : ∀ id a, s.findAssignment id = some a → ∀ p, a.adminDeterminedHelperPayout = some p →
      0 ≤ p ∧ a.platformFee = some (a.paymentAmount - p)) (i : Nat) :
    SlotGrows s.users[i]? (runAny env s ops).users[i]? := by
  induction ops generalizing s with
  | nil =>
    rcases h : s.users[i]? with _ | _ | u
    · trivial
    · exact h
    · exact Or.inr ⟨u, h, le_refl _⟩
  | cons op ops ih =>
    rw [runAny_cons]
    exact slotGrows_trans _ _ _ (stepAny_grows env s op hinv i)
      (ih _ (stepAny_payout env s op hinv))

theorem initialStore_payout (users : List (Option User)) (categories : List Category) :
    ∀ id a, (initialStore users categories).findAssignment id = some a →
      ∀ p, a.adminDeterminedHelperPayout = some p →
        0 ≤ p ∧ a.platformFee = some (a.paymentAmount - p) := by
  intro id a h
  exact absurd h (by simp [initialStore, Store.findAssignment])

/-- C20. Cumulative earnings change only through Pay and never decrease.
(1) For every store and every operation other than a Pay request (creation,
Accept, Complete, review, ApproveWork, RequestRevision, SetHelperPayout, the
sweep, Discord sign-in, helper registration, the admin bootstrap, user
deletion, role update, status update), an account present before and after
has the same totalEarnings.  (2) An operation that fills an empty slot of the
user collection creates an account with totalEarnings 0.  (3) Along every
sequence of operations from a store without assignments, storage failures
included, the totalEarnings of an account at a later point is at least its
totalEarnings at an earlier point. -/
theorem earnings_grow_only_by_pay (env : Env) :
    (∀ (s : Store) (op : AnyOp) (uid : ObjectId) (u v : User), AnyOp.isPay op = false →
        s.findUser uid = some u → (stepAny env s op).findUser uid = some v →
        v.totalEarnings = u.totalEarnings)
      ∧ (∀ (s : Store) (op : AnyOp) (uid : ObjectId) (v : User), s.users[uid]? = none →
          (stepAny env s op).findUser uid = some v → v.totalEarnings = 0)
      ∧ (∀ (users : List (Option User)) (categories : List Category) (ops later : List AnyOp)
          (uid : ObjectId) (u v : User),
          (runAny env (initialStore users categories) ops).findUser uid = some u →
          (runAny env (initialStore users categories) (ops ++ later)).findUser uid = some v →
          u.totalEarnings ≤ v.totalEarnings) := by
  refine ⟨?_, ?_, ?_⟩
  · intro s op uid u v hop hu hv
    rw [findUser_eq_some] at hu hv
    have h := stepAny_slots env s op hop uid
    rw [hu, hv] at h
    rcases h with h | ⟨w, hw, he⟩
    · exact absurd h (by simp)
    · cases hw; exact he
  · intro s op uid v hnone hv
    rw [findUser_eq_some] at hv
    cases hop : AnyOp.isPay op with
    | false =>
      have h := stepAny_slots env s op hop uid
      rw [hnone] at h
      exact h v hv
    | true =>
      cases op with
      | account op => exact absurd hop (by simp [AnyOp.isPay])
      | lifecycle op =>
        cases op with
        | pay user id transactionId notes now fault =>
          rcases pay_slots s user id transactionId notes now fault uid with
            h | ⟨a, amount, u, _, _, hu, _⟩
          · rw [hnone] at h
            exact h v hv
          · rw [hnone] at hu; exact absurd hu (by simp)
        | _ => exact absurd hop (by simp [AnyOp.isPay])
  · intro users categories ops later uid u v hu hv
    rw [runAny_append] at hv
    rw [findUser_eq_some] at hu hv
    have h := runAny_grows env later (runAny env (initialStore users categories) ops)
      (runAny_payout env ops _ (initialStore_payout users categories)) uid
    rw [hu, hv] at h
    rcases h with h | ⟨w, hw, he⟩
    · exact absurd h (by simp)
    · cases hw; exact he

/-- C20 at a concrete execution: the helper account has earned nothing when the
payout of 70 is decided, and 70 after Pay and a later role update. -/
theorem earnings_grow_only_by_pay_witness :
    (runAny scenarioEnv (initialStore demoStore.users scenarioStart.categories)
        earningsOpsBefore).findUser 0 = some demoHelperUser
      ∧ (runAny scenarioEnv (initialStore demoStore.users scenarioStart.categories)
          (earningsOpsBefore ++ earningsOpsAfter)).findUser 0
          = some { demoHelperUser with roles := ["helper", "client"], totalEarnings := 70 }
      ∧ demoHelperUser.totalEarnings
          ≤ ({ demoHelperUser with roles := ["helper", "client"], totalEarnings := 70 } :
              User).totalEarnings :=
  ⟨by decide!, by decide!,
    (earnings_grow_only_by_pay scenarioEnv).2.2 demoStore.users scenarioStart.categories
      earningsOpsBefore earningsOpsAfter 0 demoHelperUser
      { demoHelperUser with roles := ["helper", "client"], totalEarnings := 70 }
      (by decide!) (by decide!)⟩

/-! ## C21: the checks at creation -/

theorem insertAssignment_some (env : Env) (s s1 : Store) (d : Instant) (p : ℚ)
    (mk : Instant → ℚ → Assignment) (h : s.insertAssignment env (some d) (some p) mk = some s1) :
    s1 = { s with assignments := s.assignments ++ [mk d p] } := by
  unfold Store.insertAssignment at h
  dsimp only at h
  split at h
  · exact (Option.some.inj h).symm
  · exact absurd h (by simp)

theorem findOneUser_some (s : Store) (filter : User → Bool) (id : ObjectId) (u : User)
    (h : s.findOneUser filter = some (id, u)) :
    s.findUser id = some u ∧ filter u = true := by
  unfold Store.findOneUser at h
  have hmem := List.mem_of_mem_head? h
  rw [List.mem_filterMap] at hmem
  obtain ⟨⟨i, ou⟩, hin, hf⟩ := hmem
  rw [List.mem_enum_iff_getElem?] at hin
  cases ou with
  | none => simp at hf
  | some v =>
    by_cases hv : filter v = true
    · simp only [Option.some_bind, hv, if_true, Option.some.injEq, Prod.mk.injEq] at hf
      obtain ⟨rfl, rfl⟩ := hf
      exact ⟨by simp [Store.findUser, hin], hv⟩
    · simp [hv] at hf

theorem findUser_append_new (s : Store) (u : User) :
    ({ s with users := s.users ++ [some u] } : Store).findUser s.users.length = some u := by
  simp [Store.findUser]

theorem ensureClient_owner (s s1 : Store) (interaction : Interaction) (userId : ObjectId)
    (h : s.ensureClient interaction = some (s1, userId)) :
    s1.categories = s.categories
      ∧ ∃ u, s1.findUser userId = some u ∧ u.discordId = some interaction.userId := by
  unfold Store.ensureClient at h
  split at h
  · split at h
    · exact absurd h (by simp)
    · dsimp only at h
      cases h
      exact ⟨rfl, _, findUser_append_new s _, rfl⟩
  · rename_i uid user hfound
    obtain ⟨hu, hd⟩ := findOneUser_some s _ uid user hfound
    have hd2 : user.discordId = some interaction.userId := by simpa using hd
    split at h
    · cases h
      refine ⟨rfl, { user with roles := user.roles ++ ["client"] }, ?_, hd2⟩
      rw [findUser_updateUser, if_pos rfl, hu]
      rfl
    · cases h
      exact ⟨rfl, user, hu, hd2⟩

/-- The ticket flow stores an assignment only for a category that exists, and
the stored document is pending, without helper, owned by the account of the
Discord user, with the amount and complexity it was called with. -/
theorem ticket_create_checked (env : Env) (s : Store) (interaction : Interaction)
    (title description categoryName : String) (paymentAmount : ℚ) (deadlineString : String)
    (complexity : String) (world : TicketWorld) :
    (createAssignmentTicket env s interaction title description categoryName paymentAmount
        deadlineString complexity world).store.assignments = s.assignments
      ∨ ∃ (category : Category) (doc : Assignment) (owner : User),
          category ∈ s.categories ∧ category.name = categoryName
          ∧ (createAssignmentTicket env s interaction title description categoryName paymentAmount
              deadlineString complexity world).store.assignments = s.assignments ++ [doc]
          ∧ doc.status = Status.pending ∧ doc.helperId = none
          ∧ doc.paymentAmount = paymentAmount ∧ doc.complexity = complexity
          ∧ doc.category = categoryName
          ∧ (createAssignmentTicket env s interaction title description categoryName paymentAmount
              deadlineString complexity world).store.findUser doc.ownerId = some owner
          ∧ owner.discordId = some interaction.userId := by
  unfold createAssignmentTicket
  split
  · exact Or.inl rfl
  split
  · exact Or.inl rfl
  rename_i deadline hdl
  split
  · exact Or.inl rfl
  rename_i s1 userId hens
  have hkeep := (ensureClient_assignments s s1 interaction userId hens).1
  obtain ⟨hcat, owner, howner, hdiscord⟩ := ensureClient_owner s s1 interaction userId hens
  split
  · exact Or.inl hkeep
  rename_i category hfindcat
  have hmem : category ∈ s.categories := by
    rw [← hcat]; exact List.mem_of_find?_eq_some hfindcat
  have hname : category.name = categoryName := by
    have := List.find?_some hfindcat
    simpa using this
  split
  · exact Or.inl hkeep
  split
  · exact Or.inl hkeep
  rename_i channelId hchan
  split
  · exact Or.inl hkeep
  rename_i s2 hins
  have hs2 := insertAssignment_some env s1 s2 deadline paymentAmount _ hins
  have hresult : s2.assignments = s.assignments ++
      [{ ownerId := userId, title := title, description := description,
         complexity := complexity, category := category.name, deadline := deadline,
         paymentAmount := paymentAmount, attachments := [], status := Status.pending,
         discordTicketChannelId := some channelId }] := by
    rw [hs2, ← hkeep]
  have huser : s2.findUser userId = some owner := by
    rw [hs2]; exact howner
  split
  · exact Or.inr ⟨category, _, owner, hmem, hname, hresult, rfl, rfl, rfl, rfl, hname,
      huser, hdiscord⟩
  · exact Or.inr ⟨category, _, owner, hmem, hname, hresult, rfl, rfl, rfl, rfl, hname,
      huser, hdiscord⟩

/-- The modal flow meets the creation contract: it stores an assignment only
when the payment text parses to an amount above 0, the complexity in lower case
is low, medium or high and the category exists; the stored document is
pending, without helper and owned by the account of the Discord user.  In every
other case no assignment is stored. -/
theorem modal_create_checked (env : Env) (s : Store) (interaction : Interaction)
    (title description categoryName paymentInput deadlineString complexityInput : String)
    (world : TicketWorld) :
    (createAssignmentModal env s interaction title description categoryName paymentInput
        deadlineString complexityInput world).store.assignments = s.assignments
      ∨ ∃ (amount : ℚ) (category : Category) (doc : Assignment) (owner : User),
          env.parseFloat paymentInput = some amount ∧ 0 < amount
          ∧ complexityInput.toLower ∈ ["low", "medium", "high"]
          ∧ category ∈ s.categories ∧ category.name = categoryName
          ∧ (createAssignmentModal env s interaction title description categoryName paymentInput
              deadlineString complexityInput world).store.assignments = s.assignments ++ [doc]
          ∧ doc.status = Status.pending ∧ doc.helperId = none
          ∧ doc.paymentAmount = amount ∧ doc.complexity = complexityInput.toLower
          ∧ doc.category = categoryName
          ∧ (createAssignmentModal env s interaction title description categoryName paymentInput
              deadlineString complexityInput world).store.findUser doc.ownerId = some owner
          ∧ owner.discordId = some interaction.userId := by
  unfold createAssignmentModal
  dsimp only
  split
  · exact Or.inl rfl
  rename_i amount hparse
  split
  · exact Or.inl rfl
  rename_i hpos
  split
  · exact Or.inl rfl
  rename_i hcx
  rcases ticket_create_checked env s interaction title description categoryName amount
      deadlineString complexityInput.toLower world with h | ⟨category, doc, owner, h⟩
  · exact Or.inl h
  · refine Or.inr ⟨amount, category, doc, owner, hparse, lt_of_not_ge hpos, ?_, h⟩
    have h2 := hcx
    simp at h2
    simp only [List.mem_cons, List.mem_singleton, List.mem_nil_iff, or_false]
    tauto

theorem insertAssignment_categories (env : Env) (s : Store) (cs : List Category)
    (deadline : Option Instant) (paymentAmount : Option ℚ) (mk : Instant → ℚ → Assignment) :
    ({ s with categories := cs } : Store).insertAssignment env deadline paymentAmount mk
      = (s.insertAssignment env deadline paymentAmount mk).map
          (fun s1 => { s1 with categories := cs }) := by
  unfold Store.insertAssignment
  split
  · dsimp only
    split <;> rfl
  · rfl

/-- The assignments that POST /assignments leaves in the store do not depend on
the Category collection: the route reads it after the save, and only to choose
the channel of the notification.  When no channel send throws, the reply does
not depend on it either. -/
theorem create_ignores_categories (env : Env) (s : Store) (user : AuthUser)
    (body : AssignmentBody) (files : Option (List UploadedFile)) (channelSendThrows : Bool)
    (cs : List Category) :
    (createAssignment env { s with categories := cs } user body files
        channelSendThrows).store.assignments
      = (createAssignment env s user body files channelSendThrows).store.assignments
      ∧ (createAssignment env { s with categories := cs } user body files false).response
        = (createAssignment env s user body files false).response := by
  unfold createAssignment
  split
  · exact ⟨rfl, rfl⟩
  · rw [insertAssignment_categories]
    cases s.insertAssignment env (env.parseDate (body.deadline.getD ""))
        (env.parseFloat (body.paymentAmount.getD "")) _ with
    | none => exact ⟨rfl, rfl⟩
    | some s1 =>
      simp only [Option.map_some', Bool.and_false, Bool.false_eq_true, if_false]
      constructor
      · repeat' split
        all_goals rfl
      · repeat' split
        all_goals rfl

/-- With the model file as it is committed, under which no assignment document
passes validation, POST /assignments stores nothing and answers 400 or 500. -/
theorem create_rejected_by_user_schema (env : Env) (s : Store) (user : AuthUser)
    (body : AssignmentBody) (files : Option (List UploadedFile)) (channelSendThrows : Bool)
    (hschema : ∀ doc, env.schemaValid doc = false) :
    (createAssignment env s user body files channelSendThrows).store = s
      ∧ ((createAssignment env s user body files channelSendThrows).response.code = 400
        ∨ (createAssignment env s user body files channelSendThrows).response.code = 500) := by
  have hnone : ∀ d p mk, s.insertAssignment env d p mk = none := by
    intro d p mk
    unfold Store.insertAssignment
    split
    · simp [hschema]
    · rfl
  unfold createAssignment
  split
  · exact ⟨rfl, Or.inl rfl⟩
  · rw [hnone]
    exact ⟨rfl, Or.inr rfl⟩

/-- What POST /assignments stores passed the validators of the schema, and is
pending, without helper, owned by the caller and in the category of the
request, whether a Category of that name exists or not; with the validators of
`assignmentSchemaValid` the amount is above 0 and the complexity is low, medium
or high. -/
theorem create_route_checked (env : Env) (s : Store) (user : AuthUser) (body : AssignmentBody)
    (files : Option (List UploadedFile)) (channelSendThrows : Bool) :
    (createAssignment env s user body files channelSendThrows).store = s
      ∨ ∃ doc : Assignment,
          (createAssignment env s user body files channelSendThrows).store
              = { s with assignments := s.assignments ++ [doc] }
          ∧ env.schemaValid doc = true
          ∧ doc.status = Status.pending ∧ doc.helperId = none ∧ doc.ownerId = user.userId
          ∧ some doc.category = body.category
          ∧ (env.schemaValid = assignmentSchemaValid →
              0 < doc.paymentAmount ∧ doc.complexity ∈ ["low", "medium", "high"]) := by
  unfold createAssignment
  split
  · exact Or.inl rfl
  rename_i hpresent
  have hcat : some (body.category.getD "") = body.category := by
    cases hc : body.category with
    | none => simp [hc, truthy] at hpresent
    | some c => rfl
  split
  · exact Or.inl rfl
  rename_i s1 hins
  unfold Store.insertAssignment at hins
  split at hins
  · rename_i d amount
    dsimp only at hins
    split at hins
    · rename_i hvalid
      have hs1 := (Option.some.inj hins).symm
      have hdoc : ∀ r n, ({ store := s1, response := r, notifications := n } : Outcome).store = s
          ∨ ∃ doc : Assignment,
            ({ store := s1, response := r, notifications := n } : Outcome).store
                = { s with assignments := s.assignments ++ [doc] }
            ∧ env.schemaValid doc = true
            ∧ doc.status = Status.pending ∧ doc.helperId = none ∧ doc.ownerId = user.userId
            ∧ some doc.category = body.category
            ∧ (env.schemaValid = assignmentSchemaValid →
                0 < doc.paymentAmount ∧ doc.complexity ∈ ["low", "medium", "high"]) := by
        intro r n
        refine Or.inr ⟨_, hs1, hvalid, rfl, rfl, rfl, hcat, fun hschema => ?_⟩
        rw [hschema] at hvalid
        unfold assignmentSchemaValid at hvalid
        simp only [Bool.and_eq_true, decide_eq_true_eq] at hvalid
        exact ⟨hvalid.2, by simpa using hvalid.1⟩
      repeat' split
      all_goals exact hdoc _ _
    · exact absurd hins (by simp)
  · exact absurd hins (by simp)

/-- C21 (the code departs from the claim at POST /assignments). The route
checks only that the six fields are present and leaves the rest to the
validators of the schema and to nothing else: under the validators the data
model names, a request with a valid amount and complexity that names a category
which does not exist is answered 201 and the assignment is stored, pending,
without helper and owned by the caller; so is the scenario request for
python-help while the Category collection is empty.  Whatever the validators
are, the assignments the route stores, and its reply when no channel send
throws, do not depend on the Category collection, so a request that is stored
at all is stored as well when no Category exists.  A payment amount of -5 with
the complexity extreme fails the validators: the route answers 500 and stores
nothing. -/
theorem create_route_skips_checks :
    scenarioStart.categories.find? (fun c => c.name == "no-such-category") = none
      ∧ (createAssignment scenarioEnv scenarioStart demoClient
          { scenarioBody with category := some "no-such-category" } none false).response.code
          = 201
      ∧ ((createAssignment scenarioEnv scenarioStart demoClient
          { scenarioBody with category := some "no-such-category" } none false).store.findAssignment
            0).map (fun a => (a.category, a.status, a.helperId, a.ownerId))
          = some ("no-such-category", Status.pending, none, demoClient.userId)
      ∧ unseededStart.categories = []
      ∧ (createAssignment scenarioEnv unseededStart demoClient scenarioBody none
          false).response.code = 201
      ∧ ((createAssignment scenarioEnv unseededStart demoClient scenarioBody none
          false).store.findAssignment 0).map (fun a => (a.category, a.status, a.helperId, a.ownerId))
          = some ("python-help", Status.pending, none, demoClient.userId)
      ∧ (∀ (env : Env) (s : Store) (user : AuthUser) (body : AssignmentBody)
          (files : Option (List UploadedFile)) (channelSendThrows : Bool) (cs : List Category),
          (createAssignment env { s with categories := cs } user body files
              channelSendThrows).store.assignments
            = (createAssignment env s user body files channelSendThrows).store.assignments
          ∧ (createAssignment env { s with categories := cs } user body files false).response
            = (createAssignment env s user body files false).response)
      ∧ (createAssignment negativeEnv scenarioStart demoClient
          { scenarioBody with complexity := some "extreme", paymentAmount := some "-5" }
          none false).response.code = 500
      ∧ (createAssignment negativeEnv scenarioStart demoClient
          { scenarioBody with complexity := some "extreme", paymentAmount := some "-5" }
          none false).store = scenarioStart := by
  refine ⟨by decide, by decide, by decide, rfl, by decide, by decide,
    fun env s user body files t cs => create_ignores_categories env s user body files t cs,
    by decide, by decide⟩

/-! ## C22: notifications after the saved transition -/

theorem complete_store_any_dm (s : Store) (user : AuthUser) (id : ObjectId)
    (files : Option (List UploadedFile)) (now : Instant) (dm dm2 : DmOutcome) :
    (completeAssignment s user id files now dm).store
      = (completeAssignment s user id files now dm2).store := by
  unfold completeAssignment rolesDenied
  dsimp only
  repeat' split
  all_goals rfl

/-- The outcome of a notification never undoes or alters the saved transition:
the stores that approve_work, request_revision and Complete leave behind do not
depend on what becomes of the direct message. -/
theorem notification_never_undoes (env : Env) (s : Store) (interaction : Interaction)
    (user : AuthUser) (id : ObjectId) (feedback : String) (files : Option (List UploadedFile))
    (now : Instant) (dm dm2 : DmOutcome) :
    (approveWork env s interaction id dm).store = (approveWork env s interaction id dm2).store
      ∧ (requestRevision env s interaction id feedback dm).store
          = (requestRevision env s interaction id feedback dm2).store
      ∧ (completeAssignment s user id files now dm).store
          = (completeAssignment s user id files now dm2).store := by
  refine ⟨?_, ?_, complete_store_any_dm s user id files now dm dm2⟩
  · cases hfind : s.findAssignment id with
    | none => simp [approveWork, hfind]
    | some a =>
      rw [approveWork_store env s interaction id a dm hfind,
        approveWork_store env s interaction id a dm2 hfind]
  · cases hfind : s.findAssignment id with
    | none => simp [requestRevision, hfind]
    | some a =>
      rw [requestRevision_store env s interaction id a feedback dm hfind,
        requestRevision_store env s interaction id a feedback dm2 hfind]

/-- C22 (the code departs from the claim). The helper has a Discord identity
and the owner approves from Discord: the transition to ready_for_payout is
saved and the reply says approved, but the line after the delivered message
names an undeclared variable, so the handler ends in its catch and replaces the
reply by a failure; the same happens when the message cannot be sent, and in
request_revision.  Complete answers 500 after saving pending_client_review
when the message to the owner cannot be sent.  In each case the saved
transition stays. -/
theorem notification_reports_failure :
    (approveWork demoEnv notifiedReviewStore demoOwnerInteraction 0 DmOutcome.delivered).replies
        = [CommandReply.approved, CommandReply.failedToApprove]
      ∧ ((approveWork demoEnv notifiedReviewStore demoOwnerInteraction 0
          DmOutcome.delivered).store.findAssignment 0).map (fun a => a.status)
          = some Status.ready_for_payout
      ∧ (approveWork demoEnv notifiedReviewStore demoOwnerInteraction 0
          DmOutcome.sendThrows).replies
          = [CommandReply.approved, CommandReply.failedToApprove]
      ∧ (requestRevision demoEnv notifiedReviewStore demoOwnerInteraction 0 "add tests"
          DmOutcome.delivered).replies
          = [CommandReply.revisionRequested, CommandReply.failedToRequestRevision]
      ∧ ((requestRevision demoEnv notifiedReviewStore demoOwnerInteraction 0 "add tests"
          DmOutcome.delivered).store.findAssignment 0).map (fun a => a.status)
          = some Status.accepted
      ∧ (approveWork demoEnv notifiedReviewStore demoOwnerInteraction 0
          DmOutcome.fetchedNothing).replies = [CommandReply.approved]
      ∧ (completeAssignment demoAcceptedStore demoHelper 0 none 60
          DmOutcome.fetchThrows).response.code = 500
      ∧ ((completeAssignment demoAcceptedStore demoHelper 0 none 60
          DmOutcome.fetchThrows).store.findAssignment 0).map (fun a => a.status)
          = some Status.pending_client_review := by
  refine ⟨by decide, by decide, by decide, by decide, by decide, by decide, by decide,
    by decide⟩

/-! ## C23: owner and helper of an assignment -/

theorem quietMove_owner (x y : Option Assignment) (h : QuietMove x y) (a : Assignment)
    (hx : x = some a) : ∃ b, y = some b ∧ b.ownerId = a.ownerId := by
  cases h with
  | same x => exact ⟨a, hx, rfl⟩
  | created a hs hh hp hf hpaid => exact absurd hx (by simp)
  | accepted a0 h hs hh0 => cases hx; exact ⟨_, rfl, rfl⟩
  | completed a0 h work now hh0 hs => cases hx; exact ⟨_, rfl, rfl⟩
  | approved a0 hs => cases hx; exact ⟨_, rfl, rfl⟩
  | revised a0 hs => cases hx; exact ⟨_, rfl, rfl⟩
  | payoutSet a0 x hx0 => cases hx; exact ⟨_, rfl, rfl⟩
  | overdue a0 hs => cases hx; exact ⟨_, rfl, rfl⟩

theorem docMove_owner (x y : Option Assignment) (h : DocMove x y) (a : Assignment)
    (hx : x = some a) : ∃ b, y = some b ∧ b.ownerId = a.ownerId := by
  cases h with
  | quiet x y h => exact quietMove_owner x y h a hx
  | paid a0 h amount now hs hh0 hp => cases hx; exact ⟨_, rfl, rfl⟩

theorem stepAny_findAssignment_account (env : Env) (s : Store) (op : UserOp) (id : ObjectId) :
    (stepAny env s (AnyOp.account op)).findAssignment id = s.findAssignment id := by
  unfold Store.findAssignment
  rw [show (stepAny env s (AnyOp.account op)).assignments = s.assignments from
    (stepUser_assignments env s op).1]

theorem stepAny_frame (env : Env) (s : Store) (op : AnyOp) (id : ObjectId) (a : Assignment)
    (hfind : s.findAssignment id = some a) :
    ∃ b, (stepAny env s op).findAssignment id = some b ∧ b.ownerId = a.ownerId
      ∧ ∀ h, a.helperId = some h → b.helperId = some h := by
  cases op with
  | lifecycle op =>
    obtain ⟨b, hb, hown⟩ := docMove_owner _ _ (step_docMove env s op id) a hfind
    refine ⟨b, hb, hown, fun h hh => ?_⟩
    obtain ⟨b2, hb2, hh2⟩ := docMove_helper _ _ (step_docMove env s op id) a hfind h hh
    have hbb : some b = some b2 := (hb.symm.trans hb2 : _)
    cases hbb
    exact hh2
  | account op =>
    refine ⟨a, ?_, rfl, fun h hh => hh⟩
    rw [stepAny_findAssignment_account]
    exact hfind

/-- C23. For every store, every assignment a in it and every sequence of
operations run one after the other (creation, Accept, Complete, review,
ApproveWork, RequestRevision, SetHelperPayout, Pay, the sweep, storage
failures included, and the operations on user accounts), the assignment is
still stored under its id afterwards, with the owner it had, and, if it had a
helper, with that same helper. -/
theorem owner_and_helper_kept (env : Env) (s : Store) (ops : List AnyOp) (id : ObjectId)
    (a : Assignment) (hfind : s.findAssignment id = some a) :
    ∃ b, (runAny env s ops).findAssignment id = some b ∧ b.ownerId = a.ownerId
      ∧ ∀ h, a.helperId = some h → b.helperId = some h := by
  induction ops generalizing s a with
  | nil => exact ⟨a, hfind, rfl, fun h hh => hh⟩
  | cons op ops ih =>
    obtain ⟨b, hb, hown, hhelp⟩ := stepAny_frame env s op id a hfind
    obtain ⟨c, hc, hown2, hhelp2⟩ := ih (stepAny env s op) b hb
    rw [runAny_cons]
    exact ⟨c, hc, hown2.trans hown, fun h hh => hhelp2 h (hhelp h hh)⟩

/-- C23 at a concrete execution: the assignment accepted by helper 0 goes
through a revision round, an Accept by another helper, approval, payment, a
late payout change, the daily check and the deletion of its owner account. -/
theorem owner_and_helper_kept_witness :
    ∃ b, (runAny scenarioEnv demoAcceptedStore afterAcceptOps).findAssignment 0 = some b
      ∧ b.ownerId = ({ demoAssignment with helperId := some 0, status := Status.accepted } :
          Assignment).ownerId
      ∧ ∀ h, ({ demoAssignment with helperId := some 0, status := Status.accepted } :
          Assignment).helperId = some h → b.helperId = some h :=
  owner_and_helper_kept scenarioEnv demoAcceptedStore afterAcceptOps 0
    { demoAssignment with helperId := some 0, status := Status.accepted } rfl

/-! ## C24: the admin flag -/

theorem slotSound_same (P : User → Prop) (x : Option (Option User)) : SlotSound P x x :=
  fun h => h

theorem slotSound_trans (P : User → Prop) (x y z : Option (Option User))
    (h1 : SlotSound P x y) (h2 : SlotSound P y z) : SlotSound P x z :=
  fun h => h2 (h1 h)

theorem slotSound_updateUser (P : User → Prop) (s : Store) (id : ObjectId) (f : User → User)
    (hf : ∀ u, P u → P (f u)) (i : Nat) :
    SlotSound P s.users[i]? (s.updateUser id f).users[i]? := by
  intro h v hv
  unfold Store.updateUser at hv
  dsimp only at hv
  by_cases hi : id = i
  · subst hi
    rw [List.getElem?_modify_eq] at hv
    rcases hl : s.users[id]? with _ | _ | u
    · rw [hl] at hv; simp at hv
    · rw [hl] at hv; simp at hv
    · rw [hl] at hv
      simp only [Option.map_eq_map, Option.map_some', Option.some.injEq] at hv
      rw [← hv]
      exact hf u (h u hl)
  · rw [List.getElem?_modify_ne _ _ hi] at hv
    exact h v hv

theorem slotSound_append (P : User → Prop) (l : List (Option User)) (u0 : User) (h0 : P u0)
    (i : Nat) : SlotSound P l[i]? (l ++ [some u0])[i]? := by
  intro h v hv
  by_cases hi : i < l.length
  · rw [List.getElem?_append_left hi] at hv
    exact h v hv
  · rw [List.getElem?_append_right (Nat.le_of_not_lt hi)] at hv
    rcases hk : i - l.length with _ | k
    · rw [hk] at hv
      simp only [List.getElem?_cons_zero, Option.some.injEq] at hv
      rw [← hv]; exact h0
    · rw [hk] at hv
      simp at hv

theorem slotSound_set (P : User → Prop) (l : List (Option User)) (j i : Nat) :
    SlotSound P l[i]? (l.set j none)[i]? := by
  intro h v hv
  by_cases hji : j = i
  · subst hji
    by_cases hj : j < l.length
    · rw [List.getElem?_set_self hj] at hv
      simp at hv
    · rw [List.getElem?_eq_none (by rw [List.length_set]; exact Nat.le_of_not_lt hj)] at hv
      simp at hv
  · rw [List.getElem?_set_ne hji] at hv
    exact h v hv

theorem slotSound_users (P : User → Prop) (s t : Store) (h : t.users = s.users) (i : Nat) :
    SlotSound P s.users[i]? t.users[i]? := by
  rw [h]; exact slotSound_same P (s.users[i]?)

theorem allUsers_of_slots (P : User → Prop) (s t : Store)
    (h : ∀ i : Nat, SlotSound P s.users[i]? t.users[i]?) (hs : s.allUsers P) :
    t.allUsers P := by
  intro uid v hv
  rw [findUser_eq_some] at hv
  exact h uid (fun u hu => hs uid u ((findUser_eq_some s uid u).2 hu)) v hv

theorem adminFlag_congr (u v : User) (hr : v.roles = u.roles) (ha : v.isAdmin = u.isAdmin)
    (h : u.adminFlagSound) : v.adminFlagSound := by
  unfold User.adminFlagSound at *
  rw [hr, ha]; exact h

theorem adminFlag_pushClient (u : User) (h : u.adminFlagSound) :
    ({ u with roles := u.roles ++ ["client"] } : User).adminFlagSound := by
  unfold User.adminFlagSound at *
  simp only [List.mem_append, List.mem_singleton]
  constructor
  · intro h1; exact Or.inl (h.1 h1)
  · rintro (h1 | h1)
    · exact h.2 h1
    · exact absurd h1 (by decide)

theorem adminFlag_setRoles (u : User) (roles : List String) :
    ({ u with roles := roles, isAdmin := roles.contains "admin" } : User).adminFlagSound := by
  unfold User.adminFlagSound
  simp

theorem adminFlag_ensured (u : User) (username : String) (email : Option String)
    (authType : String) (isActive : Bool) :
    ({ u with roles := if !u.roles.contains "admin" then u.roles ++ ["admin"] else u.roles,
              isAdmin := true, username := username, email := email, authType := authType,
              isActive := isActive } : User).adminFlagSound := by
  unfold User.adminFlagSound
  by_cases h : "admin" ∈ u.roles
  · simp [h]
  · simp [h]

theorem ensureClient_adminFlag (s s1 : Store) (interaction : Interaction) (userId : ObjectId)
    (h : s.ensureClient interaction = some (s1, userId)) (i : Nat) :
    SlotSound User.adminFlagSound s.users[i]? s1.users[i]? := by
  unfold Store.ensureClient at h
  repeat' split at h
  all_goals try dsimp only at h
  all_goals cases h
  all_goals first
    | exact slotSound_same _ _
    | (apply slotSound_append; simp [User.adminFlagSound])
    | (apply slotSound_updateUser; intro u hu; exact adminFlag_pushClient u hu)

theorem ticket_adminFlag (env : Env) (s : Store) (interaction : Interaction)
    (title description categoryName : String) (paymentAmount : ℚ) (deadlineString : String)
    (complexity : String) (world : TicketWorld) (i : Nat) :
    SlotSound User.adminFlagSound s.users[i]?
      (createAssignmentTicket env s interaction title description categoryName paymentAmount
        deadlineString complexity world).store.users[i]? := by
  unfold createAssignmentTicket
  split
  · exact slotSound_same _ _
  split
  · exact slotSound_same _ _
  split
  · exact slotSound_same _ _
  rename_i s1 userId hens
  have h1 := ensureClient_adminFlag s s1 interaction userId hens i
  repeat' split
  all_goals first
    | exact h1
    | (obtain ⟨d0, p0, h⟩ := insertAssignment_eq env s1 _ _ _ _ (by assumption)
       rw [h]
       exact h1)

theorem modal_adminFlag (env : Env) (s : Store) (interaction : Interaction)
    (title description categoryName paymentInput deadlineString complexityInput : String)
    (world : TicketWorld) (i : Nat) :
    SlotSound User.adminFlagSound s.users[i]?
      (createAssignmentModal env s interaction title description categoryName paymentInput
        deadlineString complexityInput world).store.users[i]? := by
  unfold createAssignmentModal
  try dsimp only
  repeat' split
  all_goals first
    | exact slotSound_same _ _
    | exact ticket_adminFlag _ _ _ _ _ _ _ _ _ _ i

theorem pay_adminFlag (s : Store) (user : AuthUser) (id : ObjectId)
    (transactionId notes : Option String) (now : Instant) (fault : Option PayFault) (i : Nat) :
    SlotSound User.adminFlagSound s.users[i]?
      (payAssignment s user id transactionId notes now fault).store.users[i]? := by
  rcases pay_ledger s user id transactionId notes now fault with
    h | ⟨a, h, amount, _, _, _, _, _, h6⟩
  · rw [h]; exact slotSound_same _ _
  · rcases h6 with ⟨_, _, hu⟩ | ⟨_, _, hu⟩ | ⟨_, _, hu⟩
    · rw [hu]; exact slotSound_same _ _
    · rw [hu]; exact slotSound_same _ _
    · rw [hu]
      apply slotSound_updateUser
      intro u hu
      exact adminFlag_congr u _ rfl rfl hu

theorem step_adminFlag (env : Env) (s : Store) (op : Op) (i : Nat) :
    SlotSound User.adminFlagSound s.users[i]? (step env s op).users[i]? := by
  cases op with
  | create user body files channelSendThrows =>
    exact slotSound_users _ _ _ (create_rest _ _ _ _ _ _).2 i
  | createModal interaction title description categoryName paymentInput deadlineString
      complexityInput world =>
    exact modal_adminFlag _ _ _ _ _ _ _ _ _ _ i
  | accept user id => exact slotSound_users _ _ _ (accept_rest _ _ _).2 i
  | complete user id files now dm => exact slotSound_users _ _ _ (complete_rest _ _ _ _ _ _).2 i
  | review user id action feedback => exact slotSound_users _ _ _ (review_rest _ _ _ _ _).2 i
  | approveWork interaction id dm => exact slotSound_users _ _ _ (approveWork_rest _ _ _ _ _).2 i
  | requestRevision interaction id feedback dm =>
    exact slotSound_users _ _ _ (requestRevision_rest _ _ _ _ _ _).2 i
  | setPayout user id v => exact slotSound_users _ _ _ (setPayout_rest _ _ _ _).2 i
  | dailyStatusCheck now failing =>
    exact slotSound_users _ _ _ (dailyStatusLoop_rest _ _ _ _).1 i
  | pay user id transactionId notes now fault => exact pay_adminFlag _ _ _ _ _ _ _ i

theorem ensureAdmin_adminFlag (s s1 : Store) (adminData : AdminData) (saveFails : Bool)
    (hdata : adminData.isAdmin = true ∧ "admin" ∈ adminData.roles)
    (h : ensureAdmin s adminData saveFails = some s1) (i : Nat) :
    SlotSound User.adminFlagSound s.users[i]? s1.users[i]? := by
  unfold ensureAdmin at h
  dsimp only at h
  repeat' split at h
  all_goals cases h
  all_goals first
    | exact slotSound_same _ _
    | (apply slotSound_append; simp [User.adminFlagSound, hdata.1, hdata.2])
    | (apply slotSound_updateUser; intro u _; exact adminFlag_ensured u _ _ _ _)

theorem ensureAdminsLoop_adminFlag (failing l : List AdminData)
    (hl : ∀ d ∈ l, d.isAdmin = true ∧ "admin" ∈ d.roles) (s : Store) (i : Nat) :
    SlotSound User.adminFlagSound s.users[i]? (ensureAdminsLoop failing l s).users[i]? := by
  induction l generalizing s with
  | nil => exact slotSound_same _ _
  | cons adminData rest ih =>
    unfold ensureAdminsLoop
    split
    · exact slotSound_same _ _
    · rename_i s1 h1
      exact slotSound_trans _ _ _ _
        (ensureAdmin_adminFlag s s1 adminData _ (hl adminData (List.mem_cons_self _ _)) h1 i)
        (ih (fun d hd => hl d (List.mem_cons_of_mem _ hd)) s1)

theorem exchangeCode_adminFlag (s : Store) (code : Option String)
    (profile : Option DiscordProfile) (saveFails : Bool) (i : Nat) :
    SlotSound User.adminFlagSound s.users[i]?
      (exchangeCode s code profile saveFails).store.users[i]? := by
  unfold exchangeCode
  dsimp only
  repeat' split
  all_goals first
    | exact slotSound_same _ _
    | (apply slotSound_append; simp [User.adminFlagSound])
    | (apply slotSound_updateUser; intro u hu; exact adminFlag_congr u _ rfl rfl hu)

theorem registerHelper_adminFlag (s : Store) (request : RegisterRequest)
    (registrationClosed saveFails : Bool) (i : Nat) :
    SlotSound User.adminFlagSound s.users[i]?
      (registerHelper s request registrationClosed saveFails).store.users[i]? := by
  unfold registerHelper
  dsimp only
  repeat' split
  all_goals first
    | exact slotSound_same _ _
    | (apply slotSound_append; simp [User.adminFlagSound])

theorem deleteUser_adminFlag (s : Store) (user : AuthUser) (id : ObjectId)
    (spelledAsToken : Bool) (i : Nat) :
    SlotSound User.adminFlagSound s.users[i]?
      (deleteUser s user id spelledAsToken).store.users[i]? := by
  unfold deleteUser adminDenied
  try dsimp only
  repeat' split
  all_goals first
    | exact slotSound_same _ _
    | exact slotSound_set _ _ _ _

theorem updateUserRoles_adminFlag (s : Store) (user : AuthUser) (id : ObjectId)
    (roles : Option (List String)) (i : Nat) :
    SlotSound User.adminFlagSound s.users[i]?
      (updateUserRoles s user id roles).store.users[i]? := by
  unfold updateUserRoles adminDenied
  repeat' split
  all_goals first
    | exact slotSound_same _ _
    | (apply slotSound_updateUser; intro u _; exact adminFlag_setRoles u _)

theorem updateUserStatus_adminFlag (s : Store) (user : AuthUser) (id : ObjectId)
    (isActive : JsonValue) (i : Nat) :
    SlotSound User.adminFlagSound s.users[i]?
      (updateUserStatus s user id isActive).store.users[i]? := by
  unfold updateUserStatus adminDenied
  repeat' split
  all_goals first
    | exact slotSound_same _ _
    | (apply slotSound_updateUser; intro u hu; exact adminFlag_congr u _ rfl rfl hu)

theorem stepAny_adminFlag (env : Env) (s : Store) (op : AnyOp) (i : Nat) :
    SlotSound User.adminFlagSound s.users[i]? (stepAny env s op).users[i]? := by
  cases op with
  | lifecycle op => exact step_adminFlag env s op i
  | account op =>
    cases op with
    | ensureAdmins failing =>
      refine ensureAdminsLoop_adminFlag _ _ ?_ _ i
      intro d hd
      simp only [adminsToEnsure, List.mem_cons, List.mem_singleton, List.mem_nil_iff,
        or_false] at hd
      rcases hd with rfl | rfl <;> exact ⟨rfl, by simp⟩
    | signIn code profile saveFails => exact exchangeCode_adminFlag _ _ _ _ i
    | registerHelper request registrationClosed saveFails =>
      exact registerHelper_adminFlag _ _ _ _ i
    | deleteUser user id spelledAsToken => exact deleteUser_adminFlag _ _ _ _ i
    | updateRoles user id roles => exact updateUserRoles_adminFlag _ _ _ _ i
    | updateStatus user id isActive => exact updateUserStatus_adminFlag _ _ _ _ i

theorem runAny_allUsers (P : User → Prop) (env : Env) (ops : List AnyOp)
    (hstep : ∀ (s : Store) (op : AnyOp), op ∈ ops → ∀ i : Nat,
      SlotSound P s.users[i]? (stepAny env s op).users[i]?)
    (s : Store) (hs : s.allUsers P) : (runAny env s ops).allUsers P := by
  induction ops generalizing s with
  | nil => exact hs
  | cons op ops ih =>
    rw [runAny_cons]
    exact ih (fun s2 op2 h2 => hstep s2 op2 (List.mem_cons_of_mem _ h2)) _
      (allUsers_of_slots P s _ (hstep s op (List.mem_cons_self _ _)) hs)

/-- C24. If in a store the isAdmin flag of every account is true exactly when
its role set contains admin (as in a store without accounts), then the same
holds after every sequence of operations: Discord sign-in, ticket creation
with its auto-registration, helper registration, ensureAdminsExist, the admin
role update, the admin status update, user deletion and all lifecycle
operations, whatever saves fail. -/
theorem admin_flag_invariant (env : Env) (s : Store) (ops : List AnyOp)
    (hstart : ∀ uid u, s.findUser uid = some u → (u.isAdmin = true ↔ "admin" ∈ u.roles)) :
    ∀ uid u, (runAny env s ops).findUser uid = some u →
      (u.isAdmin = true ↔ "admin" ∈ u.roles) :=
  runAny_allUsers User.adminFlagSound env ops
    (fun s2 op _ i => stepAny_adminFlag env s2 op i) s hstart

/-- C24 at a concrete execution from a store without accounts, which ends with
five accounts, two of them created by the admin bootstrap and one promoted to
admin by a role update. -/
theorem admin_flag_invariant_witness :
    (runAny accountEnv (initialStore [] [{ name := "python-help" }]) accountOps).users.length = 5
      ∧ ((runAny accountEnv (initialStore [] [{ name := "python-help" }])
          accountOps).findUser 2).map (fun u => (u.username, u.roles, u.isAdmin))
          = some ("carl", ["helper", "admin"], true)
      ∧ ∀ uid u,
          (runAny accountEnv (initialStore [] [{ name := "python-help" }]) accountOps).findUser uid
            = some u →
          (u.isAdmin = true ↔ "admin" ∈ u.roles) :=
  ⟨by decide!, by decide!,
    admin_flag_invariant accountEnv (initialStore [] [{ name := "python-help" }]) accountOps
      (fun uid u h => absurd h (by simp [initialStore, Store.findUser]))⟩

/-! ## C25: helpers and their specializations -/

/-- Helper registration is answered 201 only with at least three specialized
categories; with fewer it is answered 400 and creates no account, and an
account it creates has the helper role and the categories of the request. -/
theorem registerHelper_checked (s : Store) (request : RegisterRequest)
    (registrationClosed saveFails : Bool) :
    ((registerHelper s request registrationClosed saveFails).store = s
        ∧ (registerHelper s request registrationClosed saveFails).response.code ≠ 201)
      ∨ ∃ categories, request.specializedCategories = CategoriesField.array categories
          ∧ 3 ≤ categories.length
          ∧ (registerHelper s request registrationClosed saveFails).response.code = 201
          ∧ (registerHelper s request registrationClosed saveFails).store
              = { s with users := s.users ++
                    [some { username := request.username, roles := ["helper"], isAdmin := false,
                            specializedCategories := categories, authType := "local",
                            isActive := true }] } := by
  unfold registerHelper
  dsimp only
  split
  · exact Or.inl ⟨rfl, by simp⟩
  split
  · exact Or.inl ⟨rfl, by simp⟩
  · exact Or.inl ⟨rfl, by simp⟩
  rename_i categories hcat
  split
  · exact Or.inl ⟨rfl, by simp⟩
  rename_i hlen
  split
  · exact Or.inl ⟨rfl, by simp⟩
  split
  · exact Or.inl ⟨rfl, by simp⟩
  split
  · exact Or.inl ⟨rfl, by simp⟩
  split
  · exact Or.inl ⟨rfl, by simp⟩
  · exact Or.inr ⟨categories, hcat, Nat.le_of_not_lt hlen, rfl, rfl⟩

theorem stepAny_specialized (env : Env) (s : Store) (op : AnyOp)
    (hop : AnyOp.isRegistrationOrRoles op = true) (i : Nat) :
    SlotSound (fun u => 3 ≤ u.specializedCategories.length) s.users[i]?
      (stepAny env s op).users[i]? := by
  cases op with
  | lifecycle op => exact absurd hop (by simp [AnyOp.isRegistrationOrRoles])
  | account op =>
    cases op with
    | registerHelper request registrationClosed saveFails =>
      rcases registerHelper_checked s request registrationClosed saveFails with
        h | ⟨categories, _, hlen, _, h⟩
      · have hs : stepAny env s (AnyOp.account
            (UserOp.registerHelper request registrationClosed saveFails)) = s := h.1
        rw [hs]; exact slotSound_same _ _
      · have hs : stepAny env s (AnyOp.account
            (UserOp.registerHelper request registrationClosed saveFails))
            = { s with users := s.users ++
                  [some { username := request.username, roles := ["helper"], isAdmin := false,
                          specializedCategories := categories, authType := "local",
                          isActive := true }] } := h
        rw [hs]
        exact slotSound_append _ _ _ hlen i
    | updateRoles user id roles =>
      show SlotSound _ s.users[i]? (updateUserRoles s user id roles).store.users[i]?
      unfold updateUserRoles adminDenied
      repeat' split
      all_goals first
        | exact slotSound_same _ _
        | (apply slotSound_updateUser; intro u hu; exact hu)
    | ensureAdmins failing => exact absurd hop (by simp [AnyOp.isRegistrationOrRoles])
    | signIn code profile saveFails => exact absurd hop (by simp [AnyOp.isRegistrationOrRoles])
    | deleteUser user id spelledAsToken =>
      exact absurd hop (by simp [AnyOp.isRegistrationOrRoles])
    | updateStatus user id isActive =>
      exact absurd hop (by simp [AnyOp.isRegistrationOrRoles])

/-- From a store without accounts, helper registrations and admin role updates
alone lead only to stores in which every account has at least three
specialized categories: every account there was registered as a helper. -/
theorem registered_helpers_specialized (env : Env) (categories : List Category)
    (ops : List AnyOp) (hops : ∀ op ∈ ops, AnyOp.isRegistrationOrRoles op = true) :
    ∀ uid u, (runAny env (initialStore [] categories) ops).findUser uid = some u →
      3 ≤ u.specializedCategories.length :=
  runAny_allUsers (fun u => 3 ≤ u.specializedCategories.length) env ops
    (fun s2 op hop i => stepAny_specialized env s2 op (hops op hop) i)
    (initialStore [] categories)
    (fun uid u h => absurd h (by simp [initialStore, Store.findUser]))

/-- C25 (the code departs from the claim). The admin role update stores
whatever roles it is given and does not look at the specializations: after
the admin bootstrap and a Discord sign-in, which creates a client with no
specialized category, the administrator sets the roles of that account to
helper; the call is answered 200 and the account then holds the helper role
with no specialization. -/
theorem role_update_makes_unspecialized_helper :
    ((runAny accountEnv (initialStore [] []) (helperPromotionOps.take 2)).findUser 2).map
        (fun u => (u.username, u.roles, u.specializedCategories))
        = some ("carl", ["client"], [])
      ∧ (updateUserRoles (runAny accountEnv (initialStore [] []) (helperPromotionOps.take 2))
          demoAdmin 2 (some ["helper"])).response.code = 200
      ∧ ((runAny accountEnv (initialStore [] []) helperPromotionOps).findUser 2).map
          (fun u => (u.username, u.roles, u.specializedCategories))
          = some ("carl", ["helper"], []) := by
  refine ⟨by decide, by decide, by decide⟩

/-! ## C26: deleting a user -/

/-- What the delete route does, for either spelling of the path parameter. -/
theorem deleteUser_spec (s : Store) (user : AuthUser) (id : ObjectId) (spelledAsToken : Bool) :
    ((deleteUser s user id spelledAsToken).response.code = 200 ↔
        user.isAdmin = true ∧ ¬ (spelledAsToken = true ∧ user.userId = id)
          ∧ (s.findUser id).isSome = true
          ∧ ∀ a ∈ s.assignments, (a.ownerId = id ∨ a.helperId = some id) →
              a.status = Status.paid ∨ a.status = Status.cancelled)
      ∧ ((deleteUser s user id spelledAsToken).response.code = 200 →
          (deleteUser s user id spelledAsToken).store = { s with users := s.users.set id none })
      ∧ ((deleteUser s user id spelledAsToken).response.code ≠ 200 →
          (deleteUser s user id spelledAsToken).store = s) := by
  have hcount : ((s.assignments.filter (fun a =>
        (a.ownerId == id || a.helperId == some id)
          && !([Status.paid, Status.cancelled].contains a.status))).length > 0)
      ↔ ¬ ∀ a ∈ s.assignments, (a.ownerId = id ∨ a.helperId = some id) →
          a.status = Status.paid ∨ a.status = Status.cancelled := by
    rw [gt_iff_lt, List.length_pos, ne_eq, List.filter_eq_nil_iff]
    simp only [Bool.and_eq_true, Bool.or_eq_true, beq_iff_eq, Bool.not_eq_true',
      List.contains_cons, List.contains_nil, Bool.or_false, Bool.or_eq_false_iff,
      beq_eq_false_iff_ne, ne_eq, not_and, not_not]
    constructor
    · intro h h2
      apply h
      intro a ha hown hnp
      rcases h2 a ha hown with h3 | h3
      · exact absurd h3 hnp
      · exact h3
    · intro h h2
      apply h
      intro a ha hown
      by_cases hp : a.status = Status.paid
      · exact Or.inl hp
      · exact Or.inr (h2 a ha hown hp)
  unfold deleteUser adminDenied authorizeAdmin
  dsimp only
  cases hadmin : user.isAdmin with
  | false => simp
  | true =>
    by_cases hself : spelledAsToken = true ∧ user.userId = id
    · simp [hself.1, hself.2]
    · have hself2 : (spelledAsToken && user.userId == id) = false := by
        cases spelledAsToken with
        | false => rfl
        | true =>
          have hne : user.userId ≠ id := fun h => hself ⟨rfl, h⟩
          simp [hne]
      simp only [Bool.not_true, Bool.false_eq_true, if_false, hself2]
      cases hfind : s.findUser id with
      | none => simp
      | some target =>
        by_cases hact : (s.assignments.filter (fun a =>
            (a.ownerId == id || a.helperId == some id)
              && !([Status.paid, Status.cancelled].contains a.status))).length > 0
        · have hno := hcount.1 hact
          simp only [hact, if_true]
          refine ⟨⟨fun h => absurd h (by simp), fun h => absurd h.2.2.2 hno⟩,
            fun h => absurd h (by simp), fun _ => trivial⟩
        · have hall := not_not.1 (fun h => hact (hcount.2 h))
          simp only [hact, if_false]
          refine ⟨⟨fun _ => ⟨trivial, hself, rfl, hall⟩, fun _ => trivial⟩, fun _ => trivial,
            fun h => absurd rfl h⟩

/-- C26 when the path parameter spells the id as the token does: the user is
removed exactly when the caller is an admin, the user is not the caller, the
user exists and every assignment that has the user as owner or helper is paid
or cancelled; the account is then gone and nothing else in the store has
changed; in every other case the call fails and the store is unchanged. -/
theorem deleteUser_spelled (s : Store) (user : AuthUser) (id : ObjectId) :
    ((deleteUser s user id true).response.code = 200 ↔
        user.isAdmin = true ∧ user.userId ≠ id ∧ (s.findUser id).isSome = true
          ∧ ∀ a ∈ s.assignments, (a.ownerId = id ∨ a.helperId = some id) →
              a.status = Status.paid ∨ a.status = Status.cancelled)
      ∧ ((deleteUser s user id true).response.code = 200 →
          (deleteUser s user id true).store.findUser id = none
            ∧ (∀ uid, uid ≠ id →
                (deleteUser s user id true).store.findUser uid = s.findUser uid)
            ∧ (deleteUser s user id true).store.assignments = s.assignments)
      ∧ ((deleteUser s user id true).response.code ≠ 200 →
          (deleteUser s user id true).store = s) := by
  obtain ⟨h1, h2, h3⟩ := deleteUser_spec s user id true
  refine ⟨?_, ?_, h3⟩
  · rw [h1]
    simp
  · intro hok
    rw [h2 hok]
    have hlt : id < s.users.length := by
      have hsome := (h1.1 hok).2.2.1
      by_contra hge
      have : s.findUser id = none := by
        simp [Store.findUser, List.getElem?_eq_none (Nat.le_of_not_lt hge)]
      rw [this] at hsome
      simp at hsome
    refine ⟨?_, fun uid hne => ?_, rfl⟩
    · simp [Store.findUser, List.getElem?_set_self hlt]
    · simp [Store.findUser, List.getElem?_set_ne (Ne.symm hne)]

/-- C26 (the code departs from the claim). The own-account test compares the
id text of the token with the text of the path parameter.  The administrator
(user 3) sends DELETE for the own id spelled differently from the token, for
instance with upper-case hexadecimal digits: the test does not recognise the
id, the lookups cast the text to the same id, and the administrator account is
removed with a 200 reply.  Spelled as in the token, the same request is
answered 403. -/
theorem admin_deletes_own_account :
    (demoStore.findUser demoAdmin.userId).map (fun u => (u.username, u.isAdmin))
        = some ("ada", true)
      ∧ (deleteUser demoStore demoAdmin demoAdmin.userId true).response.code = 403
      ∧ (deleteUser demoStore demoAdmin demoAdmin.userId false).response.code = 200
      ∧ (deleteUser demoStore demoAdmin demoAdmin.userId false).store.findUser demoAdmin.userId
          = none := by
  refine ⟨by decide, by decide, by decide, by decide⟩

/-! ## C27: what an administrator is shown by GET /assignments -/

/-- An administrator whose token carries neither the helper nor the client
role gets the empty filter without parameters and the status filter alone
with a status parameter. -/
theorem admin_only_query (user : AuthUser) (status : String) (hadmin : user.isAdmin = true)
    (hhelper : "helper" ∉ user.roles) (hclient : "client" ∉ user.roles)
    (hstatus : status ≠ "") :
    assignmentsQuery user none none none = some {}
      ∧ assignmentsQuery user (some status) none none
          = some { status := some (StatusCondition.is status) } := by
  unfold assignmentsQuery
  simp [hadmin, hhelper, hclient, truthy, hstatus]

/-- C27 (the code departs from the claim). The role tests for helper and client
come before the admin test.  The administrator accounts that ensureAdminsExist
creates carry the roles admin and client: without parameters their query is
the owner filter on their own id, not the empty filter, and with a status
parameter it is that owner filter plus the status.  An administrator who also
has the helper role gets the filter of unassigned, active assignments. -/
theorem admin_query_restricted :
    ((adminsToEnsure (some "999") (some "998")).map (fun d => (d.roles, d.isAdmin)))
        = [(["admin", "client"], true), (["admin", "client"], true)]
      ∧ demoAdmin.isAdmin = true ∧ demoAdmin.roles = ["admin", "client"]
      ∧ assignmentsQuery demoAdmin none none none = some { ownerId := some demoAdmin.userId }
      ∧ assignmentsQuery demoAdmin (some "pending") none none
          = some { ownerId := some demoAdmin.userId,
                   status := some (StatusCondition.is "pending") }
      ∧ assignmentsQuery { demoAdmin with roles := ["admin", "helper"] } none none none
          = some { helperId := some none,
                   status := some (StatusCondition.notIn ["paid", "cancelled"]) } := by
  refine ⟨by decide, by decide, by decide, by decide, by decide, by decide⟩

/-! ## C30: the length of the list reply -/

theorem jsSubstring_length (text : String) (stop : Nat) :
    (jsSubstring text stop).length = min stop text.length := by
  unfold jsSubstring
  show (text.toList.take stop).length = _
  rw [List.length_take]
  rfl

/-- The length of every reply of the list command: the two fixed texts have 47
and 57 characters, a built message of at most 2000 characters is sent as it
is, and a longer one is replaced by its first 1990 characters followed by a
notice of 45 characters, which makes 2035. -/
theorem listAssignments_length (env : Env) (fmt : Formatting) (s : Store)
    (interaction : Interaction) :
    (listAssignments env fmt s interaction).length
      = if interactionIsAdmin env interaction = false then 47
        else if s.pendingNewestFirst.length = 0 then 57
        else if 2000 < (listMessage fmt s).length then 2035
        else (listMessage fmt s).length := by
  unfold listAssignments
  cases hadmin : interactionIsAdmin env interaction with
  | false =>
    simp only [Bool.not_false, if_true]
    rfl
  | true =>
    simp only [Bool.not_true, Bool.false_eq_true, if_false]
    by_cases hempty : s.pendingNewestFirst.length = 0
    · rw [if_pos hempty, if_pos hempty]; rfl
    · rw [if_neg hempty, if_neg hempty]
      by_cases hlong : (listMessage fmt s).length > 2000
      · rw [if_pos hlong, if_pos hlong, String.length_append, jsSubstring_length]
        have h45 : ("... (message truncated, too many assignments)" : String).length = 45 := rfl
        rw [h45, Nat.min_eq_left (by omega)]
        simp
      · rw [if_neg hlong, if_neg hlong]
        simp


theorem listEntry_length (fmt : Formatting) (s : Store) (id : ObjectId) (a : Assignment) :
    157 ≤ (listEntry fmt s id a).length := by
  unfold listEntry
  simp only [String.length_append]
  have h1 : ("**Title:** " : String).length = 11 := rfl
  have h2 : ("\n" : String).length = 1 := rfl
  have h3 : ("**Description:** " : String).length = 17 := rfl
  have h4 : ("**Category:** " : String).length = 14 := rfl
  have h5 : ("**Payment:** $" : String).length = 14 := rfl
  have h6 : ("**Deadline:** " : String).length = 14 := rfl
  have h7 : ("**Posted by:** " : String).length = 15 := rfl
  have h8 : ("**Ticket Channel:** <#" : String).length = 22 := rfl
  have h9 : (">\n" : String).length = 2 := rfl
  have h10 : ("[View Details on Web App](" : String).length = 26 := rfl
  have h11 : ("/assignments/" : String).length = 13 := rfl
  have h12 : (")\n\n" : String).length = 3 := rfl
  rw [h1, h2, h3, h4, h5, h6, h7, h8, h9, h10, h11, h12]
  omega

theorem foldl_append_length (init : String) (l : List String) :
    (l.foldl (fun replyMessage entry => replyMessage ++ entry) init).length
      = init.length + (l.map String.length).sum := by
  induction l generalizing init with
  | nil => simp
  | cons e rest ih =>
    rw [List.foldl_cons, ih, String.length_append, List.map_cons, List.sum_cons]
    omega

theorem sum_lengths_ge (l : List String) (n : Nat) (h : ∀ e ∈ l, n ≤ e.length) :
    n * l.length ≤ (l.map String.length).sum := by
  induction l with
  | nil => simp
  | cons e rest ih =>
    rw [List.map_cons, List.sum_cons, List.length_cons, Nat.mul_succ]
    have h1 := h e (List.mem_cons_self _ _)
    have h2 := ih (fun x hx => h x (List.mem_cons_of_mem _ hx))
    omega

/-- The built message has at least 157 characters per pending assignment. -/
theorem listMessage_length (fmt : Formatting) (s : Store) :
    157 * s.pendingNewestFirst.length ≤ (listMessage fmt s).length := by
  unfold listMessage
  rw [foldl_append_length]
  have h := sum_lengths_ge
    (s.pendingNewestFirst.map (fun entry => listEntry fmt s entry.1 entry.2)) 157
    (by
      intro e he
      rw [List.mem_map] at he
      obtain ⟨x, _, rfl⟩ := he
      exact listEntry_length fmt s x.1 x.2)
  rw [List.length_map] at h
  omega

/-- C30 (the code departs from the claim). The truncation branch keeps the
first 1990 characters of the built message and appends a notice of 45
characters: whenever the built message is longer than 2000 characters, the
reply has 2035 characters.  Every list of thirteen or more pending
assignments builds such a message, whatever their fields, and so does the
store with thirteen pending assignments of the example. -/
theorem list_reply_exceeds_limit :
    (∀ (env : Env) (fmt : Formatting) (s : Store) (interaction : Interaction),
        interactionIsAdmin env interaction = true → 2000 < (listMessage fmt s).length →
        (listAssignments env fmt s interaction).length = 2035)
      ∧ (∀ (fmt : Formatting) (s : Store), 13 ≤ s.pendingNewestFirst.length →
          2000 < (listMessage fmt s).length)
      ∧ listedStore.pendingNewestFirst.length = 13
      ∧ (listAssignments adminEnv demoFormatting listedStore demoAdminInteraction).length
          = 2035 := by
  have hlong : ∀ (fmt : Formatting) (s : Store), 13 ≤ s.pendingNewestFirst.length →
      2000 < (listMessage fmt s).length := by
    intro fmt s h
    have h2 := listMessage_length fmt s
    omega
  have hreply : ∀ (env : Env) (fmt : Formatting) (s : Store) (interaction : Interaction),
      interactionIsAdmin env interaction = true → 2000 < (listMessage fmt s).length →
      (listAssignments env fmt s interaction).length = 2035 := by
    intro env fmt s interaction hadmin hmsg
    rw [listAssignments_length, hadmin]
    have hne : ¬ s.pendingNewestFirst.length = 0 := by
      intro h0
      have hshort : (listMessage fmt s).length = 38 := by
        unfold listMessage
        rw [List.length_eq_zero.mp h0]
        rfl
      omega
    simp [hne, hmsg]
  have hcount : listedStore.pendingNewestFirst.length = 13 := by decide
  exact ⟨hreply, hlong, hcount,
    hreply adminEnv demoFormatting listedStore demoAdminInteraction (by decide)
      (hlong demoFormatting listedStore (by rw [hcount]))⟩

/-! ## What each handler keeps of a document -/

theorem framed_refl (s : Store) (a : Assignment) : Framed s a a := ⟨Or.inl rfl, rfl⟩

theorem framed_update (s : Store) (id : ObjectId) (f : Assignment → Assignment) (a0 : Assignment)
    (hfind : s.findAssignment id = some a0) (hf : Framed s a0 (f a0)) (id2 : ObjectId)
    (a b : Assignment) (ha : s.findAssignment id2 = some a)
    (hb : (s.updateAssignment id f).findAssignment id2 = some b) : Framed s a b := by
  rw [findAssignment_updateAssignment] at hb
  split at hb
  · rename_i h
    subst h
    rw [hfind] at ha hb
    cases ha
    cases hb
    exact hf
  · rw [ha] at hb
    cases hb
    exact framed_refl s a

theorem framed_same (s : Store) (id2 : ObjectId) (a b : Assignment)
    (ha : s.findAssignment id2 = some a) (hb : s.findAssignment id2 = some b) : Framed s a b := by
  rw [ha] at hb
  cases hb
  exact framed_refl s a

theorem framed_insert (env : Env) (s s1 : Store) (d : Option Instant) (p : Option ℚ)
    (mk : Instant → ℚ → Assignment) (h : s.insertAssignment env d p mk = some s1)
    (id2 : ObjectId) (a b : Assignment) (ha : s.findAssignment id2 = some a)
    (hb : s1.findAssignment id2 = some b) : Framed s a b := by
  obtain ⟨d0, p0, rfl⟩ := insertAssignment_eq env s s1 d p mk h
  have hlt : id2 < s.assignments.length := by
    by_contra hge
    have hnone : s.findAssignment id2 = none := List.getElem?_eq_none (Nat.le_of_not_lt hge)
    rw [hnone] at ha
    exact absurd ha (by simp)
  have hsame : ({ s with assignments := s.assignments ++ [mk d0 p0] } : Store).findAssignment id2
      = s.findAssignment id2 := List.getElem?_append_left hlt
  rw [hsame] at hb
  exact framed_same s id2 a b ha hb

theorem accept_framed (s : Store) (user : AuthUser) (id id2 : ObjectId) (a b : Assignment)
    (ha : s.findAssignment id2 = some a)
    (hb : (acceptAssignment s user id).store.findAssignment id2 = some b) : Framed s a b := by
  revert hb
  unfold acceptAssignment rolesDenied
  try dsimp only
  repeat' split
  all_goals intro hb
  all_goals first
    | exact framed_same s id2 a b ha hb
    | exact framed_update s id _ _ (by assumption)
        ⟨Or.inr ⟨by simp_all, user.userId, rfl, by simp_all⟩, rfl⟩ id2 a b ha hb

theorem complete_framed (s : Store) (user : AuthUser) (id id2 : ObjectId)
    (files : Option (List UploadedFile)) (now : Instant) (dm : DmOutcome) (a b : Assignment)
    (ha : s.findAssignment id2 = some a)
    (hb : (completeAssignment s user id files now dm).store.findAssignment id2 = some b) :
    Framed s a b := by
  revert hb
  unfold completeAssignment rolesDenied
  try dsimp only
  repeat' split
  all_goals intro hb
  all_goals first
    | exact framed_same s id2 a b ha hb
    | exact framed_update s id _ _ (by assumption) ⟨Or.inl rfl, rfl⟩ id2 a b ha hb

theorem review_framed (s : Store) (user : AuthUser) (id id2 : ObjectId)
    (action : String) (feedback : Option String) (a b : Assignment)
    (ha : s.findAssignment id2 = some a)
    (hb : (reviewAssignment s user id action feedback).store.findAssignment id2 = some b) :
    Framed s a b := by
  revert hb
  unfold reviewAssignment rolesDenied
  try dsimp only
  repeat' split
  all_goals intro hb
  all_goals first
    | exact framed_same s id2 a b ha hb
    | exact framed_update s id _ _ (by assumption) ⟨Or.inl rfl, rfl⟩ id2 a b ha hb

theorem approveWork_framed (env : Env) (s : Store) (interaction : Interaction)
    (id id2 : ObjectId) (dm : DmOutcome) (a b : Assignment)
    (ha : s.findAssignment id2 = some a)
    (hb : (approveWork env s interaction id dm).store.findAssignment id2 = some b) :
    Framed s a b := by
  revert hb
  unfold approveWork
  try dsimp only
  repeat' split
  all_goals intro hb
  all_goals first
    | exact framed_same s id2 a b ha hb
    | exact framed_update s id _ _ (by assumption) ⟨Or.inl rfl, rfl⟩ id2 a b ha hb

theorem requestRevision_framed (env : Env) (s : Store) (interaction : Interaction)
    (id id2 : ObjectId) (feedback : String) (dm : DmOutcome) (a b : Assignment)
    (ha : s.findAssignment id2 = some a)
    (hb : (requestRevision env s interaction id feedback dm).store.findAssignment id2 = some b) :
    Framed s a b := by
  revert hb
  unfold requestRevision
  try dsimp only
  repeat' split
  all_goals intro hb
  all_goals first
    | exact framed_same s id2 a b ha hb
    | exact framed_update s id _ _ (by assumption) ⟨Or.inl rfl, rfl⟩ id2 a b ha hb

theorem pay_framed (s : Store) (user : AuthUser) (id id2 : ObjectId)
    (transactionId notes : Option String) (now : Instant) (fault : Option PayFault)
    (a b : Assignment) (ha : s.findAssignment id2 = some a)
    (hb : (payAssignment s user id transactionId notes now fault).store.findAssignment id2
      = some b) : Framed s a b := by
  rcases pay_ledger s user id transactionId notes now fault with
    h | ⟨a0, h, amount, h1, _, _, _, h5, _⟩
  · rw [h] at hb
    exact framed_same s id2 a b ha hb
  · have hb2 : (s.updateAssignment id
        (fun a => { a with status := Status.paid, paidAt := some now })).findAssignment id2
        = some b := by
      unfold Store.findAssignment Store.updateAssignment
      unfold Store.findAssignment at hb
      rw [h5] at hb
      exact hb
    exact framed_update s id _ a0 h1 ⟨Or.inl rfl, rfl⟩ id2 a b ha hb2

theorem create_framed (env : Env) (s : Store) (user : AuthUser) (body : AssignmentBody)
    (files : Option (List UploadedFile)) (channelSendThrows : Bool) (id2 : ObjectId)
    (a b : Assignment) (ha : s.findAssignment id2 = some a)
    (hb : (createAssignment env s user body files channelSendThrows).store.findAssignment id2
      = some b) : Framed s a b := by
  revert hb
  unfold createAssignment
  try dsimp only
  repeat' split
  all_goals intro hb
  all_goals first
    | exact framed_same s id2 a b ha hb
    | exact framed_insert env s _ _ _ _ (by assumption) id2 a b ha hb

theorem ticket_framed (env : Env) (s : Store) (interaction : Interaction)
    (title description categoryName : String) (paymentAmount : ℚ) (deadlineString : String)
    (complexity : String) (world : TicketWorld) (id2 : ObjectId) (a b : Assignment)
    (ha : s.findAssignment id2 = some a)
    (hb : (createAssignmentTicket env s interaction title description categoryName paymentAmount
      deadlineString complexity world).store.findAssignment id2 = some b) : Framed s a b := by
  rcases ticket_create_checked env s interaction title description categoryName paymentAmount
      deadlineString complexity world with h | ⟨category, doc, owner, _, _, h, _⟩
  · have hsame : (createAssignmentTicket env s interaction title description categoryName
        paymentAmount deadlineString complexity world).store.findAssignment id2
        = s.findAssignment id2 := by
      unfold Store.findAssignment
      rw [h]
    rw [hsame] at hb
    exact framed_same s id2 a b ha hb
  · have hlt : id2 < s.assignments.length := by
      by_contra hge
      have hnone : s.findAssignment id2 = none := List.getElem?_eq_none (Nat.le_of_not_lt hge)
      rw [hnone] at ha
      exact absurd ha (by simp)
    have hsame : (createAssignmentTicket env s interaction title description categoryName
        paymentAmount deadlineString complexity world).store.findAssignment id2
        = s.findAssignment id2 := by
      unfold Store.findAssignment
      rw [h]
      exact List.getElem?_append_left hlt
    rw [hsame] at hb
    exact framed_same s id2 a b ha hb

theorem modal_framed (env : Env) (s : Store) (interaction : Interaction)
    (title description categoryName paymentInput deadlineString complexityInput : String)
    (world : TicketWorld) (id2 : ObjectId) (a b : Assignment)
    (ha : s.findAssignment id2 = some a)
    (hb : (createAssignmentModal env s interaction title description categoryName paymentInput
      deadlineString complexityInput world).store.findAssignment id2 = some b) :
    Framed s a b := by
  revert hb
  unfold createAssignmentModal
  try dsimp only
  repeat' split
  all_goals intro hb
  all_goals first
    | exact framed_same s id2 a b ha hb
    | exact ticket_framed _ _ _ _ _ _ _ _ _ _ id2 a b ha hb

theorem dailyStatusCheck_framed (s : Store) (now : Instant) (saveFails : ObjectId → Bool)
    (id2 : ObjectId) (a b : Assignment) (ha : s.findAssignment id2 = some a)
    (hb : (dailyStatusCheck s now saveFails).1.findAssignment id2 = some b) : Framed s a b := by
  unfold dailyStatusCheck at hb
  dsimp only at hb
  rw [dailyStatusLoop_find, ha] at hb
  split at hb
  · cases hb
    exact ⟨Or.inl rfl, rfl⟩
  · cases hb
    exact framed_refl s a

theorem setPayout_helperFramed (s : Store) (user : AuthUser) (id id2 : ObjectId) (v : JsonValue)
    (a b : Assignment) (ha : s.findAssignment id2 = some a)
    (hb : (setPayout s user id v).store.findAssignment id2 = some b) :
    b.helperId = a.helperId ∧ b.status = a.status ∧ (id2 ≠ id → b = a) := by
  revert hb
  unfold setPayout adminDenied
  try dsimp only
  repeat' split
  all_goals intro hb
  all_goals first
    | (rw [ha] at hb; cases hb; exact ⟨rfl, rfl, fun _ => rfl⟩)
    | (rw [findAssignment_updateAssignment] at hb
       split at hb
       · rename_i h
         subst h
         rw [ha] at hb
         cases hb
         exact ⟨rfl, rfl, fun hne => absurd rfl hne⟩
       · rw [ha] at hb
         cases hb
         exact ⟨rfl, rfl, fun _ => rfl⟩)

/-- Every lifecycle operation frames the helper of every document, and every
one but SetHelperPayout keeps its helper payout amount. -/
theorem step_framed (env : Env) (s : Store) (op : Op) (id2 : ObjectId) (a b : Assignment)
    (ha : s.findAssignment id2 = some a) (hb : (step env s op).findAssignment id2 = some b) :
    HelperFramed s a b
      ∧ (Op.isSetPayout op = false →
          b.adminDeterminedHelperPayout = a.adminDeterminedHelperPayout) := by
  cases op with
  | create user body files channelSendThrows =>
    exact ⟨(create_framed _ _ _ _ _ _ id2 a b ha hb).1,
      fun _ => (create_framed _ _ _ _ _ _ id2 a b ha hb).2⟩
  | createModal interaction title description categoryName paymentInput deadlineString
      complexityInput world =>
    exact ⟨(modal_framed _ _ _ _ _ _ _ _ _ _ id2 a b ha hb).1,
      fun _ => (modal_framed _ _ _ _ _ _ _ _ _ _ id2 a b ha hb).2⟩
  | accept user id =>
    exact ⟨(accept_framed _ _ _ id2 a b ha hb).1, fun _ => (accept_framed _ _ _ id2 a b ha hb).2⟩
  | complete user id files now dm =>
    exact ⟨(complete_framed _ _ _ id2 _ _ _ a b ha hb).1,
      fun _ => (complete_framed _ _ _ id2 _ _ _ a b ha hb).2⟩
  | review user id action feedback =>
    exact ⟨(review_framed _ _ _ id2 _ _ a b ha hb).1,
      fun _ => (review_framed _ _ _ id2 _ _ a b ha hb).2⟩
  | approveWork interaction id dm =>
    exact ⟨(approveWork_framed _ _ _ _ id2 _ a b ha hb).1,
      fun _ => (approveWork_framed _ _ _ _ id2 _ a b ha hb).2⟩
  | requestRevision interaction id feedback dm =>
    exact ⟨(requestRevision_framed _ _ _ _ id2 _ _ a b ha hb).1,
      fun _ => (requestRevision_framed _ _ _ _ id2 _ _ a b ha hb).2⟩
  | setPayout user id v =>
    exact ⟨Or.inl (setPayout_helperFramed _ _ _ id2 _ a b ha hb).1,
      fun h => absurd h (by simp [Op.isSetPayout])⟩
  | pay user id transactionId notes now fault =>
    exact ⟨(pay_framed _ _ _ id2 _ _ _ _ a b ha hb).1,
      fun _ => (pay_framed _ _ _ id2 _ _ _ _ a b ha hb).2⟩
  | dailyStatusCheck now failing =>
    exact ⟨(dailyStatusCheck_framed _ _ _ id2 a b ha hb).1,
      fun _ => (dailyStatusCheck_framed _ _ _ id2 a b ha hb).2⟩

/-! ## C28: the payout on a paid assignment and its transaction -/

theorem quietMove_paidPayout (x y : Option Assignment) (h : QuietMove x y)
    (hkeep : ∀ a b, x = some a → y = some b → a.status = Status.paid →
      b.adminDeterminedHelperPayout = a.adminDeterminedHelperPayout) :
    paidPayout y = paidPayout x := by
  cases h with
  | same x => rfl
  | created a hs hh hp hf hpaid => simp [paidPayout, hs]
  | accepted a h hs hh => simp [paidPayout, hs]
  | completed a h work now hh hs => rcases hs with hs | hs <;> simp [paidPayout, hs]
  | approved a hs => simp [paidPayout, hs]
  | revised a hs => simp [paidPayout, hs]
  | payoutSet a x hx =>
    by_cases hs : a.status = Status.paid
    · have hk := hkeep a _ rfl rfl hs
      simp only [paidPayout, hs, if_true]
      rw [← hk]
    · simp [paidPayout, hs]
  | overdue a hs => simp [paidPayout, hs]

theorem step_paid_payout_kept (env : Env) (s : Store) (op : Op) (hfrozen : frozenStep s op = true)
    (id : ObjectId) (a b : Assignment) (ha : s.findAssignment id = some a)
    (hb : (step env s op).findAssignment id = some b) (hs : a.status = Status.paid) :
    b.adminDeterminedHelperPayout = a.adminDeterminedHelperPayout := by
  cases hop : Op.isSetPayout op with
  | false => exact (step_framed env s op id a b ha hb).2 hop
  | true =>
    cases op with
    | setPayout user id0 v =>
      have hne : id ≠ id0 := by
        intro h
        subst h
        have hst : s.statusOf id = some Status.paid := by
          unfold Store.statusOf
          rw [ha, Option.map_some', hs]
        simp [frozenStep, hst] at hfrozen
      rw [(setPayout_helperFramed s user id0 id v a b ha hb).2.2 hne]
    | _ => exact absurd hop (by simp [Op.isSetPayout])

/-- Every operation without failing write, other than a SetHelperPayout on a
paid assignment, keeps the payout ledger in step with the paid assignments. -/
theorem step_paidPayout (env : Env) (s : Store) (op : Op) (hff : Op.faultFree op = true)
    (hfrozen : frozenStep s op = true)
    (hinv : ∀ id, (s.payoutsFor id).map (fun t => some t.amount) = paidPayout (s.findAssignment id))
    (id : ObjectId) :
    ((step env s op).payoutsFor id).map (fun t => some t.amount)
      = paidPayout ((step env s op).findAssignment id) := by
  rcases step_ledger env s op with ⟨hp, hq⟩ | ⟨id0, a, h, amount, now, h1, h2, h3, h4, h5, h6⟩
  · rw [quietMove_paidPayout _ _ (hq id)
      (fun a b ha hb hs => step_paid_payout_kept env s op hfrozen id a b ha hb hs), ← hinv id]
    unfold Store.payoutsFor
    rw [hp]
  · rcases h6 with ⟨_, hf⟩ | ⟨tx, htx, _, hamount, hp⟩
    · rw [hff] at hf
      exact absurd hf (by simp)
    · have hold := hinv id
      unfold Store.payoutsFor at hold ⊢
      rw [hp, List.filter_append, List.map_append, hold]
      unfold Store.findAssignment
      rw [h5]
      by_cases hid : id0 = id
      · subst hid
        have h1b : s.assignments[id0]? = some a := h1
        rw [List.getElem?_modify_eq]
        simp [Store.findAssignment, h1b, paidPayout, h2, htx, hamount, h4]
      · have hne : ¬ tx.assignmentId = id := by rw [htx]; exact hid
        rw [List.getElem?_modify_ne _ _ hid]
        simp [Store.findAssignment, hne]

theorem run_paidPayout (env : Env) (ops : List Op) (s : Store)
    (hff : ∀ op ∈ ops, Op.faultFree op = true) (hfrozen : payoutsFrozen env s ops = true)
    (hinv : ∀ id, (s.payoutsFor id).map (fun t => some t.amount) = paidPayout (s.findAssignment id))
    (id : ObjectId) :
    ((run env s ops).payoutsFor id).map (fun t => some t.amount)
      = paidPayout ((run env s ops).findAssignment id) := by
  induction ops generalizing s with
  | nil => exact hinv id
  | cons op ops ih =>
    rw [run_cons]
    simp only [payoutsFrozen, Bool.and_eq_true] at hfrozen
    exact ih _ (fun o ho => hff o (List.mem_cons_of_mem _ ho)) hfrozen.2
      (fun id2 => step_paidPayout env s op (hff op (List.mem_cons_self _ _)) hfrozen.1 hinv id2)


theorem paidTotal_eq (l : List Assignment) :
    ((l.filter (fun a => a.status == Status.paid)).map
        (fun a => a.adminDeterminedHelperPayout.getD 0)).sum
      = (l.map paidAmount).sum := by
  induction l with
  | nil => rfl
  | cons a rest ih =>
    by_cases hs : a.status = Status.paid
    · simp [List.filter_cons, hs, paidAmount, ih]
    · simp [List.filter_cons, hs, paidAmount, ih]

theorem summarize_total (l : List Assignment) :
    (summarize l).totalHelperPayouts = (l.map paidAmount).sum := by
  unfold summarize
  simp only [groupTotal_headD, paid_payout_sum, paidTotal_eq]

theorem sum_zero_of_pointwise (f : Assignment → ℚ) (l : List Assignment)
    (h : ∀ i : Nat, (l[i]?.map f).getD 0 = 0) : (l.map f).sum = 0 := by
  induction l with
  | nil => rfl
  | cons a rest ih =>
    have h0 : f a = 0 := by simpa using h 0
    have ht : ∀ i : Nat, (rest[i]?.map f).getD 0 = 0 := fun i => by simpa using h (i + 1)
    rw [List.map_cons, List.sum_cons, h0, ih ht, add_zero]

theorem sum_eq_of_pointwise (f : Assignment → ℚ) (l l2 : List Assignment)
    (h : ∀ i : Nat, (l[i]?.map f).getD 0 = (l2[i]?.map f).getD 0) :
    (l.map f).sum = (l2.map f).sum := by
  induction l generalizing l2 with
  | nil =>
    have hz := sum_zero_of_pointwise f l2 (fun i => by simpa using (h i).symm)
    rw [hz]; rfl
  | cons a rest ih =>
    cases l2 with
    | nil =>
      have hz := sum_zero_of_pointwise f (a :: rest) (fun i => by simpa using h i)
      rw [hz]; rfl
    | cons b rest2 =>
      have h0 : f a = f b := by simpa using h 0
      have ht : ∀ i : Nat, (rest[i]?.map f).getD 0 = (rest2[i]?.map f).getD 0 :=
        fun i => by simpa using h (i + 1)
      rw [List.map_cons, List.sum_cons, List.map_cons, List.sum_cons, h0, ih rest2 ht]

theorem sum_modify (f : Assignment → ℚ) (g : Assignment → Assignment) (l : List Assignment)
    (i : Nat) (a : Assignment) (h : l[i]? = some a) :
    ((l.modify g i).map f).sum = (l.map f).sum - f a + f (g a) := by
  induction l generalizing i with
  | nil => simp at h
  | cons b rest ih =>
    cases i with
    | zero =>
      simp only [List.getElem?_cons_zero, Option.some.injEq] at h
      subst h
      simp only [List.modify_zero_cons, List.map_cons, List.sum_cons]
      ring
    | succ k =>
      simp only [List.getElem?_cons_succ] at h
      simp only [List.modify_succ_cons, List.map_cons, List.sum_cons, ih k h]
      ring

theorem paidAmount_of_paidPayout (x : Option Assignment) :
    (x.map paidAmount).getD 0 = ((paidPayout x).map (fun o => o.getD 0)).sum := by
  cases x with
  | none => rfl
  | some a =>
    by_cases hs : a.status = Status.paid
    · simp [paidPayout, paidAmount, hs]
    · simp [paidPayout, paidAmount, hs]

/-- Every operation without failing write, other than a SetHelperPayout on a
paid assignment, keeps the sum of the paid payouts equal to the sum of the
payout transactions. -/
theorem step_paidTotal (env : Env) (s : Store) (op : Op) (hff : Op.faultFree op = true)
    (hfrozen : frozenStep s op = true)
    (hinv : (s.assignments.map paidAmount).sum = (s.payoutTransactions.map (fun t => t.amount)).sum) :
    ((step env s op).assignments.map paidAmount).sum
      = ((step env s op).payoutTransactions.map (fun t => t.amount)).sum := by
  rcases step_ledger env s op with ⟨hp, hq⟩ | ⟨id0, a, h, amount, now, h1, h2, h3, h4, h5, h6⟩
  · rw [hp, ← hinv]
    apply sum_eq_of_pointwise
    intro i
    have hpp := quietMove_paidPayout _ _ (hq i)
      (fun a b ha hb hs => step_paid_payout_kept env s op hfrozen i a b ha hb hs)
    have h1 := paidAmount_of_paidPayout ((step env s op).findAssignment i)
    have h2 := paidAmount_of_paidPayout (s.findAssignment i)
    unfold Store.findAssignment at h1 h2 hpp
    rw [h1, h2, hpp]
  · rcases h6 with ⟨_, hf⟩ | ⟨tx, _, _, hamount, hp⟩
    · rw [hff] at hf
      exact absurd hf (by simp)
    · rw [hp, h5, sum_modify paidAmount _ s.assignments id0 a h1, List.map_append, List.sum_append,
        ← hinv]
      simp [paidAmount, h2, h4, hamount]

theorem run_paidTotal (env : Env) (ops : List Op) (s : Store)
    (hff : ∀ op ∈ ops, Op.faultFree op = true) (hfrozen : payoutsFrozen env s ops = true)
    (hinv : (s.assignments.map paidAmount).sum = (s.payoutTransactions.map (fun t => t.amount)).sum) :
    ((run env s ops).assignments.map paidAmount).sum
      = ((run env s ops).payoutTransactions.map (fun t => t.amount)).sum := by
  induction ops generalizing s with
  | nil => exact hinv
  | cons op ops ih =>
    rw [run_cons]
    simp only [payoutsFrozen, Bool.and_eq_true] at hfrozen
    exact ih _ (fun o ho => hff o (List.mem_cons_of_mem _ ho)) hfrozen.2
      (step_paidTotal env s op (hff op (List.mem_cons_self _ _)) hfrozen.1 hinv)

/-- C28 as stated fails. After the scenario (created, accepted, completed,
approved, payout 70, paid under T1) the administrator sets the helper payout
to 80: set-payout has no status guard, so the paid assignment now carries 80
while its payout transaction still says 70, and the summary reports
totalHelperPayouts 80 against transactions that sum to 70.  No write failed. -/
theorem late_payout_change_breaks_ledger :
    (∀ op ∈ latePayoutOps, Op.faultFree op = true)
      ∧ ((run scenarioEnv scenarioStart latePayoutOps).findAssignment 0).map
          (fun a => (a.status, a.adminDeterminedHelperPayout))
          = some (Status.paid, some 80)
      ∧ ((run scenarioEnv scenarioStart latePayoutOps).payoutsFor 0).map (fun t => t.amount)
          = [70]
      ∧ (summarize (run scenarioEnv scenarioStart latePayoutOps).assignments).totalHelperPayouts
          = 80
      ∧ ((run scenarioEnv scenarioStart latePayoutOps).payoutTransactions.map
          (fun t => t.amount)).sum = 70 := by
  refine ⟨by decide, by decide!, by decide!, by decide!, by decide!⟩

/-- C28, amended. In every store reached from a store without assignments by
lifecycle operations without storage failures, among which no SetHelperPayout
is aimed at an assignment that is already paid, each paid assignment has
exactly one payout transaction and its helper payout amount is the amount of
that transaction, and the totalHelperPayouts of the summary equals the sum of
the amounts of all payout transactions. -/
theorem paid_payout_matches_transaction (env : Env) (users : List (Option User))
    (categories : List Category) (ops : List Op)
    (hff : ∀ op ∈ ops, Op.faultFree op = true)
    (hfrozen : payoutsFrozen env (initialStore users categories) ops = true) :
    (∀ id a, (run env (initialStore users categories) ops).findAssignment id = some a →
        a.status = Status.paid →
        ∃ t, (run env (initialStore users categories) ops).payoutsFor id = [t]
          ∧ a.adminDeterminedHelperPayout = some t.amount)
      ∧ (summarize (run env (initialStore users categories) ops).assignments).totalHelperPayouts
          = ((run env (initialStore users categories) ops).payoutTransactions.map
              (fun t => t.amount)).sum := by
  constructor
  · intro id a ha hs
    have h := run_paidPayout env ops (initialStore users categories) hff hfrozen
      (fun id2 => by simp [Store.payoutsFor, initialStore, Store.findAssignment, paidPayout]) id
    rw [ha] at h
    simp only [paidPayout, hs, if_true] at h
    cases hl : (run env (initialStore users categories) ops).payoutsFor id with
    | nil => rw [hl] at h; simp at h
    | cons t rest =>
      rw [hl] at h
      simp only [List.map_cons, List.cons.injEq, List.map_eq_nil_iff] at h
      rw [h.2]
      exact ⟨t, rfl, h.1.symm⟩
  · rw [summarize_total]
    exact run_paidTotal env ops (initialStore users categories) hff hfrozen
      (by simp [initialStore])

/-- C28, amended, at the scenario: payout 70 set before the payment under T1
and not changed afterwards. -/
theorem paid_payout_matches_transaction_witness :
    (∀ id a, (run scenarioEnv (initialStore demoStore.users scenarioStart.categories)
          scenarioOps).findAssignment id = some a →
        a.status = Status.paid →
        ∃ t, (run scenarioEnv (initialStore demoStore.users scenarioStart.categories)
              scenarioOps).payoutsFor id = [t]
          ∧ a.adminDeterminedHelperPayout = some t.amount)
      ∧ (summarize (run scenarioEnv (initialStore demoStore.users scenarioStart.categories)
          scenarioOps).assignments).totalHelperPayouts
          = ((run scenarioEnv (initialStore demoStore.users scenarioStart.categories)
              scenarioOps).payoutTransactions.map (fun t => t.amount)).sum :=
  paid_payout_matches_transaction scenarioEnv demoStore.users scenarioStart.categories
    scenarioOps (by decide) (by decide!)

/-! ## C29: earnings and the payout ledger -/

theorem slotAlive_same (x : Option (Option User)) : SlotAlive x x := fun h => h

theorem slotAlive_trans (x y z : Option (Option User)) (h1 : SlotAlive x y)
    (h2 : SlotAlive y z) : SlotAlive x z := fun h => h2 (h1 h)

theorem slotAlive_users (s t : Store) (h : t.users = s.users) (i : Nat) :
    SlotAlive s.users[i]? t.users[i]? := by
  rw [h]; exact slotAlive_same (s.users[i]?)

theorem slotAlive_updateUser (s : Store) (id : ObjectId) (f : User → User) (i : Nat) :
    SlotAlive s.users[i]? (s.updateUser id f).users[i]? := by
  rintro ⟨u, hu⟩
  unfold Store.updateUser
  dsimp only
  by_cases hi : id = i
  · subst hi
    rw [List.getElem?_modify_eq, hu]
    exact ⟨f u, rfl⟩
  · rw [List.getElem?_modify_ne _ _ hi, hu]
    exact ⟨u, rfl⟩

theorem slotAlive_append (l : List (Option User)) (u0 : User) (i : Nat) :
    SlotAlive l[i]? (l ++ [some u0])[i]? := by
  rintro ⟨u, hu⟩
  have hlt : i < l.length := by
    by_contra hge
    rw [List.getElem?_eq_none (Nat.le_of_not_lt hge)] at hu
    exact absurd hu (by simp)
  rw [List.getElem?_append_left hlt, hu]
  exact ⟨u, rfl⟩

theorem ensureClient_alive (s s1 : Store) (interaction : Interaction) (userId : ObjectId)
    (h : s.ensureClient interaction = some (s1, userId)) (i : Nat) :
    SlotAlive s.users[i]? s1.users[i]? := by
  unfold Store.ensureClient at h
  repeat' split at h
  all_goals try dsimp only at h
  all_goals cases h
  all_goals first
    | exact slotAlive_same _
    | exact slotAlive_append _ _ _
    | exact slotAlive_updateUser _ _ _ _

theorem ticket_alive (env : Env) (s : Store) (interaction : Interaction)
    (title description categoryName : String) (paymentAmount : ℚ) (deadlineString : String)
    (complexity : String) (world : TicketWorld) (i : Nat) :
    SlotAlive s.users[i]?
      (createAssignmentTicket env s interaction title description categoryName paymentAmount
        deadlineString complexity world).store.users[i]? := by
  unfold createAssignmentTicket
  split
  · exact slotAlive_same _
  split
  · exact slotAlive_same _
  split
  · exact slotAlive_same _
  rename_i s1 userId hens
  have h1 := ensureClient_alive s s1 interaction userId hens i
  repeat' split
  all_goals first
    | exact h1
    | (obtain ⟨d0, p0, h⟩ := insertAssignment_eq env s1 _ _ _ _ (by assumption)
       rw [h]
       exact h1)

theorem modal_alive (env : Env) (s : Store) (interaction : Interaction)
    (title description categoryName paymentInput deadlineString complexityInput : String)
    (world : TicketWorld) (i : Nat) :
    SlotAlive s.users[i]?
      (createAssignmentModal env s interaction title description categoryName paymentInput
        deadlineString complexityInput world).store.users[i]? := by
  unfold createAssignmentModal
  try dsimp only
  repeat' split
  all_goals first
    | exact slotAlive_same _
    | exact ticket_alive _ _ _ _ _ _ _ _ _ _ i

theorem pay_alive (s : Store) (user : AuthUser) (id : ObjectId)
    (transactionId notes : Option String) (now : Instant) (fault : Option PayFault) (i : Nat) :
    SlotAlive s.users[i]?
      (payAssignment s user id transactionId notes now fault).store.users[i]? := by
  rcases pay_ledger s user id transactionId notes now fault with
    h | ⟨a, h, amount, _, _, _, _, _, h6⟩
  · rw [h]; exact slotAlive_same _
  · rcases h6 with ⟨_, _, hu⟩ | ⟨_, _, hu⟩ | ⟨_, _, hu⟩
    · rw [hu]; exact slotAlive_same _
    · rw [hu]; exact slotAlive_same _
    · rw [hu]
      exact slotAlive_updateUser s h _ i

/-- No lifecycle operation removes an account. -/
theorem step_alive (env : Env) (s : Store) (op : Op) (i : Nat) :
    SlotAlive s.users[i]? (step env s op).users[i]? := by
  cases op with
  | create user body files channelSendThrows =>
    exact slotAlive_users _ _ (create_rest _ _ _ _ _ _).2 i
  | createModal interaction title description categoryName paymentInput deadlineString
      complexityInput world =>
    exact modal_alive _ _ _ _ _ _ _ _ _ _ i
  | accept user id => exact slotAlive_users _ _ (accept_rest _ _ _).2 i
  | complete user id files now dm => exact slotAlive_users _ _ (complete_rest _ _ _ _ _ _).2 i
  | review user id action feedback => exact slotAlive_users _ _ (review_rest _ _ _ _ _).2 i
  | approveWork interaction id dm => exact slotAlive_users _ _ (approveWork_rest _ _ _ _ _).2 i
  | requestRevision interaction id feedback dm =>
    exact slotAlive_users _ _ (requestRevision_rest _ _ _ _ _ _).2 i
  | setPayout user id v => exact slotAlive_users _ _ (setPayout_rest _ _ _ _).2 i
  | dailyStatusCheck now failing => exact slotAlive_users _ _ (dailyStatusLoop_rest _ _ _ _).1 i
  | pay user id transactionId notes now fault => exact pay_alive _ _ _ _ _ _ _ i

theorem ensureAdmin_alive (s s1 : Store) (adminData : AdminData) (saveFails : Bool)
    (h : ensureAdmin s adminData saveFails = some s1) (i : Nat) :
    SlotAlive s.users[i]? s1.users[i]? := by
  unfold ensureAdmin at h
  dsimp only at h
  repeat' split at h
  all_goals cases h
  all_goals first
    | exact slotAlive_same _
    | exact slotAlive_append _ _ _
    | exact slotAlive_updateUser _ _ _ _

theorem ensureAdminsLoop_alive (failing l : List AdminData) (s : Store) (i : Nat) :
    SlotAlive s.users[i]? (ensureAdminsLoop failing l s).users[i]? := by
  induction l generalizing s with
  | nil => exact slotAlive_same _
  | cons adminData rest ih =>
    unfold ensureAdminsLoop
    split
    · exact slotAlive_same _
    · rename_i s1 h1
      exact slotAlive_trans _ _ _ (ensureAdmin_alive s s1 adminData _ h1 i) (ih s1)

theorem exchangeCode_alive (s : Store) (code : Option String) (profile : Option DiscordProfile)
    (saveFails : Bool) (i : Nat) :
    SlotAlive s.users[i]? (exchangeCode s code profile saveFails).store.users[i]? := by
  unfold exchangeCode
  dsimp only
  repeat' split
  all_goals first
    | exact slotAlive_same _
    | exact slotAlive_append _ _ _
    | exact slotAlive_updateUser _ _ _ _

theorem registerHelper_alive (s : Store) (request : RegisterRequest)
    (registrationClosed saveFails : Bool) (i : Nat) :
    SlotAlive s.users[i]?
      (registerHelper s request registrationClosed saveFails).store.users[i]? := by
  unfold registerHelper
  dsimp only
  repeat' split
  all_goals first
    | exact slotAlive_same _
    | exact slotAlive_append _ _ _

theorem updateUserRoles_alive (s : Store) (user : AuthUser) (id : ObjectId)
    (roles : Option (List String)) (i : Nat) :
    SlotAlive s.users[i]? (updateUserRoles s user id roles).store.users[i]? := by
  unfold updateUserRoles adminDenied
  repeat' split
  all_goals first
    | exact slotAlive_same _
    | exact slotAlive_updateUser _ _ _ _

theorem updateUserStatus_alive (s : Store) (user : AuthUser) (id : ObjectId)
    (isActive : JsonValue) (i : Nat) :
    SlotAlive s.users[i]? (updateUserStatus s user id isActive).store.users[i]? := by
  unfold updateUserStatus adminDenied
  repeat' split
  all_goals first
    | exact slotAlive_same _
    | exact slotAlive_updateUser _ _ _ _

/-- The delete route removes no account that is the helper of an assignment
which is neither paid nor cancelled. -/
theorem deleteUser_alive (s : Store) (user : AuthUser) (id : ObjectId) (spelledAsToken : Bool)
    (h : ObjectId) (aid : ObjectId) (a : Assignment) (ha : s.findAssignment aid = some a)
    (hh : a.helperId = some h) (hp : a.status ≠ Status.paid) (hc : a.status ≠ Status.cancelled) :
    (deleteUser s user id spelledAsToken).store.findUser h = s.findUser h := by
  obtain ⟨h1, h2, h3⟩ := deleteUser_spec s user id spelledAsToken
  by_cases hok : (deleteUser s user id spelledAsToken).response.code = 200
  · rw [h2 hok]
    have hne : id ≠ h := by
      intro heq
      subst heq
      have hmem : a ∈ s.assignments := List.getElem?_mem ha
      rcases (h1.1 hok).2.2.2 a hmem (Or.inr hh) with hx | hx
      · exact hp hx
      · exact hc hx
    simp [Store.findUser, List.getElem?_set_ne hne]
  · rw [h3 hok]


theorem docMove_terminal (x y : Option Assignment) (h : DocMove x y) (a b : Assignment)
    (hx : x = some a) (hy : y = some b)
    (ht : a.status = Status.paid ∨ a.status = Status.cancelled) :
    b.status = Status.paid ∨ b.status = Status.cancelled := by
  cases h with
  | quiet x y h =>
    cases h with
    | same x => rw [hx] at hy; cases hy; exact ht
    | created a hs hh hp hf hpaid => exact absurd hx (by simp)
    | accepted a0 h hs0 hh0 =>
      cases hx; rw [hs0] at ht; rcases ht with h1 | h1 <;> exact absurd h1 (by simp)
    | completed a0 h work now hh0 hs0 =>
      cases hx
      rcases hs0 with h0 | h0 <;> rw [h0] at ht <;> rcases ht with h1 | h1 <;>
        exact absurd h1 (by simp)
    | approved a0 hs0 =>
      cases hx; rw [hs0] at ht; rcases ht with h1 | h1 <;> exact absurd h1 (by simp)
    | revised a0 hs0 =>
      cases hx; rw [hs0] at ht; rcases ht with h1 | h1 <;> exact absurd h1 (by simp)
    | payoutSet a0 x hx0 => cases hx; cases hy; exact ht
    | overdue a0 hs0 =>
      cases hx; rw [hs0] at ht; rcases ht with h1 | h1 <;> exact absurd h1 (by simp)
  | paid a0 h amount now hs0 hh0 hp =>
    cases hx; rw [hs0] at ht; rcases ht with h1 | h1 <;> exact absurd h1 (by simp)

theorem docMove_new_helper (y : Option Assignment) (h : DocMove none y) (b : Assignment)
    (hy : y = some b) : b.helperId = none := by
  cases h with
  | quiet x y h =>
    cases h with
    | same x => exact absurd hy (by simp)
    | created a hs hh hp hf hpaid => cases hy; exact hh

theorem findUser_isSome (s : Store) (h : ObjectId) :
    (s.findUser h).isSome = true ↔ ∃ u, s.users[h]? = some (some u) := by
  constructor
  · intro hs
    obtain ⟨u, hu⟩ := Option.isSome_iff_exists.mp hs
    exact ⟨u, (findUser_eq_some s h u).1 hu⟩
  · rintro ⟨u, hu⟩
    rw [(findUser_eq_some s h u).2 hu]
    rfl

/-- The helper of an assignment that is neither paid nor cancelled has an
account, and every operation keeps it so: Accept attaches only an existing
account, no lifecycle operation removes an account, and the delete route
refuses to remove such a helper. -/
theorem stepAny_helperAlive (env : Env) (s : Store) (op : AnyOp)
    (hinv : ∀ id a h, s.findAssignment id = some a → a.helperId = some h →
      a.status ≠ Status.paid → a.status ≠ Status.cancelled → (s.findUser h).isSome = true) :
    ∀ id b h, (stepAny env s op).findAssignment id = some b → b.helperId = some h →
      b.status ≠ Status.paid → b.status ≠ Status.cancelled →
      ((stepAny env s op).findUser h).isSome = true := by
  intro id b h hb hh hp hc
  cases op with
  | lifecycle op =>
    have hmove := step_docMove env s op id
    have halive : (s.findUser h).isSome = true → ((step env s op).findUser h).isSome = true := by
      intro hs
      rw [findUser_isSome] at hs ⊢
      exact step_alive env s op h hs
    cases hx : s.findAssignment id with
    | none =>
      rw [hx] at hmove
      have hnone := docMove_new_helper _ hmove b hb
      rw [hnone] at hh
      exact absurd hh (by simp)
    | some a =>
      apply halive
      rcases (step_framed env s op id a b hx hb).1 with hsame | ⟨_, h2, hh2, hex⟩
      · have hnt : ¬ (a.status = Status.paid ∨ a.status = Status.cancelled) := by
          intro ht
          rcases docMove_terminal _ _ hmove a b hx hb ht with h1 | h1
          · exact hp h1
          · exact hc h1
        exact hinv id a h hx (hsame ▸ hh) (fun h1 => hnt (Or.inl h1)) (fun h1 => hnt (Or.inr h1))
      · rw [hh] at hh2
        cases hh2
        exact hex
  | account op =>
    have hb2 : s.findAssignment id = some b := by
      rw [← stepAny_findAssignment_account env s op id]; exact hb
    have hs := hinv id b h hb2 hh hp hc
    cases op with
    | deleteUser user uid spelledAsToken =>
      have hkeep := deleteUser_alive s user uid spelledAsToken h id b hb2 hh hp hc
      show ((deleteUser s user uid spelledAsToken).store.findUser h).isSome = true
      rw [hkeep]; exact hs
    | ensureAdmins failing =>
      rw [findUser_isSome] at hs ⊢
      exact ensureAdminsLoop_alive _ _ _ h hs
    | signIn code profile saveFails =>
      rw [findUser_isSome] at hs ⊢
      exact exchangeCode_alive _ _ _ _ h hs
    | registerHelper request registrationClosed saveFails =>
      rw [findUser_isSome] at hs ⊢
      exact registerHelper_alive _ _ _ _ h hs
    | updateRoles user uid roles =>
      rw [findUser_isSome] at hs ⊢
      exact updateUserRoles_alive _ _ _ _ h hs
    | updateStatus user uid isActive =>
      rw [findUser_isSome] at hs ⊢
      exact updateUserStatus_alive _ _ _ _ h hs

theorem lt_length_of_getElem? (l : List (Option User)) (i : Nat) (x : Option User)
    (h : l[i]? = some x) : i < l.length := by
  by_contra hge
  rw [List.getElem?_eq_none (Nat.le_of_not_lt hge)] at h
  exact absurd h (by simp)

theorem stepAny_slot_stays (env : Env) (s : Store) (op : AnyOp) (i : Nat) (x : Option User)
    (h : s.users[i]? = some x) : ∃ y, (stepAny env s op).users[i]? = some y := by
  have hkept : ∀ z, SlotKept s.users[i]? z → ∃ y, z = some y := by
    intro z hz
    rw [h] at hz
    cases x with
    | none => exact ⟨none, hz⟩
    | some u =>
      rcases hz with hz | ⟨v, hv, _⟩
      · exact ⟨none, hz⟩
      · exact ⟨some v, hv⟩
  cases hop : AnyOp.isPay op with
  | false => exact hkept _ (stepAny_slots env s op hop i)
  | true =>
    cases op with
    | account op => exact absurd hop (by simp [AnyOp.isPay])
    | lifecycle op =>
      cases op with
      | pay user id transactionId notes now fault =>
        rcases pay_slots s user id transactionId notes now fault i with
          hk | ⟨a, amount, u, _, _, _, hv⟩
        · exact hkept _ hk
        · exact ⟨_, hv⟩
      | _ => exact absurd hop (by simp [AnyOp.isPay])

theorem stepAny_users_length (env : Env) (s : Store) (op : AnyOp) :
    s.users.length ≤ (stepAny env s op).users.length := by
  by_contra hlt
  have hlt2 : (stepAny env s op).users.length < s.users.length := Nat.lt_of_not_le hlt
  have hget : s.users[(stepAny env s op).users.length]?
      = some (s.users[(stepAny env s op).users.length]) := List.getElem?_eq_getElem hlt2
  obtain ⟨y, hy⟩ := stepAny_slot_stays env s op _ _ hget
  exact absurd (lt_length_of_getElem? _ _ _ hy) (Nat.lt_irrefl _)

theorem stepAny_payouts_kept (env : Env) (s : Store) (op : AnyOp)
    (hop : AnyOp.isPay op = false) :
    (stepAny env s op).payoutTransactions = s.payoutTransactions := by
  cases op with
  | account op => exact (stepUser_assignments env s op).2
  | lifecycle op =>
    cases op with
    | create user body files channelSendThrows => exact (create_rest _ _ _ _ _ _).1
    | createModal interaction title description categoryName paymentInput deadlineString
        complexityInput world => exact modal_payouts _ _ _ _ _ _ _ _ _ _
    | accept user id => exact (accept_rest _ _ _).1
    | complete user id files now dm => exact (complete_rest _ _ _ _ _ _).1
    | review user id action feedback => exact (review_rest _ _ _ _ _).1
    | approveWork interaction id dm => exact (approveWork_rest _ _ _ _ _).1
    | requestRevision interaction id feedback dm => exact (requestRevision_rest _ _ _ _ _ _).1
    | setPayout user id v => exact (setPayout_rest _ _ _ _).1
    | dailyStatusCheck now failing => exact (dailyStatusLoop_rest _ _ _ _).2.1
    | pay user id transactionId notes now fault => exact absurd hop (by simp [AnyOp.isPay])


theorem earned_append (l : List PayoutTransaction) (tx : PayoutTransaction) (uid : ObjectId) :
    (((l ++ [tx]).filter (fun t => t.helperId == uid)).map (fun t => t.amount)).sum
      = ((l.filter (fun t => t.helperId == uid)).map (fun t => t.amount)).sum
        + (if tx.helperId = uid then tx.amount else 0) := by
  rw [List.filter_append, List.map_append, List.sum_append]
  by_cases h : tx.helperId = uid
  · simp [List.filter_cons, h]
  · simp [List.filter_cons, h]

theorem earned_zero (l : List PayoutTransaction) (uid : ObjectId)
    (h : ∀ t ∈ l, t.helperId ≠ uid) :
    ((l.filter (fun t => t.helperId == uid)).map (fun t => t.amount)).sum = 0 := by
  have hnil : l.filter (fun t => t.helperId == uid) = [] := by
    rw [List.filter_eq_nil_iff]
    intro t ht
    simpa using h t ht
  rw [hnil]
  rfl

/-- One operation without failing write keeps the earnings of every account
equal to the sum of its payout transactions, and the helper of every payout
transaction within the user collection. -/
theorem stepAny_earnings (env : Env) (s : Store) (op : AnyOp) (hff : AnyOp.faultFree op = true)
    (h1 : ∀ t ∈ s.payoutTransactions, t.helperId < s.users.length)
    (h3 : ∀ uid u, s.findUser uid = some u → u.totalEarnings = s.earnedBy uid)
    (h4 : ∀ id a h, s.findAssignment id = some a → a.helperId = some h →
      a.status ≠ Status.paid → a.status ≠ Status.cancelled → (s.findUser h).isSome = true) :
    (∀ t ∈ (stepAny env s op).payoutTransactions, t.helperId < (stepAny env s op).users.length)
      ∧ (∀ uid u, (stepAny env s op).findUser uid = some u →
          u.totalEarnings = (stepAny env s op).earnedBy uid) := by
  cases hop : AnyOp.isPay op with
  | false =>
    have htx := stepAny_payouts_kept env s op hop
    have hlen := stepAny_users_length env s op
    constructor
    · intro t ht
      rw [htx] at ht
      exact Nat.lt_of_lt_of_le (h1 t ht) hlen
    · intro uid v hv
      rw [findUser_eq_some] at hv
      have hk := stepAny_slots env s op hop uid
      rw [hv] at hk
      unfold Store.earnedBy
      rw [htx]
      rcases hx : s.users[uid]? with _ | _ | u
      · rw [hx] at hk
        rw [hk v rfl]
        have hge : s.users.length ≤ uid := by
          by_contra hlt
          rw [List.getElem?_eq_getElem (Nat.lt_of_not_le hlt)] at hx
          exact absurd hx (by simp)
        exact (earned_zero _ uid (fun t ht => Nat.ne_of_lt (Nat.lt_of_lt_of_le (h1 t ht) hge))).symm
      · rw [hx] at hk
        exact absurd hk (by simp [SlotKept])
      · rw [hx] at hk
        rcases hk with hk | ⟨w, hw, he⟩
        · exact absurd hk (by simp)
        · simp only [Option.some.injEq] at hw
          rw [hw, he]
          exact h3 uid u ((findUser_eq_some s uid u).2 hx)
  | true =>
    cases op with
    | account op => exact absurd hop (by simp [AnyOp.isPay])
    | lifecycle op =>
      cases op with
      | pay user id transactionId notes now fault =>
        have hnone : fault = none := by
          have h0 : fault.isNone = true := hff
          cases fault with
          | none => rfl
          | some f => simp at h0
        subst hnone
        rcases pay_ledger s user id transactionId notes now none with
          h | ⟨a, h, amount, ha, hs, hh, _, _, h6⟩
        · have hstep : stepAny env s (AnyOp.lifecycle
              (Op.pay user id transactionId notes now none)) = s := h
          rw [hstep]
          exact ⟨h1, h3⟩
        · rcases h6 with ⟨hf, _, _⟩ | ⟨hf, _, _⟩ | ⟨_, hp, hu⟩
          · exact absurd hf (by simp)
          · exact absurd hf (by simp)
          · have hp2 : (stepAny env s (AnyOp.lifecycle
                (Op.pay user id transactionId notes now none))).payoutTransactions
                = s.payoutTransactions ++
                  [{ assignmentId := id, helperId := h, amount := amount,
                     transactionId := transactionId.getD "", notes := notes, paidAt := now }] := hp
            have hu2 : (stepAny env s (AnyOp.lifecycle
                (Op.pay user id transactionId notes now none))).users
                = s.users.modify
                    (Option.map (fun u => { u with totalEarnings := u.totalEarnings + amount }))
                    h := hu
            have hexists := h4 id a h ha hh (by rw [hs]; simp) (by rw [hs]; simp)
            rw [findUser_isSome] at hexists
            obtain ⟨u0, hu0⟩ := hexists
            have hlt : h < s.users.length := lt_length_of_getElem? _ _ _ hu0
            constructor
            · intro t ht
              rw [hp2] at ht
              rw [hu2, List.length_modify]
              rcases List.mem_append.mp ht with ht | ht
              · exact h1 t ht
              · simp only [List.mem_singleton] at ht
                rw [ht]
                exact hlt
            · intro uid v hv
              rw [findUser_eq_some, hu2] at hv
              unfold Store.earnedBy
              rw [hp2, earned_append]
              by_cases hid : h = uid
              · subst hid
                rw [List.getElem?_modify_eq, hu0] at hv
                simp only [Option.map_eq_map, Option.map_some', Option.some.injEq] at hv
                rw [← hv]
                have hold := h3 h u0 ((findUser_eq_some s h u0).2 hu0)
                unfold Store.earnedBy at hold
                simp [hold]
              · rw [List.getElem?_modify_ne _ _ hid] at hv
                have hold := h3 uid v ((findUser_eq_some s uid v).2 hv)
                unfold Store.earnedBy at hold
                simp [hold, hid]
      | _ => exact absurd hop (by simp [AnyOp.isPay])

theorem runAny_earnings (env : Env) (ops : List AnyOp) (s : Store)
    (hff : ∀ op ∈ ops, AnyOp.faultFree op = true)
    (h1 : ∀ t ∈ s.payoutTransactions, t.helperId < s.users.length)
    (h3 : ∀ uid u, s.findUser uid = some u → u.totalEarnings = s.earnedBy uid)
    (h4 : ∀ id a h, s.findAssignment id = some a → a.helperId = some h →
      a.status ≠ Status.paid → a.status ≠ Status.cancelled → (s.findUser h).isSome = true) :
    (∀ uid u, (runAny env s ops).findUser uid = some u →
        u.totalEarnings = (runAny env s ops).earnedBy uid)
      ∧ (∀ id a h, (runAny env s ops).findAssignment id = some a → a.helperId = some h →
          a.status ≠ Status.paid → a.status ≠ Status.cancelled →
          ((runAny env s ops).findUser h).isSome = true) := by
  induction ops generalizing s with
  | nil => exact ⟨h3, h4⟩
  | cons op ops ih =>
    rw [runAny_cons]
    have hstep := stepAny_earnings env s op (hff op (List.mem_cons_self _ _)) h1 h3 h4
    exact ih _ (fun o ho => hff o (List.mem_cons_of_mem _ ho)) hstep.1 hstep.2
      (stepAny_helperAlive env s op h4)

theorem zero_of_all (users : List (Option User)) (categories : List Category)
    (hall : users.all (fun x => x.all (fun u => decide (u.totalEarnings = 0))) = true) :
    ∀ uid u, (initialStore users categories).findUser uid = some u → u.totalEarnings = 0 := by
  intro uid u hu
  rw [findUser_eq_some] at hu
  have hmem : some u ∈ users := List.getElem?_mem hu
  rw [List.all_eq_true] at hall
  simpa using hall _ hmem

/-- C29. Start from a store without assignments and payout transactions in
which every account has totalEarnings 0, and run any sequence of lifecycle
operations and operations on the accounts (sign-in, registration, bootstrap,
deletion, role and status updates) in which no write of Pay or of the daily
check fails.  Then the totalEarnings of every account equals the sum of the
amounts of the payout transactions whose helper it is; and the helper of every
assignment that is neither paid nor cancelled has an account, so that Pay,
which runs on ready_for_payout assignments only, always finds the account it
credits. -/
theorem earnings_match_transactions (env : Env) (users : List (Option User))
    (categories : List Category) (ops : List AnyOp)
    (hzero : ∀ uid u, (initialStore users categories).findUser uid = some u →
      u.totalEarnings = 0)
    (hff : ∀ op ∈ ops, AnyOp.faultFree op = true) :
    (∀ uid u, (runAny env (initialStore users categories) ops).findUser uid = some u →
        u.totalEarnings = (runAny env (initialStore users categories) ops).earnedBy uid)
      ∧ (∀ id a h, (runAny env (initialStore users categories) ops).findAssignment id = some a →
          a.helperId = some h → a.status ≠ Status.paid → a.status ≠ Status.cancelled →
          ((runAny env (initialStore users categories) ops).findUser h).isSome = true) :=
  runAny_earnings env ops (initialStore users categories) hff
    (fun t ht => absurd ht (by simp [initialStore]))
    (fun uid u hu => by
      rw [hzero uid u hu]
      simp [Store.earnedBy, initialStore])
    (fun id a h ha => absurd ha (by simp [initialStore, Store.findAssignment]))

/-- C29 at a concrete execution, which ends with helper 0 holding earnings of
70 against one payout transaction of 70, after the deletion of helper 0 was
refused while the assignment was open and the client was deleted once it was
paid. -/
theorem earnings_match_transactions_witness :
    ((runAny accountEnv (initialStore demoStore.users scenarioStart.categories)
        ledgerOps).findUser 0).map (fun u => u.totalEarnings) = some 70
      ∧ (runAny accountEnv (initialStore demoStore.users scenarioStart.categories)
          ledgerOps).findUser 1 = none
      ∧ (∀ uid u, (runAny accountEnv (initialStore demoStore.users scenarioStart.categories)
            ledgerOps).findUser uid = some u →
          u.totalEarnings = (runAny accountEnv
            (initialStore demoStore.users scenarioStart.categories) ledgerOps).earnedBy uid)
      ∧ (∀ id a h, (runAny accountEnv (initialStore demoStore.users scenarioStart.categories)
            ledgerOps).findAssignment id = some a →
          a.helperId = some h → a.status ≠ Status.paid → a.status ≠ Status.cancelled →
          ((runAny accountEnv (initialStore demoStore.users scenarioStart.categories)
            ledgerOps).findUser h).isSome = true) :=
  ⟨by decide!, by decide!,
    earnings_match_transactions accountEnv demoStore.users scenarioStart.categories ledgerOps
      (zero_of_all demoStore.users scenarioStart.categories (by decide!))
      (by decide)⟩

end AssignmentApp
